import Mathlib

/-!
# librw: geometry and material persistence

A shallow embedding of `src/geometry.cpp` (namespace `rw`) and of the pieces of
the stream codec and chunk framework it calls.

Conventions of the embedding

* A C array together with its element count is a `List`; a pointer to an
  array is an `Option (List _)`, `none` being `NULL`.  `numTexCoordSets`,
  `numMorphTargets` and `numMaterials` are the lengths of `texCoords`,
  `morphTargets` and `materialList`.
* `uint8`, `uint16`, `uint32` and `float32` values are natural numbers (a
  `float32` is its 32-bit pattern); `uint32` arithmetic that the code relies on
  is reduced with `% 2^32` explicitly.  `int32` counts are natural numbers:
  negative counts and signed overflow are undefined behaviour in the source and
  lie outside the embedding.
* The contents of a freshly allocated array (`new T[n]`) are indeterminate in
  C++; the embedding fills them with `0`.  A `stream->write` that reads past
  the end of its source buffer (or from `NULL`) and a `stream->read` through
  `NULL` are undefined in C++; the embedding emits `0` bytes for the former and
  stores nothing for the latter, so that every call moves the stream by exactly
  the number of bytes requested.
* Declarations of the repository that `geometry.cpp` uses but that are not part
  of the translated sources (flag bits, chunk ids, the plugin registry, the
  texture codec, the global format version) are the fields of `Env`.
-/

namespace rw

/-! ## Machine integers and memory images -/

/-- Reduction of a natural number to the range of `uint32`. -/
def u32 (n : Nat) : Nat := n % 2 ^ 32

/-- The `w` little-endian bytes of `x` (the low `w` bytes of its binary form). -/
def le : Nat → Nat → List Nat
  | 0, _ => []
  | w + 1, x => x % 256 :: le w (x / 256)

/-- The number whose little-endian bytes are `bs`. -/
def unle : List Nat → Nat
  | [] => 0
  | b :: bs => b + 256 * unle bs

/-- The memory image of an array whose elements are `w` bytes wide. -/
def image (w : Nat) (xs : List Nat) : List Nat := xs.flatMap (le w)

/-- The first `k` elements of width `w` stored in the bytes `bs`. -/
def elems (w : Nat) : Nat → List Nat → List Nat
  | 0, _ => []
  | k + 1, bs => unle (bs.take w) :: elems w k (bs.drop w)

/-! ## Stream codec -/

/-- Modelled from the spec: the `Stream` class (rwbase) is not among the
translated sources.  A stream being read is the list of the bytes not yet
consumed; a stream being written is the list of the bytes emitted so far. -/
abbrev Stream := List Nat

/-- Modelled from the spec: `Stream::write(buf, n)` of the stream codec, a raw
byte-range write.  It emits exactly `n` bytes, the first `n` bytes of the memory
image `mem` of the source buffer.  Reading past the end of the buffer (or from
`NULL`, whose image is empty) is undefined in C++; those bytes are `0` here, so
that the number of bytes every call emits is defined. -/
def Stream.write (mem : List Nat) (n : Nat) : List Nat :=
  mem.take n ++ List.replicate (n - mem.length) 0

/-- Modelled from the spec: `Stream::writeI32`, a 4-byte little-endian write. -/
def Stream.writeI32 (x : Nat) : List Nat := le 4 x

/-- Modelled from the spec: `Stream::read(buf, n)` of the stream codec.  No
partial reads: the call yields the next `n` bytes, or fails when fewer are
left. -/
def Stream.read (s : Stream) (n : Nat) : Option (List Nat × Stream) :=
  if n ≤ s.length then some (s.take n, s.drop n) else none

/-- Modelled from the spec: `Stream::readI32`, a 4-byte little-endian read. -/
def Stream.readI32 (s : Stream) : Option (Nat × Stream) :=
  match Stream.read s 4 with
  | some (bs, s1) => some (unle bs, s1)
  | none => none

/-- Modelled from the spec: `Stream::seek(n)`, the seek-relative primitive that
skips `n` bytes. -/
def Stream.seek (s : Stream) (n : Nat) : Stream := s.drop n

/-- The image of the array behind a pointer; `NULL` has no bytes.  A call
`stream->write(p, n)` with `p` `NULL` and `n` not 0 reads through the null
pointer in the source; which calls of `Geometry::streamWrite` do so is told by
`Geometry.writesFromNull`. -/
def memOf (w : Nat) (p : Option (List Nat)) : List Nat :=
  match p with
  | some xs => image w xs
  | none => []

/-- The effect of `stream->read(p, n)` on the array behind `p`, whose elements
are `w` bytes wide: the bytes read overwrite its leading elements.  With `p`
`NULL` there is no array; `Stream.readArray` lets that case through only for a
read of zero bytes. -/
def store (w : Nat) (p : Option (List Nat)) (bytes : List Nat) : Option (List Nat) :=
  match p with
  | some old => some (elems w (bytes.length / w) bytes ++ old.drop (bytes.length / w))
  | none => none

/-- The call `stream->read(p, n)` with an array pointer `p` as destination, the
elements `w` bytes wide.  It fails when `p` is `NULL` and `n` is not 0, where the
source stores `n` bytes through the null pointer, and when fewer than `n` bytes
are left in the stream; otherwise it yields the array after the call. -/
def Stream.readArray (w : Nat) (p : Option (List Nat)) (s : Stream) (n : Nat) :
    Option (Option (List Nat) × Stream) :=
  if p.isNone && n != 0 then none
  else
    match Stream.read s n with
    | none => none
    | some (bs, s1) => some (store w p bs, s1)

/-! ## Data model -/

/-- Modelled from the spec: a `Texture*` (rwobjects.h), the address of a shared,
reference-counted texture object whose pixel data lives elsewhere.  The
reference count of the object is kept in a `TextureCounts` store, so that every
material sharing the texture sees the same count. -/
structure Texture where
  addr : Nat
deriving DecidableEq, Repr

/-- The reference counts (`refCount`) of the texture objects, by address.  The
C type of the counter is declared in a header that is not among the translated
sources; a count is an integer here. -/
abbrev TextureCounts := Nat → Int

/-- The part of a rendering pipeline the material-rights extension uses. -/
structure Pipeline where
  pluginID : Nat
  pluginData : Nat
deriving DecidableEq, Repr

/-- The `RGBA` colour of a material, four `uint8`. -/
structure RGBA where
  red : Nat
  green : Nat
  blue : Nat
  alpha : Nat
deriving DecidableEq, Repr

/-- The three reflectance scalars of a material, as `float32` bit patterns. -/
structure SurfaceProperties where
  ambient : Nat
  specular : Nat
  diffuse : Nat
deriving DecidableEq, Repr

/-- The `Material` object.  `addr` is the address of the allocation, by which
`findPointer` recognises a material; `plugins` is the raw extension data behind
the object. -/
structure Material where
  addr : Nat
  texture : Option Texture
  color : RGBA
  surfaceProps : SurfaceProperties
  pipeline : Option Pipeline
  refCount : Int
  plugins : List Nat
deriving DecidableEq, Repr

/-- One `Mesh` of a mesh header: its `uint16` indices (`numIndices` is their
number) and the address of its material. -/
structure Mesh where
  indices : List Nat
  material : Nat
deriving DecidableEq, Repr

/-- The `MeshHeader` of a geometry: `flags` (1 is triangle-strip mode) and the
meshes (`numMeshes` is their number). -/
structure MeshHeader where
  flags : Nat
  mesh : List Mesh
deriving DecidableEq, Repr

/-- One `MorphTarget`: bounding sphere (four `float32`), positions, normals. -/
structure MorphTarget where
  boundingSphere : List Nat
  vertices : Option (List Nat)
  normals : Option (List Nat)
deriving DecidableEq, Repr

/-- The `Geometry` object. -/
structure Geometry where
  geoflags : Nat
  numTriangles : Nat
  numVertices : Nat
  colors : Option (List Nat)
  texCoords : List (Option (List Nat))
  triangles : Option (List Nat)
  morphTargets : List MorphTarget
  materialList : List Material
  meshHeader : Option MeshHeader
  instData : Option Nat
  refCount : Int
  plugins : List Nat
deriving DecidableEq, Repr

/-- The field `numTexCoordSets`. -/
def Geometry.numTexCoordSets (g : Geometry) : Nat := g.texCoords.length

/-- The field `numMorphTargets`. -/
def Geometry.numMorphTargets (g : Geometry) : Nat := g.morphTargets.length

/-- The field `numMaterials`. -/
def Geometry.numMaterials (g : Geometry) : Nat := g.materialList.length

/-- The declarations `geometry.cpp` takes from the rest of the repository. -/
structure Env where
  /-- The global format version `rw::version`. -/
  version : Nat
  /-- Geometry flag bits of `Geometry::Flags`. -/
  TEXTURED : Nat
  PRELIT : Nat
  NORMALS : Nat
  TEXTURED2 : Nat
  NATIVE : Nat
  /-- Chunk type ids. -/
  ID_STRUCT : Nat
  ID_GEOMETRY : Nat
  ID_MATLIST : Nat
  ID_MATERIAL : Nat
  ID_TEXTURE : Nat
  /-- Plugin registry of `Geometry`: initial extension data, total stream size,
  writer (the bytes `streamWritePlugins` emits) and reader. -/
  geoConstructPlugins : List Nat
  geoStreamGetPluginSize : Geometry → Nat
  geoStreamWritePlugins : Geometry → List Nat
  geoStreamReadPlugins : Stream → List Nat → Option (List Nat × Stream)
  /-- Plugin registry of `Material`; the reader also threads the file-scope
  array `materialRights`. -/
  matConstructPlugins : List Nat
  matStreamGetPluginSize : Material → Nat
  matStreamWritePlugins : Material → List Nat
  matStreamReadPlugins : Stream → List Nat → Nat × Nat → Option (List Nat × (Nat × Nat) × Stream)
  /-- The method `Material::assertRights`. -/
  assertRights : Material → Nat → Nat → Material
  /-- Texture codec. -/
  texStreamGetSize : Texture → Nat
  texStreamWrite : Texture → List Nat
  texStreamRead : Stream → Option (Texture × Stream)
  /-- Plugin registry of `Material`: `copyPlugins`, given the extension data of
  the destination and of the source. -/
  matCopyPlugins : List Nat → List Nat → List Nat

/-- Whether a flag bit is set in `x`, the C test `x & bit`. -/
def hasFlag (x bit : Nat) : Bool := x &&& bit != 0

/-! ## Geometry::create -/

/-- The method `Geometry::create`. -/
def Geometry.create (env : Env) (numVerts numTris flags : Nat) : Geometry :=
  let geoflags := flags &&& 0xFF00FFFF
  let n0 := (flags &&& 0xFF0000) >>> 16
  let numTexCoordSets :=
    if n0 = 0 then
      (if hasFlag geoflags env.TEXTURED then 1
       else if hasFlag geoflags env.TEXTURED2 then 2 else 0)
    else n0
  let cpu := !(hasFlag geoflags env.NATIVE) && numVerts != 0
  { geoflags := geoflags
    numTriangles := numTris
    numVertices := numVerts
    colors :=
      if cpu && hasFlag geoflags env.PRELIT then some (List.replicate (4 * numVerts) 0)
      else none
    texCoords :=
      List.replicate numTexCoordSets
        (if cpu && (hasFlag geoflags env.TEXTURED || hasFlag geoflags env.TEXTURED2) then
          some (List.replicate (2 * numVerts) 0)
        else none)
    triangles := if cpu then some (List.replicate (4 * numTris) 0) else none
    morphTargets :=
      [{ boundingSphere := [0, 0, 0, 0]
         vertices := if cpu then some (List.replicate (3 * numVerts) 0) else none
         normals :=
           if cpu && hasFlag geoflags env.NORMALS then some (List.replicate (3 * numVerts) 0)
           else none }]
    materialList := []
    meshHeader := none
    instData := none
    refCount := 1
    plugins := env.geoConstructPlugins }

/-! ## Chunk framework -/

/-- Modelled from the spec: `writeChunkHeader(stream, type, size)` of the chunk
framework, which is not among the translated sources.  It emits the 12-byte
header: `u32` kind, `u32` length, `u32` format version. -/
def writeChunkHeader (env : Env) (type size : Nat) : List Nat :=
  le 4 type ++ le 4 size ++ le 4 env.version

/-- One scanning pass of `findChunk`, bounded by `fuel` chunk headers. -/
def findChunkAux : Nat → Stream → Nat → Option ((Nat × Nat) × Stream)
  | 0, _, _ => none
  | fuel + 1, s, type =>
    match Stream.read s 12 with
    | none => none
    | some (hdr, s1) =>
      if unle (hdr.take 4) = type then
        some ((unle ((hdr.drop 4).take 4), unle ((hdr.drop 8).take 4)), s1)
      else findChunkAux fuel (Stream.seek s1 (unle ((hdr.drop 4).take 4))) type

/-- Modelled from the spec: `findChunk(stream, type, &length, &version)` of the
chunk framework.  It scans forward, skipping chunks of other kinds, until a
header of kind `type` is found, and yields that header's length and version
with the stream positioned at the payload; it fails at the end of the stream.
Every pass consumes a 12-byte header, so the number of bytes left bounds the
number of passes. -/
def findChunk (s : Stream) (type : Nat) : Option ((Nat × Nat) × Stream) :=
  findChunkAux s.length s type

/-! ## Material: size and writer -/

/-- The method `Material::streamGetSize`. -/
def Material.streamGetSize (env : Env) (m : Material) : Nat :=
  let size := 0
  let size := u32 (size + (12 + 16))
  let size := if env.version ≥ 0x30400 then u32 (size + 12) else size
  let size :=
    match m.texture with
    | some t => u32 (size + (12 + env.texStreamGetSize t))
    | none => size
  u32 (size + (12 + env.matStreamGetPluginSize m))

/-- The method `Material::streamWrite`: the bytes it emits. -/
def Material.streamWrite (env : Env) (m : Material) : List Nat :=
  writeChunkHeader env env.ID_MATERIAL (m.streamGetSize env)
  ++ writeChunkHeader env env.ID_STRUCT (16 + (if env.version ≥ 0x30400 then 12 else 0))
  ++ (Stream.writeI32 0
      ++ [m.color.red, m.color.green, m.color.blue, m.color.alpha]
      ++ Stream.writeI32 0
      ++ Stream.writeI32 (if m.texture.isSome then 1 else 0))
  ++ (if env.version ≥ 0x30400 then
        Stream.write
          (image 4 [m.surfaceProps.ambient, m.surfaceProps.specular, m.surfaceProps.diffuse]) 12
      else [])
  ++ (match m.texture with
      | some t => env.texStreamWrite t
      | none => [])
  ++ env.matStreamWritePlugins m

/-! ## Geometry: sizes and writer -/

/-- The function `geoStructSize`: one pass of its loop over the morph targets. -/
def geoStructSizeMorph (env : Env) (g : Geometry) (size : Nat) (m : MorphTarget) : Nat :=
  let size := u32 (size + (4 * 4 + 2 * 4))
  if !(hasFlag g.geoflags env.NATIVE) then
    let size := if m.vertices.isSome then u32 (size + 3 * g.numVertices * 4) else size
    if m.normals.isSome then u32 (size + 3 * g.numVertices * 4) else size
  else size

/-- The function `geoStructSize`. -/
def geoStructSize (env : Env) (g : Geometry) : Nat :=
  let size := 0
  let size := u32 (size + 16)
  let size := if env.version < 0x34000 then u32 (size + 12) else size
  let size :=
    if !(hasFlag g.geoflags env.NATIVE) then
      let size :=
        if hasFlag g.geoflags env.PRELIT then u32 (size + 4 * g.numVertices) else size
      let size :=
        (List.range g.numTexCoordSets).foldl
          (fun size _ => u32 (size + 2 * g.numVertices * 4)) size
      u32 (size + 4 * g.numTriangles * 2)
    else size
  g.morphTargets.foldl (geoStructSizeMorph env g) size

/-- The method `Geometry::streamGetSize`. -/
def Geometry.streamGetSize (env : Env) (g : Geometry) : Nat :=
  let size := 0
  let size := u32 (size + (12 + geoStructSize env g))
  let size := u32 (size + (12 + 12 + 4))
  let size :=
    g.materialList.foldl (fun size m => u32 (size + (4 + 12 + m.streamGetSize env))) size
  u32 (size + (12 + env.geoStreamGetPluginSize g))

/-- The method `Geometry::streamWrite`, one pass of its loop over the morph
targets (source lines 207 to 221). -/
def Geometry.writeMorphTarget (env : Env) (g : Geometry) (m : MorphTarget) : List Nat :=
  Stream.write (image 4 m.boundingSphere) (4 * 4)
  ++ (if !(hasFlag g.geoflags env.NATIVE) then
        Stream.writeI32 (if m.vertices.isSome then 1 else 0)
        ++ Stream.writeI32 (if m.normals.isSome then 1 else 0)
        ++ (if m.vertices.isSome then
              Stream.write (memOf 4 m.vertices) (3 * g.numVertices * 4)
            else [])
        ++ (if m.normals.isSome then
              Stream.write (memOf 4 m.normals) (3 * g.numVertices * 4)
            else [])
      else Stream.writeI32 0 ++ Stream.writeI32 0)

/-- The method `Geometry::streamWrite`, the colour, texture-coordinate and
triangle arrays (source lines 197 to 204). -/
def Geometry.writeArrays (env : Env) (g : Geometry) : List Nat :=
  if !(hasFlag g.geoflags env.NATIVE) then
    (if hasFlag g.geoflags env.PRELIT then
      Stream.write (memOf 1 g.colors) (4 * g.numVertices)
     else [])
    ++ g.texCoords.flatMap (fun tc => Stream.write (memOf 4 tc) (2 * g.numVertices * 4))
    ++ Stream.write (memOf 2 g.triangles) (4 * g.numTriangles * 2)
  else []

/-- The method `Geometry::streamWrite`, the payload of the STRUCT chunk (source
lines 189 to 222): the `GeoStreamData` record, the legacy surface properties,
the arrays, the morph targets. -/
def Geometry.writeStruct (env : Env) (g : Geometry) : List Nat :=
  (le 4 (g.geoflags ||| (g.numTexCoordSets <<< 16))
    ++ le 4 g.numTriangles ++ le 4 g.numVertices ++ le 4 g.numMorphTargets)
  ++ (if env.version < 0x34000 then
        Stream.write (image 4 [0x3F800000, 0x3F800000, 0x3F800000]) 12
      else [])
  ++ g.writeArrays env
  ++ g.morphTargets.flatMap (g.writeMorphTarget env)

/-- The method `Geometry::streamWrite`, the material list (source lines 224 to
233): the MATLIST header, its STRUCT chunk and the materials. -/
def Geometry.writeMatList (env : Env) (g : Geometry) : List Nat :=
  let size := u32 (12 + 4)
  let size :=
    g.materialList.foldl (fun size m => u32 (size + (4 + 12 + m.streamGetSize env))) size
  writeChunkHeader env env.ID_MATLIST size
  ++ writeChunkHeader env env.ID_STRUCT (4 + g.numMaterials * 4)
  ++ Stream.writeI32 g.numMaterials
  ++ g.materialList.flatMap (fun _ => Stream.writeI32 (u32 (2 ^ 32 - 1)))
  ++ g.materialList.flatMap (fun m => m.streamWrite env)

/-- The method `Geometry::streamWrite`: the bytes it emits. -/
def Geometry.streamWrite (env : Env) (g : Geometry) : List Nat :=
  writeChunkHeader env env.ID_GEOMETRY (g.streamGetSize env)
  ++ writeChunkHeader env env.ID_STRUCT (geoStructSize env g)
  ++ g.writeStruct env
  ++ g.writeMatList env
  ++ env.geoStreamWritePlugins g

/-- Whether `Geometry::streamWrite` passes a `NULL` array with a nonzero byte
count to `stream->write` (source lines 197 to 204): the colour array when PRELIT
is set, a texture-coordinate array, or the triangle array, of a geometry that is
not NATIVE.  The two arrays of a morph target are written only when they are not
`NULL`. -/
def Geometry.writesFromNull (env : Env) (g : Geometry) : Bool :=
  !(hasFlag g.geoflags env.NATIVE)
    && ((hasFlag g.geoflags env.PRELIT && g.colors.isNone && 4 * g.numVertices != 0)
      || g.texCoords.any (fun tc => tc.isNone && 2 * g.numVertices * 4 != 0)
      || (g.triangles.isNone && 4 * g.numTriangles * 2 != 0))

/-- The method `Geometry::streamWrite` as a call that can fail: it fails when it
would read a nonzero number of bytes through a `NULL` array pointer, and emits
the bytes of `Geometry.streamWrite` otherwise. -/
def Geometry.streamWriteChecked (env : Env) (g : Geometry) : Option (List Nat) :=
  if g.writesFromNull env then none else some (g.streamWrite env)

/-! ## Geometry::addMorphTargets -/

/-- The method `Geometry::addMorphTargets`.  `junk i` is the indeterminate
content of slot `i` of the array that `new MorphTarget[numMorphTargets+n]`
returns (`MorphTarget` has no constructor); the `memcpy` fills the first
`numMorphTargets` slots and the loop `for(i = numMorphTargets; i < n; i++)`
sets the two array pointers of the slots it visits. -/
def Geometry.addMorphTargets (env : Env) (junk : Nat → MorphTarget) (g : Geometry) (n : Nat) :
    Geometry :=
  if n = 0 then g
  else
    let k := g.numMorphTargets
    let morphTargets := g.morphTargets ++ (List.range n).map (fun d => junk (k + d))
    let morphTargets :=
      (List.range' k (n - k)).foldl
        (fun arr i =>
          arr.set i
            { arr.getD i (junk i) with
              vertices :=
                if !(hasFlag g.geoflags env.NATIVE) then
                  some (List.replicate (3 * g.numVertices) 0)
                else none
              normals :=
                if !(hasFlag g.geoflags env.NATIVE) && hasFlag g.geoflags env.NORMALS then
                  some (List.replicate (3 * g.numVertices) 0)
                else none })
        morphTargets
    { g with morphTargets := morphTargets }

/-! ## Geometry::generateTriangles -/

/-- The function `isDegenerate`, applied to the pointer `&indices[j]`, that is to
the indices from position `j` on. -/
def isDegenerate (idx : List Nat) : Bool :=
  idx.getD 0 0 == idx.getD 1 0 || idx.getD 0 0 == idx.getD 2 0 || idx.getD 1 0 == idx.getD 2 0

/-- The C test `adc && adcbits[k]`, where `adcbits` is `adc` advanced by `off`
entries of type `int8`. -/
def adcSet (adc : Option (List Int)) (off k : Nat) : Bool :=
  match adc with
  | none => false
  | some bits => bits.getD (off + k) 0 != 0

/-- Modelled from the spec: `findPointer(p, list, num)` (rwbase), the position
of the first entry of `list` equal to `p`, or `-1` when there is none. -/
def findPointer (p : Nat) (list : List Nat) : Int :=
  if p ∈ list then (list.indexOf p : Int) else -1

/-- The conversion of an `int32` to `uint16` done by `*f++ = matid`. -/
def toU16 (x : Int) : Nat := (x % 65536).toNat

/-- The first loop of `Geometry::generateTriangles`, one mesh: the state is
`numTriangles` and the offset of `adcbits` from `adc`. -/
def countMesh (flags : Nat) (adc : Option (List Int)) (st : Nat × Nat) (m : Mesh) : Nat × Nat :=
  let numIndices := m.indices.length
  if numIndices < 3 then (st.1, st.2 + numIndices)
  else
    let numTriangles :=
      if flags = 1 then
        (List.range (numIndices - 2)).foldl
          (fun c j =>
            if !(adcSet adc st.2 (j + 2)) && !(isDegenerate (m.indices.drop j)) then c + 1
            else c)
          st.1
      else st.1 + numIndices / 3
    (numTriangles, st.2 + numIndices)

/-- The values of `j` the list-mode loop `for(j = 0; j < numIndices-2; j += 3)`
visits, given `fuel` at least the number of passes. -/
def listSteps (numIndices : Nat) : Nat → Nat → List Nat
  | 0, _ => []
  | fuel + 1, j => if j < numIndices - 2 then j :: listSteps numIndices fuel (j + 3) else []

/-- The second loop of `Geometry::generateTriangles`, one mesh: the state is the
entries written through `f` so far and the offset of `adcbits` from `adc`. -/
def writeMesh (flags : Nat) (adc : Option (List Int)) (materialList : List Nat)
    (st : List Nat × Nat) (m : Mesh) : List Nat × Nat :=
  let numIndices := m.indices.length
  if numIndices < 3 then (st.1, st.2 + numIndices)
  else
    let matid := findPointer m.material materialList
    let f :=
      if flags = 1 then
        (List.range (numIndices - 2)).foldl
          (fun f j =>
            if adcSet adc st.2 (j + 2) || isDegenerate (m.indices.drop j) then f
            else
              f ++ [m.indices.getD (j + 1 + j % 2) 0, m.indices.getD (j + 0) 0, toU16 matid,
                    m.indices.getD (j + 2 - j % 2) 0])
          st.1
      else
        (listSteps numIndices numIndices 0).foldl
          (fun f j =>
            f ++ [m.indices.getD (j + 1) 0, m.indices.getD (j + 0) 0, toU16 matid,
                  m.indices.getD (j + 2) 0])
          st.1
    (f, st.2 + numIndices)

/-- The method `Geometry::generateTriangles`; it fails when the assertion
`header != NULL` does.  The entries written through `f` fill the new array
`uint16[4*numTriangles]` from its start. -/
def Geometry.generateTriangles (g : Geometry) (adc : Option (List Int)) : Option Geometry :=
  match g.meshHeader with
  | none => none
  | some header =>
    let numTriangles := (header.mesh.foldl (countMesh header.flags adc) (0, 0)).1
    let fresh := List.replicate (4 * numTriangles) 0
    let written :=
      (header.mesh.foldl
        (writeMesh header.flags adc (g.materialList.map (fun mat => mat.addr))) ([], 0)).1
    some { g with
      numTriangles := numTriangles
      triangles := some (written ++ fresh.drop written.length) }

/-! ## Material: create and reader -/

/-- The method `Material::create`; `addr` is the address `malloc` returns. -/
def Material.create (env : Env) (addr : Nat) : Material :=
  { addr := addr
    texture := none
    color := { red := 0xFF, green := 0xFF, blue := 0xFF, alpha := 0xFF }
    surfaceProps := { ambient := 0x3F800000, specular := 0x3F800000, diffuse := 0x3F800000 }
    pipeline := none
    refCount := 1
    plugins := env.matConstructPlugins }

/-- The method `Material::streamRead`.  `rights` is the file-scope array
`materialRights`, which the call updates; a failed `findChunk` assertion or a
truncated read fails the call. -/
def Material.streamRead (env : Env) (addr : Nat) (rights : Nat × Nat) (s : Stream) :
    Option (Material × (Nat × Nat) × Stream) :=
  match findChunk s env.ID_STRUCT with
  | none => none
  | some ((_, version), s) =>
  match Stream.read s 16 with
  | none => none
  | some (buf, s) =>
  let mat := Material.create env addr
  let mat := { mat with color :=
    { red := buf.getD 4 0, green := buf.getD 5 0, blue := buf.getD 6 0, alpha := buf.getD 7 0 } }
  let props : Option (SurfaceProperties × Stream) :=
    if version < 0x30400 then
      some ({ ambient := 0x3F800000, specular := 0x3F800000, diffuse := 0x3F800000 }, s)
    else
      match Stream.read s 12 with
      | none => none
      | some (bs, s) =>
        some ({ ambient := unle (bs.take 4), specular := unle ((bs.drop 4).take 4),
                diffuse := unle ((bs.drop 8).take 4) }, s)
  match props with
  | none => none
  | some (sp, s) =>
  let mat := { mat with surfaceProps := sp }
  let tex : Option (Option Texture × Stream) :=
    if unle ((buf.drop 12).take 4) ≠ 0 then
      match findChunk s env.ID_TEXTURE with
      | none => none
      | some (_, s) =>
        match env.texStreamRead s with
        | none => none
        | some (t, s) => some (some t, s)
    else some (mat.texture, s)
  match tex with
  | none => none
  | some (t, s) =>
  let mat := { mat with texture := t }
  let rights := (0, rights.2)
  match env.matStreamReadPlugins s mat.plugins rights with
  | none => none
  | some (plugins, rights, s) =>
  let mat := { mat with plugins := plugins }
  let mat := if rights.1 ≠ 0 then env.assertRights mat rights.1 rights.2 else mat
  some (mat, rights, s)

/-! ## Geometry: reader -/

/-- The loop of `Geometry::streamRead` over the texture-coordinate sets. -/
def readTexCoords (numVertices : Nat) :
    List (Option (List Nat)) → Stream → Option (List (Option (List Nat)) × Stream)
  | [], s => some ([], s)
  | tc :: rest, s =>
    match Stream.readArray 4 tc s (2 * numVertices * 4) with
    | none => none
    | some (tc, s) =>
      match readTexCoords numVertices rest s with
      | none => none
      | some (rest, s) => some (tc :: rest, s)

/-- The loop of `Geometry::streamRead` over the morph targets. -/
def readMorphTargets (numVertices : Nat) :
    List MorphTarget → Stream → Option (List MorphTarget × Stream)
  | [], s => some ([], s)
  | m :: rest, s =>
    match Stream.read s (4 * 4) with
    | none => none
    | some (sphere, s) =>
    match Stream.readI32 s with
    | none => none
    | some (hasVertices, s) =>
    match Stream.readI32 s with
    | none => none
    | some (hasNormals, s) =>
    let verts : Option (Option (List Nat) × Stream) :=
      if hasVertices ≠ 0 then Stream.readArray 4 m.vertices s (3 * numVertices * 4)
      else some (m.vertices, s)
    match verts with
    | none => none
    | some (vertices, s) =>
    let norms : Option (Option (List Nat) × Stream) :=
      if hasNormals ≠ 0 then Stream.readArray 4 m.normals s (3 * numVertices * 4)
      else some (m.normals, s)
    match norms with
    | none => none
    | some (normals, s) =>
    match readMorphTargets numVertices rest s with
    | none => none
    | some (rest, s) =>
      some ({ boundingSphere := elems 4 4 sphere ++ m.boundingSphere.drop 4,
              vertices := vertices, normals := normals } :: rest, s)

/-- The loop of `Geometry::streamRead` over the materials: `k` materials are
still to be read, the next one is number `i`; `alloc i` is the address of the
`i`-th material allocated. -/
def readMaterials (env : Env) (alloc : Nat → Nat) :
    Nat → Nat → Nat × Nat → Stream → Option (List Material × (Nat × Nat) × Stream)
  | 0, _, rights, s => some ([], rights, s)
  | k + 1, i, rights, s =>
    match findChunk s env.ID_MATERIAL with
    | none => none
    | some (_, s) =>
    match Material.streamRead env (alloc i) rights s with
    | none => none
    | some (mat, rights, s) =>
    match readMaterials env alloc k (i + 1) rights s with
    | none => none
    | some (rest, rights, s) => some (mat :: rest, rights, s)

/-- The method `Geometry::streamRead`, the colour, texture-coordinate and
triangle arrays (source lines 117 to 124). -/
def Geometry.readArrays (env : Env) (geo : Geometry) (s : Stream) : Option (Geometry × Stream) :=
  if !(hasFlag geo.geoflags env.NATIVE) then
    let cols : Option (Geometry × Stream) :=
      if hasFlag geo.geoflags env.PRELIT then
        match Stream.readArray 1 geo.colors s (4 * geo.numVertices) with
        | none => none
        | some (colors, s) => some ({ geo with colors := colors }, s)
      else some (geo, s)
    match cols with
    | none => none
    | some (geo, s) =>
    match readTexCoords geo.numVertices geo.texCoords s with
    | none => none
    | some (texCoords, s) =>
    match Stream.readArray 2 geo.triangles s (4 * geo.numTriangles * 2) with
    | none => none
    | some (triangles, s) =>
      some ({ geo with texCoords := texCoords, triangles := triangles }, s)
  else some (geo, s)

/-- The method `Geometry::streamRead`, called with the stream positioned behind
the GEOMETRY chunk header.  A failed `findChunk` assertion, a truncated read or
a read of a nonzero number of bytes into a `NULL` array fails the call.  `junk` is passed to `addMorphTargets`, `alloc` and `rights` to
the material reader.  A stored morph-target count of 0 makes the argument of
`addMorphTargets` negative, which overruns the new array in the source and lies
outside the embedding. -/
def Geometry.streamRead (env : Env) (junk : Nat → MorphTarget) (alloc : Nat → Nat)
    (rights : Nat × Nat) (s : Stream) : Option (Geometry × (Nat × Nat) × Stream) :=
  match findChunk s env.ID_STRUCT with
  | none => none
  | some ((_, version), s) =>
  match Stream.read s 16 with
  | none => none
  | some (buf, s) =>
  let geo := Geometry.create env (unle ((buf.drop 8).take 4)) (unle ((buf.drop 4).take 4))
    (unle (buf.take 4))
  let geo := geo.addMorphTargets env junk (unle ((buf.drop 12).take 4) - 1)
  let s := if version < 0x34000 then Stream.seek s 12 else s
  match geo.readArrays env s with
  | none => none
  | some (geo, s) =>
  match readMorphTargets geo.numVertices geo.morphTargets s with
  | none => none
  | some (morphTargets, s) =>
  let geo := { geo with morphTargets := morphTargets }
  match findChunk s env.ID_MATLIST with
  | none => none
  | some (_, s) =>
  match findChunk s env.ID_STRUCT with
  | none => none
  | some (_, s) =>
  match Stream.readI32 s with
  | none => none
  | some (numMaterials, s) =>
  let s := Stream.seek s (numMaterials * 4)
  match readMaterials env alloc numMaterials 0 rights s with
  | none => none
  | some (materialList, rights, s) =>
  let geo := { geo with materialList := materialList }
  match env.geoStreamReadPlugins s geo.plugins with
  | none => none
  | some (plugins, s) => some ({ geo with plugins := plugins }, rights, s)

/-! ## Material: clone and destroy -/

/-- Modelled from the spec: `Texture::destroy`, which is not among the
translated sources: it drops one reference, decrementing the texture's count
(the texture is released when no owner is left). -/
def Texture.destroy (t : Texture) (counts : TextureCounts) : TextureCounts :=
  fun a => if a = t.addr then counts a - 1 else counts a

/-- The method `Material::clone`; `addr` is the address `malloc` returns for the
new material.  The result is the object `this` after the call (the method
assigns to none of its fields), the new material, and the texture counts. -/
def Material.clone (env : Env) (addr : Nat) (this : Material) (counts : TextureCounts) :
    Material × Material × TextureCounts :=
  let mat := Material.create env addr
  let mat := { mat with color := this.color }
  let mat := { mat with surfaceProps := this.surfaceProps }
  let shared : Material × TextureCounts :=
    match this.texture with
    | some t =>
      ({ mat with texture := some t }, fun a => if a = t.addr then counts a + 1 else counts a)
    | none => (mat, counts)
  let mat := { shared.1 with pipeline := this.pipeline }
  let mat := { mat with plugins := env.matCopyPlugins mat.plugins this.plugins }
  (this, mat, shared.2)

/-- The method `Material::destroy`.  The result is the object after the
decrement (it is freed when the count is not positive any more; `destructPlugins`
and `free` touch none of the fields kept here) and the texture counts. -/
def Material.destroy (this : Material) (counts : TextureCounts) : Material × TextureCounts :=
  let this := { this with refCount := this.refCount - 1 }
  if this.refCount ≤ 0 then
    match this.texture with
    | some t => (this, t.destroy counts)
    | none => (this, counts)
  else (this, counts)

/-! ## Hierarchical animation: data model -/

/-- The two's-complement `uint32` image of an `int32`. -/
def toU32 (x : Int) : Nat := (x % 2 ^ 32).toNat

/-- The `int32` whose two's-complement image is the low 32 bits of `n`. -/
def toI32 (n : Nat) : Int :=
  if n % 2 ^ 32 < 2 ^ 31 then ((n % 2 ^ 32 : Nat) : Int) else ((n % 2 ^ 32 : Nat) : Int) - 2 ^ 32

/-- Modelled from the spec: `Stream::writeI32` applied to a signed value. -/
def Stream.writeInt32 (x : Int) : List Nat := Stream.writeI32 (toU32 x)

/-- Modelled from the spec: `Stream::readI32` with its result taken as the
`int32` it is. -/
def Stream.readInt32 (s : Stream) : Option (Int × Stream) :=
  match Stream.readI32 s with
  | some (n, s1) => some (toI32 n, s1)
  | none => none

/-- Modelled from the spec: `Stream::writeF32`, a 4-byte write of the bit
pattern of a float. -/
def Stream.writeF32 (x : Nat) : List Nat := le 4 x

/-- Modelled from the spec: `Stream::readF32`, a 4-byte read of the bit pattern
of a float. -/
def Stream.readF32 (s : Stream) : Option (Nat × Stream) :=
  match Stream.read s 4 with
  | some (bs, s1) => some (unle bs, s1)
  | none => none

/-- The ways a load fails (section 7 of the specification): a read past the end
of the stream, and the failed assertion `ver == 0x100` of `readHAnim`. -/
inductive LoadError where
  | truncatedStream
  | unsupportedHierarchyVersion
deriving DecidableEq, Repr

/-- One `HAnimNodeInfo`; `frame` is the address of the frame the node is bound
to, `none` being `nil`. -/
structure HAnimNodeInfo where
  id : Int
  index : Int
  flags : Int
  frame : Option Nat
deriving DecidableEq, Repr

/-- The `HAnimHierarchy` object.  `numNodes` is the length of `nodeInfo`;
`parentFrame` is the address of a frame; `matricesUnaligned` is the byte buffer
behind the node matrices (`matrices` is an aligned address inside it and
`parentHierarchy` the object's own address, neither is kept here). -/
structure HAnimHierarchy where
  flags : Int
  maxInterpKeyFrameSize : Int
  parentFrame : Option Nat
  matricesUnaligned : Option (List Nat)
  nodeInfo : List HAnimNodeInfo
deriving DecidableEq, Repr

/-- The field `numNodes`. -/
def HAnimHierarchy.numNodes (hier : HAnimHierarchy) : Nat := hier.nodeInfo.length

/-- The `HAnimData` record a frame carries at `hAnimOffset`; the hierarchy is
owned by the record (`destroyHAnim` destroys it). -/
structure HAnimData where
  id : Int
  hierarchy : Option HAnimHierarchy
deriving DecidableEq, Repr

/-- A frame pointer together with what is reachable from it: `nil`, or the
frame at address `addr` with its `HAnimData` record (what `HAnimData::get`
returns), its `next` sibling and its first `child`.  An inductive tree is
finite and acyclic. -/
inductive Frame where
  | nil : Frame
  | node (addr : Nat) (hanim : HAnimData) (next : Frame) (child : Frame) : Frame
deriving DecidableEq, Repr

/-- The address a frame pointer holds, `none` for `nil`. -/
def Frame.addrOf : Frame → Option Nat
  | Frame.nil => none
  | Frame.node addr _ _ _ => some addr

/-! ## Hierarchical animation: hierarchy operations -/

/-- The method `HAnimHierarchy::create`. -/
def HAnimHierarchy.create (numNodes : Nat) (nodeFlags nodeIDs : List Int) (flags maxKeySize : Int) :
    HAnimHierarchy :=
  { flags := flags
    maxInterpKeyFrameSize := maxKeySize
    parentFrame := none
    matricesUnaligned :=
      if hasFlag (toU32 flags) 2 then none else some (List.replicate (numNodes * 64 + 15) 0)
    nodeInfo :=
      (List.range numNodes).map (fun i =>
        { id := nodeIDs.getD i 0, index := i, flags := nodeFlags.getD i 0, frame := none }) }

/-- The function `findById`. -/
def findById : Frame → Int → Frame
  | Frame.nil, _ => Frame.nil
  | Frame.node addr hanim next child, id =>
    if hanim.id ≥ 0 ∧ hanim.id = id then Frame.node addr hanim next child
    else
      match findById next id with
      | Frame.nil => findById child id
      | Frame.node a h n c => Frame.node a h n c

/-- The method `HAnimHierarchy::attachByIndex`; `parentFrame` is the frame tree
the field `parentFrame` points to. -/
def HAnimHierarchy.attachByIndex (hier : HAnimHierarchy) (parentFrame : Frame) (idx : Nat) :
    HAnimHierarchy :=
  match hier.nodeInfo[idx]? with
  | none => hier
  | some node =>
    { hier with
      nodeInfo := hier.nodeInfo.set idx { node with frame := (findById parentFrame node.id).addrOf } }

/-- The method `HAnimHierarchy::attach`; `parentFrame` is the frame tree the
field `parentFrame` points to. -/
def HAnimHierarchy.attach (hier : HAnimHierarchy) (parentFrame : Frame) : HAnimHierarchy :=
  (List.range hier.numNodes).foldl (fun h i => h.attachByIndex parentFrame i) hier

/-! ## Hierarchical animation: the frame extension stream -/

/-- The loop of `readHAnim` over the nodes: `k` triples (id, index, flags) are
still to be read; the result is the arrays `nodeIDs` and `nodeFlags`. -/
def readHAnimNodes : Nat → Stream → Option ((List Int × List Int) × Stream)
  | 0, s => some (([], []), s)
  | k + 1, s =>
    match Stream.readInt32 s with
    | none => none
    | some (id, s) =>
    match Stream.readInt32 s with
    | none => none
    | some (_, s) =>
    match Stream.readInt32 s with
    | none => none
    | some (flags, s) =>
    match readHAnimNodes k s with
    | none => none
    | some ((ids, fls), s) => some ((id :: ids, flags :: fls), s)

/-- The function `readHAnim`: `object` is the address of the host frame and
`hanim` its `HAnimData` record.  A read past the end of the stream fails with
`truncatedStream`, the assertion `ver == 0x100` with
`unsupportedHierarchyVersion`.  A negative node count makes the `new int32[]` of
the source ill-formed and lies outside the embedding (the loops then run zero
times). -/
def readHAnim (object : Nat) (hanim : HAnimData) (s : Stream) :
    Except LoadError (HAnimData × Stream) :=
  match Stream.readInt32 s with
  | none => Except.error LoadError.truncatedStream
  | some (ver, s) =>
  if ver ≠ 0x100 then Except.error LoadError.unsupportedHierarchyVersion
  else
  match Stream.readInt32 s with
  | none => Except.error LoadError.truncatedStream
  | some (id, s) =>
  let hanim := { hanim with id := id }
  match Stream.readInt32 s with
  | none => Except.error LoadError.truncatedStream
  | some (numNodes, s) =>
  if numNodes ≠ 0 then
    match Stream.readInt32 s with
    | none => Except.error LoadError.truncatedStream
    | some (flags, s) =>
    match Stream.readInt32 s with
    | none => Except.error LoadError.truncatedStream
    | some (maxKeySize, s) =>
    match readHAnimNodes numNodes.toNat s with
    | none => Except.error LoadError.truncatedStream
    | some ((nodeIDs, nodeFlags), s) =>
      let hier := HAnimHierarchy.create numNodes.toNat nodeFlags nodeIDs flags maxKeySize
      let hier := { hier with parentFrame := some object }
      Except.ok ({ hanim with hierarchy := some hier }, s)
  else Except.ok (hanim, s)

/-- The function `writeHAnim`: the bytes it emits for the record `hanim`. -/
def writeHAnim (hanim : HAnimData) : List Nat :=
  Stream.writeInt32 256 ++ Stream.writeInt32 hanim.id
  ++ (match hanim.hierarchy with
      | none => Stream.writeInt32 0
      | some hier =>
        Stream.writeInt32 hier.numNodes ++ Stream.writeInt32 hier.flags
        ++ Stream.writeInt32 hier.maxInterpKeyFrameSize
        ++ hier.nodeInfo.flatMap (fun node =>
            Stream.writeInt32 node.id ++ Stream.writeInt32 node.index
            ++ Stream.writeInt32 node.flags))

/-- The function `getSizeHAnim`; `hAnimDoStream` is the global of that name and
`version` the global format version.  The result is an `int32`: the sum is
taken modulo `2^32`. -/
def getSizeHAnim (hAnimDoStream : Bool) (version : Nat) (hanim : HAnimData) : Int :=
  if !hAnimDoStream || (decide (version ≥ 0x35000) && decide (hanim.id = -1)
      && hanim.hierarchy.isNone) then 0
  else
    match hanim.hierarchy with
    | some hier => toI32 (toU32 (12 + 8 + (hier.numNodes : Int) * 12))
    | none => 12

/-! ## Hierarchical animation: keyframes -/

/-- One `HAnimKeyFrame`: `prev` is a pointer to a keyframe (an address), `time`
a float, `q` four floats, `t` three floats. -/
structure HAnimKeyFrame where
  prev : Int
  time : Nat
  q : List Nat
  t : List Nat
deriving DecidableEq, Repr

/-- The part of an `Animation` the keyframe codec uses: `keyframes` is the
address of the keyframe array and `frames` its elements (`numFrames` is their
number). -/
structure Animation where
  keyframes : Int
  frames : List HAnimKeyFrame
deriving DecidableEq, Repr

/-- The loop of `hAnimFrameRead`.  `base` is the address of the array and
`keySize` is `sizeof(HAnimKeyFrame)`, so that `&frames[prev]` is the address
`base + prev * keySize`. -/
def hAnimFrameReadLoop (base keySize : Int) :
    List HAnimKeyFrame → Stream → Option (List HAnimKeyFrame × Stream)
  | [], s => some ([], s)
  | _ :: rest, s =>
    match Stream.readF32 s with
    | none => none
    | some (time, s) =>
    match Stream.read s (4 * 4) with
    | none => none
    | some (q, s) =>
    match Stream.read s (3 * 4) with
    | none => none
    | some (t, s) =>
    match Stream.readInt32 s with
    | none => none
    | some (prev, s) =>
    match hAnimFrameReadLoop base keySize rest s with
    | none => none
    | some (rest, s) =>
      some ({ prev := base + prev * keySize, time := time, q := elems 4 4 q, t := elems 4 3 t }
        :: rest, s)

/-- The function `hAnimFrameRead`; `keySize` is `sizeof(HAnimKeyFrame)`.  It
fails when the stream ends early. -/
def hAnimFrameRead (keySize : Int) (s : Stream) (anim : Animation) : Option (Animation × Stream) :=
  match hAnimFrameReadLoop anim.keyframes keySize anim.frames s with
  | none => none
  | some (frames, s) => some ({ anim with frames := frames }, s)

/-- The function `hAnimFrameWrite`: the bytes it emits.  The pointer difference
`frames[i].prev - frames` is the address difference divided by
`sizeof(HAnimKeyFrame)`. -/
def hAnimFrameWrite (keySize : Int) (anim : Animation) : List Nat :=
  anim.frames.flatMap (fun f =>
    Stream.writeF32 f.time ++ Stream.write (image 4 f.q) (4 * 4)
    ++ Stream.write (image 4 f.t) (3 * 4)
    ++ Stream.writeInt32 ((f.prev - anim.keyframes) / keySize))

/-- The previous-index stored on disk for keyframe `i` of a keyframe stream:
the 32-bit value at offset 32 of the `i`-th 36-byte record. -/
def keyframePrevIndex (bytes : List Nat) (i : Nat) : Nat :=
  unle ((bytes.drop (36 * i + 32)).take 4)

/-- The `k`-th 32-bit field of a payload, as an `int32`: the little-endian value
of the bytes `4 * k` to `4 * k + 3`. -/
def int32At (s : List Nat) (k : Nat) : Int :=
  toI32 (unle ((s.drop (4 * k)).take 4))

/-! ## Hierarchical animation: getIndex, find, createHAnim -/

/-- The loop of `HAnimHierarchy::getIndex` from node `i` on; `nodes` are the
nodes not yet visited. -/
def getIndexLoop (id : Int) : List HAnimNodeInfo → Nat → Int
  | [], _ => -1
  | node :: rest, i => if node.id = id then (i : Int) else getIndexLoop id rest (i + 1)

/-- The method `HAnimHierarchy::getIndex`. -/
def HAnimHierarchy.getIndex (hier : HAnimHierarchy) (id : Int) : Int :=
  getIndexLoop id hier.nodeInfo 0

/-- The method `HAnimHierarchy::find`; the hierarchy pointer it returns is the
hierarchy itself here, `none` being `nil`. -/
def HAnimHierarchy.find : Frame → Option HAnimHierarchy
  | Frame.nil => none
  | Frame.node _ hanim next child =>
    match hanim.hierarchy with
    | some hier => some hier
    | none =>
      match HAnimHierarchy.find next with
      | some hier => some hier
      | none => HAnimHierarchy.find child

/-- The function `createHAnim`: the record of a freshly constructed frame. -/
def createHAnim : HAnimData := { id := -1, hierarchy := none }

/-! ## Material rights extension -/

/-- The function `writeMaterialRights`: the bytes it emits.  It reads the
pipeline through the pointer `material->pipeline`; with a `NULL` pipeline there
is nothing it could read, and the call fails. -/
def writeMaterialRights (material : Material) : Option (List Nat) :=
  match material.pipeline with
  | none => none
  | some pipeline => some (Stream.write (image 4 [pipeline.pluginID, pipeline.pluginData]) 8)

/-- The function `getSizeMaterialRights`. -/
def getSizeMaterialRights (material : Material) : Int :=
  match material.pipeline with
  | none => -1
  | some pipeline => if pipeline.pluginID = 0 then -1 else 8

/-! ## Geometry::destroy -/

/-- The loop `materialList[i]->destroy()` of `Geometry::destroy`: the materials
as their `destroy` leaves them, and the texture counts. -/
def destroyMaterials (materials : List Material) (counts : TextureCounts) :
    List Material × TextureCounts :=
  materials.foldl
    (fun (acc : List Material × TextureCounts) m =>
      (acc.1 ++ [(m.destroy acc.2).1], (m.destroy acc.2).2))
    ([], counts)

/-- The method `Geometry::destroy`.  The result is the object after the call and
the texture counts.  When the count is not positive any more the arrays and the
object are released; `delete[]`, `delete` and `free` assign to no field, so the
fields are shown with the values they had, and the materials of the list, which
are objects of their own (held inline in the list here, one entry each), are
shown as their `destroy` left them. -/
def Geometry.destroy (this : Geometry) (counts : TextureCounts) : Geometry × TextureCounts :=
  let this := { this with refCount := this.refCount - 1 }
  if this.refCount ≤ 0 then
    let destroyed := destroyMaterials this.materialList counts
    ({ this with materialList := destroyed.1 }, destroyed.2)
  else (this, counts)

/-! ## Geometry::calculateBoundingSphere, over exact arithmetic -/

/-- The arrays `min[3]` and `max[3]` of `Geometry::calculateBoundingSphere`,
with rational numbers in the place of `float32`. -/
structure Extent where
  min0 : ℚ
  min1 : ℚ
  min2 : ℚ
  max0 : ℚ
  max1 : ℚ
  max2 : ℚ
deriving DecidableEq

/-- The four entries of `boundingSphere` over exact arithmetic: the centre, and
the number whose square root the code stores as the radius. -/
structure Sphere where
  center0 : ℚ
  center1 : ℚ
  center2 : ℚ
  radiusSq : ℚ
deriving DecidableEq

/-- One pass of the inner loop of `Geometry::calculateBoundingSphere`: pass `j`
looks at the three coordinates from position `3 * j` of the vertex array on. -/
def extentStep (v : List ℚ) (e : Extent) (j : Nat) : Extent :=
  let e := if v.getD (3 * j + 0) 0 > e.max0 then { e with max0 := v.getD (3 * j + 0) 0 } else e
  let e := if v.getD (3 * j + 0) 0 < e.min0 then { e with min0 := v.getD (3 * j + 0) 0 } else e
  let e := if v.getD (3 * j + 1) 0 > e.max1 then { e with max1 := v.getD (3 * j + 1) 0 } else e
  let e := if v.getD (3 * j + 1) 0 < e.min1 then { e with min1 := v.getD (3 * j + 1) 0 } else e
  let e := if v.getD (3 * j + 2) 0 > e.max2 then { e with max2 := v.getD (3 * j + 2) 0 } else e
  let e := if v.getD (3 * j + 2) 0 < e.min2 then { e with min2 := v.getD (3 * j + 2) 0 } else e
  e

/-- The body of the outer loop of `Geometry::calculateBoundingSphere`, for one
morph target with the vertex array `vertices`, over exact arithmetic. -/
def boundingSphereOf (numVertices : Nat) (vertices : List ℚ) : Sphere :=
  let e := (List.range numVertices).foldl (extentStep vertices)
    { min0 := 1000000, min1 := 1000000, min2 := 1000000,
      max0 := -1000000, max1 := -1000000, max2 := -1000000 }
  let c0 := (e.min0 + e.max0) / 2
  let c1 := (e.min1 + e.max1) / 2
  let c2 := (e.min2 + e.max2) / 2
  let max0 := e.max0 - c0
  let max1 := e.max1 - c1
  let max2 := e.max2 - c2
  { center0 := c0, center1 := c1, center2 := c2,
    radiusSq := max0 * max0 + max1 * max1 + max2 * max2 }

/-- The method `Geometry::calculateBoundingSphere` over exact arithmetic: the
geometry is given by `numVertices` and the vertex arrays of its morph targets,
the result is the bounding sphere of each. -/
def Geometry.calculateBoundingSphere (numVertices : Nat) (morphTargets : List (List ℚ)) :
    List Sphere :=
  morphTargets.map (boundingSphereOf numVertices)

/-! ## The frame search, as specified -/

/-- The frames reachable from a frame pointer, as pairs of address and HAnim
id, in the order of the search: the frame itself, then everything reached
through its `next` sibling, then everything reached through its `child`. -/
def Frame.searchOrder : Frame → List (Nat × Int)
  | Frame.nil => []
  | Frame.node addr hanim next child =>
    (addr, hanim.id) :: (next.searchOrder ++ child.searchOrder)

/-- The address of the first frame, in search order, whose HAnim id equals
`id`. -/
def Frame.firstWithId (f : Frame) (id : Int) : Option Nat :=
  (f.searchOrder.find? (fun p => decide (p.2 = id))).map (fun p => p.1)

/-- The address of the first frame, in search order, whose HAnim id is not
negative and equals `id`. -/
def Frame.firstWithValidId (f : Frame) (id : Int) : Option Nat :=
  (f.searchOrder.find? (fun p => decide (0 ≤ p.2 ∧ p.2 = id))).map (fun p => p.1)

/-- The HAnim hierarchies of the frames reachable from a frame pointer, in the
order of the search, `none` standing for a frame without hierarchy. -/
def Frame.hierarchies : Frame → List (Option HAnimHierarchy)
  | Frame.nil => []
  | Frame.node _ hanim next child =>
    hanim.hierarchy :: (next.hierarchies ++ child.hierarchies)

/-! ## The extent the loop ends with -/

/-- The coordinates on axis `k` of the `n` vertices stored in `v`; an entry past
the end of the array (undefined in C++) reads as 0. -/
def axisCoords (v : List ℚ) (n k : Nat) : List ℚ :=
  (List.range n).map (fun j => v.getD (3 * j + k) 0)

/-- The value of `min[k]` when the inner loop of
`Geometry::calculateBoundingSphere` has run over the `n` vertices stored in `v`:
the least of the sentinel 1000000 and the coordinates on axis `k`. -/
def loopMin (v : List ℚ) (n k : Nat) : ℚ := (axisCoords v n k).foldl min 1000000

/-- The value of `max[k]` when the inner loop has run: the greatest of the
sentinel -1000000 and the coordinates on axis `k`. -/
def loopMax (v : List ℚ) (n k : Nat) : ℚ := (axisCoords v n k).foldl max (-1000000)

/-! ## The axis-aligned extent, as specified -/

/-- The least coordinate on axis `k` of the `n` vertices stored in `v` (0 when
there is no vertex). -/
def extentMin (v : List ℚ) (n k : Nat) : ℚ :=
  (axisCoords v n k).foldl min ((axisCoords v n k).headD 0)

/-- The greatest coordinate on axis `k` of the `n` vertices stored in `v` (0
when there is no vertex). -/
def extentMax (v : List ℚ) (n k : Nat) : ℚ :=
  (axisCoords v n k).foldl max ((axisCoords v n k).headD 0)

/-! ## The strip rule, as specified -/

/-- The position of the adjacency-bit cursor when mesh `i` is reached: the sum
of the index counts of all meshes before it, skipped ones included. -/
def adcCursor (meshes : List Mesh) (i : Nat) : Nat :=
  ((meshes.take i).map (fun m => m.indices.length)).sum

/-- Whether strip step `j` over the indices `idx` yields a triangle: the three
indices at `j`, `j+1`, `j+2` are pairwise distinct, and either no adjacency bits
were supplied or the bit belonging to position `j+2` of the mesh is zero. -/
def stripStepKept (adc : Option (List Int)) (cursor : Nat) (idx : List Nat) (j : Nat) : Bool :=
  decide (idx.getD j 0 ≠ idx.getD (j + 1) 0 ∧ idx.getD j 0 ≠ idx.getD (j + 2) 0
    ∧ idx.getD (j + 1) 0 ≠ idx.getD (j + 2) 0)
  && (match adc with
      | none => true
      | some bits => decide (bits.getD (cursor + j + 2) 0 = 0))

/-- The strip steps of mesh `i` that yield a triangle, in increasing `j`; a
mesh with fewer than 3 indices has none. -/
def meshStripSteps (adc : Option (List Int)) (meshes : List Mesh) (i : Nat) : List (Nat × Nat) :=
  match meshes[i]? with
  | none => []
  | some m =>
    if 3 ≤ m.indices.length then
      ((List.range (m.indices.length - 2)).filter
        (stripStepKept adc (adcCursor meshes i) m.indices)).map (fun j => (i, j))
    else []

/-- All pairs (mesh number, strip step) that yield a triangle, meshes in header
order. -/
def stripSteps (adc : Option (List Int)) (meshes : List Mesh) : List (Nat × Nat) :=
  (List.range meshes.length).flatMap (meshStripSteps adc meshes)

/-- The quadruplet of strip step `j`: first vertex, second vertex, material
index, third vertex; odd steps swap the first and third vertex. -/
def stripQuad (idx : List Nat) (materialIndex : Nat) (j : Nat) : List Nat :=
  if j % 2 = 0 then [idx.getD (j + 1) 0, idx.getD j 0, materialIndex, idx.getD (j + 2) 0]
  else [idx.getD (j + 2) 0, idx.getD j 0, materialIndex, idx.getD (j + 1) 0]

/-- The quadruplet of the step `(i, j)` of a mesh list: the indices are those
of mesh `i`, the material index is the position of that mesh's material in the
material list as `generateTriangles` stores it in a `uint16`. -/
def stripQuadOf (meshes : List Mesh) (materialList : List Nat) (step : Nat × Nat) : List Nat :=
  match meshes[step.1]? with
  | none => []
  | some m => stripQuad m.indices (toU16 (findPointer m.material materialList)) step.2

/-! ## Geometries whose arrays have been filled in -/

/-- The shape of a morph target: the length of its bounding sphere and, for
each of its two arrays, whether it is present and how long. -/
def MorphTarget.shape (m : MorphTarget) : Nat × Option Nat × Option Nat :=
  (m.boundingSphere.length, m.vertices.map List.length, m.normals.map List.length)

/-- The geometry `g` is `g0` with the contents of its arrays replaced: the same
flags and counts, the same arrays present with the same lengths, everything else
untouched. -/
def Geometry.FilledFrom (g g0 : Geometry) : Prop :=
  g.geoflags = g0.geoflags ∧ g.numTriangles = g0.numTriangles ∧ g.numVertices = g0.numVertices
    ∧ g.colors.map List.length = g0.colors.map List.length
    ∧ g.texCoords.map (Option.map List.length) = g0.texCoords.map (Option.map List.length)
    ∧ g.triangles.map List.length = g0.triangles.map List.length
    ∧ g.morphTargets.map MorphTarget.shape = g0.morphTargets.map MorphTarget.shape
    ∧ g.materialList = g0.materialList ∧ g.meshHeader = g0.meshHeader
    ∧ g.instData = g0.instData ∧ g.refCount = g0.refCount ∧ g.plugins = g0.plugins

/-- Every array element of the geometry is a value of its C type: colours are
`uint8`, triangle entries `uint16`, texture coordinates, positions, normals and
bounding spheres 32-bit patterns. -/
def Geometry.WellTyped (g : Geometry) : Prop :=
  (∀ xs, g.colors = some xs → ∀ x ∈ xs, x < 256 ^ 1)
    ∧ (∀ tc ∈ g.texCoords, ∀ xs, tc = some xs → ∀ x ∈ xs, x < 256 ^ 4)
    ∧ (∀ xs, g.triangles = some xs → ∀ x ∈ xs, x < 256 ^ 2)
    ∧ (∀ m ∈ g.morphTargets,
        (∀ x ∈ m.boundingSphere, x < 256 ^ 4)
          ∧ (∀ xs, m.vertices = some xs → ∀ x ∈ xs, x < 256 ^ 4)
          ∧ (∀ xs, m.normals = some xs → ∀ x ∈ xs, x < 256 ^ 4))

/-- The format version and the chunk ids of the environment are `uint32`
values. -/
def Env.WellTyped (env : Env) : Prop :=
  env.version < 2 ^ 32 ∧ env.ID_STRUCT < 2 ^ 32 ∧ env.ID_GEOMETRY < 2 ^ 32
    ∧ env.ID_MATLIST < 2 ^ 32

/-! ## A concrete environment -/

/-- An environment in which no plugin is registered, with the chunk ids and
flag bits of the RenderWare binary stream format.  With an empty registry an
object's extension section is the bare EXTENSION chunk header (kind 3, length
0), and the reader finds that chunk and skips its payload.  Textures stream as
an empty TEXTURE chunk.  It instantiates the theorems below at concrete
inputs. -/
def Env.bare (version : Nat) : Env :=
  { version := version
    TEXTURED := 0x04
    PRELIT := 0x08
    NORMALS := 0x10
    TEXTURED2 := 0x80
    NATIVE := 0x01000000
    ID_STRUCT := 0x01
    ID_GEOMETRY := 0x0F
    ID_MATLIST := 0x08
    ID_MATERIAL := 0x07
    ID_TEXTURE := 0x06
    geoConstructPlugins := []
    geoStreamGetPluginSize := fun _ => 0
    geoStreamWritePlugins := fun _ => le 4 3 ++ le 4 0 ++ le 4 version
    geoStreamReadPlugins := fun s plugins =>
      match findChunk s 3 with
      | some ((length, _), s) => some (plugins, Stream.seek s length)
      | none => none
    matConstructPlugins := []
    matStreamGetPluginSize := fun _ => 0
    matStreamWritePlugins := fun _ => le 4 3 ++ le 4 0 ++ le 4 version
    matStreamReadPlugins := fun s plugins rights =>
      match findChunk s 3 with
      | some ((length, _), s) => some (plugins, rights, Stream.seek s length)
      | none => none
    assertRights := fun m _ _ => m
    texStreamGetSize := fun _ => 0
    texStreamWrite := fun _ => le 4 6 ++ le 4 0 ++ le 4 version
    texStreamRead := fun s => some ({ addr := 0 }, s)
    matCopyPlugins := fun dst _ => dst }

/-! ## Inputs used to instantiate the theorems -/

/-- A strip-mode geometry: one mesh with indices 0, 1, 2, 3 whose material is
entry 5 of a list of six materials (at addresses 100 to 105). -/
def stripExample : Geometry :=
  { Geometry.create (Env.bare 0x36003) 4 0 0 with
    meshHeader := some { flags := 1, mesh := [{ indices := [0, 1, 2, 3], material := 105 }] }
    materialList := (List.range 6).map (fun i => Material.create (Env.bare 0x36003) (100 + i)) }

/-- A geometry as `Geometry::create` returns it for 2 vertices, 1 triangle and
the flags PRELIT, NORMALS and TEXTURED2, with its arrays filled in. -/
def filledExample : Geometry :=
  { Geometry.create (Env.bare 0x36003) 2 1 0x98 with
    colors := some [1, 2, 3, 4, 5, 6, 7, 8]
    texCoords := [some [11, 12, 13, 14], some [21, 22, 23, 24]]
    triangles := some [1, 0, 5, 2]
    morphTargets :=
      [{ boundingSphere := [1, 2, 3, 4]
         vertices := some [1, 2, 3, 4, 5, 6]
         normals := some [7, 8, 9, 10, 11, 12] }] }

/-- A strip-mode geometry with two meshes, the first too short to hold a
triangle, the second with a repeated index; six adjacency bits go with it in
the theorems. -/
def adjacencyExample : Geometry :=
  { Geometry.create (Env.bare 0x36003) 6 0 0 with
    meshHeader := some
      { flags := 1
        mesh := [{ indices := [7, 8], material := 101 },
                 { indices := [0, 1, 2, 3, 3, 4], material := 100 }] }
    materialList := (List.range 2).map (fun i => Material.create (Env.bare 0x36003) (100 + i)) }

/-- A hierarchy of three nodes with the ids 10, 20 and 30. -/
def skeletonExample : HAnimHierarchy :=
  HAnimHierarchy.create 3 [0, 0, 0] [10, 20, 30] 0 36

/-- A frame tree in which only the ids 10 and 30 occur, besides the id -1 of a
fresh record: the root (address 1, id -1) has the child 2 (id 10); frame 2 has
the next sibling 3 (id -1), whose child 5 has id 30, and the child 4, also with
id 30. -/
def frameTreeExample : Frame :=
  Frame.node 1 { id := -1, hierarchy := none } Frame.nil
    (Frame.node 2 { id := 10, hierarchy := none }
      (Frame.node 3 { id := -1, hierarchy := none } Frame.nil
        (Frame.node 5 { id := 30, hierarchy := none } Frame.nil Frame.nil))
      (Frame.node 4 { id := 30, hierarchy := none } Frame.nil Frame.nil))

/-- An animation of five keyframes not yet read, its array at address 1000. -/
def animationExample : Animation :=
  { keyframes := 1000
    frames := List.replicate 5 { prev := 0, time := 0, q := [0, 0, 0, 0], t := [0, 0, 0] } }

/-- The stream of five keyframes with the previous-indices 0, 0, 1, 2, 3; every
other byte of a record is 7. -/
def keyframeBytesExample : List Nat :=
  [0, 0, 1, 2, 3].flatMap (fun prev => List.replicate 32 7 ++ le 4 prev)

/-- A frame record with id 5 and a hierarchy of zero nodes attached. -/
def emptyHierarchyExample : HAnimData :=
  { id := 5, hierarchy := some (HAnimHierarchy.create 0 [] [] 0 36) }

/-- A frame record as `createHAnim` leaves it: id -1 and no hierarchy. -/
def freshHAnimExample : HAnimData := { id := -1, hierarchy := none }

/-- A frame record with id 10 and the three-node hierarchy `skeletonExample`. -/
def skeletonRecordExample : HAnimData := { id := 10, hierarchy := some skeletonExample }

/-- A frame extension payload: version 0x100, id 7, two nodes, flags 2, maximal
keyframe size 36, and the triples (10, 5, 1) and (-1, 9, 3). -/
def hanimPayloadExample : List Nat :=
  [0x100, 7, 2, 2, 36, 10, 5, 1, -1, 9, 3].flatMap Stream.writeInt32

/-- A material with a texture (the texture object at address 7), a colour and
three reflectance scalars of its own, and reference count 1. -/
def texturedMaterialExample : Material :=
  { addr := 100
    texture := some { addr := 7 }
    color := { red := 1, green := 2, blue := 3, alpha := 4 }
    surfaceProps := { ambient := 0x3F000000, specular := 0x3E800000, diffuse := 0x3F400000 }
    pipeline := none
    refCount := 1
    plugins := [] }

/-- Texture counts in which the texture at address 7 has count 3 and every
other texture count 1. -/
def textureCountsExample : TextureCounts := fun a => if a = 7 then 3 else 1

/-- What follows the MATERIAL header in the stream of `texturedMaterialExample`
written at version `0x36003` with no plugin registered, followed by the
byte 9. -/
def materialStreamExample : List Nat :=
  (texturedMaterialExample.streamWrite (Env.bare 0x36003)).drop 12 ++ [9]

/-- A material with a pipeline whose plugin id is `0x116` and whose plugin data
is 3. -/
def pipelineMaterialExample : Material :=
  { texturedMaterialExample with pipeline := some { pluginID := 0x116, pluginData := 3 } }

/-- A material with a pipeline whose plugin id is 0. -/
def zeroPipelineMaterialExample : Material :=
  { texturedMaterialExample with pipeline := some { pluginID := 0, pluginData := 3 } }

/-- A geometry with reference count 1 that lists two materials: the textured
one (count 1) and an untextured one at address 300 with count 2. -/
def ownedGeometryExample : Geometry :=
  { Geometry.create (Env.bare 0x36003) 2 1 0 with
    materialList :=
      [texturedMaterialExample,
       { Material.create (Env.bare 0x36003) 300 with refCount := 2 }] }

/-- The vertex array of one vertex at (2000000, 0, 0). -/
def farVerticesExample : List ℚ := [2000000, 0, 0]

/-- The vertex array of the two vertices (1, 2, 3) and (5, -2, 7). -/
def boxVerticesExample : List ℚ := [1, 2, 3, 5, -2, 7]

/-- A frame tree in which two frames carry a hierarchy: the root (address 1) has
the child 2; frame 2 carries none, its next sibling 3 has the child 5 with a
hierarchy of maximal keyframe size 5, and its child 4 carries one of maximal
keyframe size 4. -/
def hierarchyTreeExample : Frame :=
  Frame.node 1 createHAnim Frame.nil
    (Frame.node 2 createHAnim
      (Frame.node 3 createHAnim Frame.nil
        (Frame.node 5 { id := 30, hierarchy := some (HAnimHierarchy.create 0 [] [] 2 5) }
          Frame.nil Frame.nil))
      (Frame.node 4 { id := 30, hierarchy := some (HAnimHierarchy.create 0 [] [] 2 4) }
        Frame.nil Frame.nil))

/-- A geometry whose mesh header is in list mode with three meshes: seven
indices, two indices (skipped) and three indices; the materials of the meshes
are the two of the list. -/
def listGeometryExample : Geometry :=
  { ownedGeometryExample with
    meshHeader := some
      { flags := 0
        mesh := [{ indices := [0, 1, 2, 3, 4, 5, 6], material := 100 },
                 { indices := [7, 8], material := 100 },
                 { indices := [9, 10, 11], material := 300 }] } }

/-- A hierarchy of two nodes with the ids -1 and 10. -/
def negativeIdExample : HAnimHierarchy :=
  HAnimHierarchy.create 2 [0, 0] [-1, 10] 0 36

/-! ## Theorems: Geometry::create -/

theorem mask_FF0000 : (0xFF0000 : Nat) = (2 ^ 8 - 1) <<< 16 := by decide

theorem mask_FF00FFFF : (0xFF00FFFF : Nat) = (2 ^ 16 - 1) ||| ((2 ^ 8 - 1) <<< 24) := by decide

/-- The count field `(flags & 0xFF0000) >> 16` is bits 16..23 of `flags`. -/
theorem countField_eq (flags : Nat) : (flags &&& 0xFF0000) >>> 16 = flags / 2 ^ 16 % 2 ^ 8 := by
  apply Nat.eq_of_testBit_eq
  intro i
  rw [mask_FF0000, Nat.testBit_shiftRight, Nat.testBit_and, Nat.testBit_shiftLeft,
    Nat.testBit_two_pow_sub_one, Nat.testBit_mod_two_pow, ← Nat.shiftRight_eq_div_pow,
    Nat.testBit_shiftRight]
  have h1 : 16 + i - 16 = i := by omega
  simp [h1, Bool.and_comm]

/-- Bit `i` of `flags & 0xFF00FFFF`. -/
theorem testBit_geoflagsMask (flags i : Nat) :
    (flags &&& 0xFF00FFFF).testBit i
      = (flags.testBit i && (decide (i < 16) || (decide (24 ≤ i) && decide (i < 32)))) := by
  rw [mask_FF00FFFF, Nat.testBit_and, Nat.testBit_or, Nat.testBit_shiftLeft,
    Nat.testBit_two_pow_sub_one, Nat.testBit_two_pow_sub_one]
  congr 2
  by_cases h : 24 ≤ i
  · have : (i - 24 < 8) = (i < 32) := by apply propext; omega
    simp [h, this]
  · simp [h]

/-- With an empty count field, masking with `0xFF00FFFF` leaves a `uint32`
unchanged. -/
theorem geoflagsMask_eq_self (flags : Nat) (hflags : flags < 2 ^ 32)
    (h0 : flags / 2 ^ 16 % 2 ^ 8 = 0) : flags &&& 0xFF00FFFF = flags := by
  apply Nat.eq_of_testBit_eq
  intro i
  rw [testBit_geoflagsMask]
  by_cases h16 : i < 16
  · simp [h16]
  · by_cases h24 : 24 ≤ i
    · by_cases h32 : i < 32
      · simp [h24, h32]
      · have : flags.testBit i = false :=
          Nat.testBit_lt_two_pow (lt_of_lt_of_le hflags (Nat.pow_le_pow_right (by decide) (by omega)))
        simp [this]
    · have hb : (flags / 2 ^ 16 % 2 ^ 8).testBit (i - 16) = false := by rw [h0]; simp
      rw [Nat.testBit_mod_two_pow, ← Nat.shiftRight_eq_div_pow, Nat.testBit_shiftRight] at hb
      have h1 : 16 + (i - 16) = i := by omega
      have h2 : i - 16 < 8 := by omega
      simp [h1, h2] at hb
      simp [hb]

/-- C7: `Geometry::create` sets the texture-coordinate-set count to bits 16..23
of `flags` when that field is nonzero, and otherwise to 1 if TEXTURED is set,
else 2 if TEXTURED2 is set, else 0; the stored flags are `flags` with bits
16..23 cleared; there is exactly one morph target and the reference count is
1.  (`flags` is a `uint32`.) -/
theorem Geometry.create_counts (env : Env) (numVerts numTris flags : Nat)
    (hflags : flags < 2 ^ 32) :
    (Geometry.create env numVerts numTris flags).numTexCoordSets
        = (if flags / 2 ^ 16 % 2 ^ 8 ≠ 0 then flags / 2 ^ 16 % 2 ^ 8
           else if hasFlag flags env.TEXTURED then 1
           else if hasFlag flags env.TEXTURED2 then 2 else 0)
      ∧ (∀ i, (Geometry.create env numVerts numTris flags).geoflags.testBit i
            = (flags.testBit i && !(decide (16 ≤ i) && decide (i < 24))))
      ∧ (Geometry.create env numVerts numTris flags).numMorphTargets = 1
      ∧ (Geometry.create env numVerts numTris flags).refCount = 1 := by
  refine ⟨?_, ?_, rfl, rfl⟩
  · simp only [Geometry.numTexCoordSets, Geometry.create, List.length_replicate, countField_eq]
    by_cases h0 : flags / 2 ^ 16 % 2 ^ 8 = 0
    · rw [geoflagsMask_eq_self flags hflags h0]
      simp [h0]
    · have h1 : ¬ flags / 65536 % 256 = 0 := by simpa using h0
      simp [h1]
  · intro i
    show (flags &&& 0xFF00FFFF).testBit i = _
    rw [testBit_geoflagsMask]
    by_cases h32 : i < 32
    · by_cases h16 : i < 16
      · have : ¬ 16 ≤ i := by omega
        simp [h16, this]
      · by_cases h24 : 24 ≤ i
        · have : ¬ i < 24 := by omega
          simp [h24, h32, this]
        · have h1 : 16 ≤ i := by omega
          have h2 : i < 24 := by omega
          simp [h16, h24, h1, h2]
    · have : flags.testBit i = false :=
        Nat.testBit_lt_two_pow (lt_of_lt_of_le hflags (Nat.pow_le_pow_right (by decide) (by omega)))
      simp [this]

/-- C7 at a concrete input: the flags `0x00030084` carry the count 3 in bits
16..23 together with TEXTURED and TEXTURED2. -/
theorem Geometry.create_counts_witness :
    (0x00030084 : Nat) < 2 ^ 32
      ∧ (Geometry.create (Env.bare 0x36003) 5 2 0x00030084).numTexCoordSets = 3
      ∧ (Geometry.create (Env.bare 0x36003) 5 2 0x00030084).numMorphTargets = 1 := by
  have h := Geometry.create_counts (Env.bare 0x36003) 5 2 0x00030084 (by decide)
  exact ⟨by decide, h.1.trans (by decide), h.2.2.1⟩

/-- C5 as stated fails: with the count field set to 1 and neither TEXTURED nor
TEXTURED2, `Geometry::create` (NATIVE clear, one vertex) reports one
texture-coordinate set whose array is absent. -/
theorem Geometry.create_texCoords_counterexample :
    hasFlag (Geometry.create (Env.bare 0x36003) 1 0 0x10000).geoflags (Env.bare 0x36003).NATIVE
        = false
      ∧ (Geometry.create (Env.bare 0x36003) 1 0 0x10000).numTexCoordSets = 1
      ∧ ¬ (∀ i, i < (Geometry.create (Env.bare 0x36003) 1 0 0x10000).numTexCoordSets →
            ((Geometry.create (Env.bare 0x36003) 1 0 0x10000).texCoords.getD i none).isSome
              = true) := by
  refine ⟨by decide, by decide, ?_⟩
  intro h
  exact absurd (h 0 (by decide)) (by decide)

/-- C5, amended: for a geometry returned by `Geometry::create` with NATIVE clear
and `vertexCount > 0`, the colour array is present exactly when PRELIT is set,
every one of the `numTexCoordSets` texture-coordinate arrays is present exactly
when TEXTURED or TEXTURED2 is set (all of them are absent otherwise), and morph
target 0's normal array is present exactly when NORMALS is set. -/
theorem Geometry.create_presence (env : Env) (numVerts numTris flags : Nat)
    (hnative : hasFlag (Geometry.create env numVerts numTris flags).geoflags env.NATIVE = false)
    (hverts : 0 < numVerts) :
    (Geometry.create env numVerts numTris flags).colors.isSome
        = hasFlag (Geometry.create env numVerts numTris flags).geoflags env.PRELIT
      ∧ (∀ i, i < (Geometry.create env numVerts numTris flags).numTexCoordSets →
          ((Geometry.create env numVerts numTris flags).texCoords.getD i none).isSome
            = (hasFlag (Geometry.create env numVerts numTris flags).geoflags env.TEXTURED
                || hasFlag (Geometry.create env numVerts numTris flags).geoflags env.TEXTURED2))
      ∧ (Geometry.create env numVerts numTris flags).morphTargets.map
            (fun m => m.normals.isSome)
          = [hasFlag (Geometry.create env numVerts numTris flags).geoflags env.NORMALS] := by
  have hv : (numVerts != 0) = true := by simp; omega
  have hn : hasFlag (flags &&& 0xFF00FFFF) env.NATIVE = false := hnative
  refine ⟨?_, ?_, ?_⟩
  · simp only [Geometry.create, hn, hv]
    cases hasFlag (flags &&& 0xFF00FFFF) env.PRELIT <;> simp
  · intro i hi
    simp only [Geometry.numTexCoordSets, Geometry.create, List.length_replicate] at hi
    simp only [Geometry.create, hn, hv, List.getD_eq_getElem?_getD,
      List.getElem?_replicate, hi]
    cases hasFlag (flags &&& 0xFF00FFFF) env.TEXTURED <;>
      cases hasFlag (flags &&& 0xFF00FFFF) env.TEXTURED2 <;> simp
  · simp only [Geometry.create, hn, hv, List.map]
    cases hasFlag (flags &&& 0xFF00FFFF) env.NORMALS <;> simp

/-- C5, amended, at a concrete input: PRELIT and TEXTURED2 set, NORMALS clear,
three vertices. -/
theorem Geometry.create_presence_witness :
    hasFlag (Geometry.create (Env.bare 0x36003) 3 1 0x88).geoflags (Env.bare 0x36003).NATIVE
        = false
      ∧ 0 < 3
      ∧ (Geometry.create (Env.bare 0x36003) 3 1 0x88).colors.isSome = true
      ∧ (Geometry.create (Env.bare 0x36003) 3 1 0x88).texCoords.map (fun tc => tc.isSome)
          = [true, true]
      ∧ (Geometry.create (Env.bare 0x36003) 3 1 0x88).morphTargets.map
            (fun m => m.normals.isSome) = [false] := by
  have h := Geometry.create_presence (Env.bare 0x36003) 3 1 0x88 (by decide) (by decide)
  exact ⟨by decide, by decide, h.1.trans (by decide), by decide, h.2.2.trans (by decide)⟩

/-- C6 as stated fails: with NATIVE clear and `vertexCount = 0`,
`Geometry::create` allocates neither the triangle array nor the positions of
morph target 0. -/
theorem Geometry.create_alloc_counterexample :
    hasFlag (Geometry.create (Env.bare 0x36003) 0 2 0).geoflags (Env.bare 0x36003).NATIVE = false
      ∧ (Geometry.create (Env.bare 0x36003) 0 2 0).triangles = none
      ∧ (Geometry.create (Env.bare 0x36003) 0 2 0).morphTargets.map (fun m => m.vertices)
          = [none] := by
  decide

/-- C6, amended: `Geometry::create` allocates the triangle array (with
`4*triangleCount` entries) and morph target 0's position array (with
`3*vertexCount` floats) exactly when NATIVE is clear and `vertexCount` is not 0;
with NATIVE set, or with `vertexCount = 0`, the colour array, every
texture-coordinate array, the triangle array and morph target 0's position and
normal arrays are all absent. -/
theorem Geometry.create_alloc (env : Env) (numVerts numTris flags : Nat) :
    (if hasFlag (Geometry.create env numVerts numTris flags).geoflags env.NATIVE = false
          ∧ numVerts ≠ 0 then
        (Geometry.create env numVerts numTris flags).triangles.map List.length
            = some (4 * numTris)
          ∧ (Geometry.create env numVerts numTris flags).morphTargets.map
                (fun m => m.vertices.map List.length)
              = [some (3 * numVerts)]
      else
        (Geometry.create env numVerts numTris flags).colors = none
          ∧ (∀ tc ∈ (Geometry.create env numVerts numTris flags).texCoords, tc = none)
          ∧ (Geometry.create env numVerts numTris flags).triangles = none
          ∧ (Geometry.create env numVerts numTris flags).morphTargets.map
                (fun m => (m.vertices, m.normals))
              = [(none, none)]) := by
  by_cases hn : hasFlag (flags &&& 0xFF00FFFF) env.NATIVE = false
  · by_cases hv : numVerts = 0
    · have hc : ¬ (hasFlag (Geometry.create env numVerts numTris flags).geoflags env.NATIVE = false
          ∧ numVerts ≠ 0) := fun h => h.2 hv
      rw [if_neg hc]
      subst hv
      simp [Geometry.create]
    · have hc : hasFlag (Geometry.create env numVerts numTris flags).geoflags env.NATIVE = false
          ∧ numVerts ≠ 0 := ⟨hn, hv⟩
      rw [if_pos hc]
      simp [Geometry.create, hn, hv]
  · have hc : ¬ (hasFlag (Geometry.create env numVerts numTris flags).geoflags env.NATIVE = false
        ∧ numVerts ≠ 0) := fun h => hn h.1
    rw [if_neg hc]
    have hn1 : hasFlag (flags &&& 0xFF00FFFF) env.NATIVE = true := by simpa using hn
    simp [Geometry.create, hn1]

/-! ## Theorems: Geometry::addMorphTargets -/

/-- C4 fails on the code: adding one morph target to a freshly created,
non-NATIVE geometry (one vertex, one morph target) leaves the new slot 1 as the
allocation returned it; the loop `for(i = numMorphTargets; i < n; i++)` runs
from 1 to below 1, so no position buffer is allocated for it. -/
theorem Geometry.addMorphTargets_new_slot_untouched (junk : Nat → MorphTarget) :
    ((Geometry.create (Env.bare 0x36003) 1 0 0).addMorphTargets (Env.bare 0x36003) junk 1).morphTargets
      = [{ boundingSphere := [0, 0, 0, 0], vertices := some [0, 0, 0], normals := none },
         junk 1] := by
  rfl

/-! ## Theorems: Geometry::generateTriangles on the strip 0, 1, 2, 3 -/

/-- C8 as stated fails: on the strip 0, 1, 2, 3 with material index 5 the second
quadruplet written is (3,1,5,2), not (2,2,5,3). -/
theorem Geometry.generateTriangles_strip_counterexample :
    (stripExample.generateTriangles none).map (fun g => (g.numTriangles, g.triangles))
        = some (2, some [1, 0, 5, 2, 3, 1, 5, 2])
      ∧ (stripExample.generateTriangles none).map (fun g => g.triangles)
        ≠ some (some [1, 0, 5, 2, 2, 2, 5, 3]) := by
  decide

/-- C8, amended: with no adjacency bits, on a mesh header in triangle-strip
mode holding one mesh with indices 0, 1, 2, 3 whose material sits at index 5 of
the geometry's material list, `Geometry::generateTriangles` produces exactly 2
triangles, namely the quadruplets (1,0,5,2) and then (3,1,5,2). -/
theorem Geometry.generateTriangles_strip (g : Geometry) (p : Nat)
    (hheader : g.meshHeader = some { flags := 1, mesh := [{ indices := [0, 1, 2, 3], material := p }] })
    (hmat : findPointer p (g.materialList.map (fun mat => mat.addr)) = 5) :
    (g.generateTriangles none).map (fun r => (r.numTriangles, r.triangles))
      = some (2, some [1, 0, 5, 2, 3, 1, 5, 2]) := by
  simp [Geometry.generateTriangles, hheader, countMesh, writeMesh, hmat, adcSet, isDegenerate,
    toU16, List.range, List.range.loop]

/-- C8, amended, at the geometry `stripExample`. -/
theorem Geometry.generateTriangles_strip_witness :
    stripExample.meshHeader
        = some { flags := 1, mesh := [{ indices := [0, 1, 2, 3], material := 105 }] }
      ∧ findPointer 105 (stripExample.materialList.map (fun mat => mat.addr)) = 5
      ∧ (stripExample.generateTriangles none).map (fun r => (r.numTriangles, r.triangles))
        = some (2, some [1, 0, 5, 2, 3, 1, 5, 2]) :=
  ⟨by decide, by decide, Geometry.generateTriangles_strip stripExample 105 (by decide) (by decide)⟩

/-! ## Theorems: declared sizes and bytes written -/

theorem le_length (w x : Nat) : (le w x).length = w := by
  induction w generalizing x with
  | zero => rfl
  | succ w ih => simp [le, ih]

theorem Stream.write_length (mem : List Nat) (n : Nat) : (Stream.write mem n).length = n := by
  simp only [Stream.write, List.length_append, List.length_take, List.length_replicate]
  omega

theorem Stream.writeI32_length (x : Nat) : (Stream.writeI32 x).length = 4 := le_length 4 x

theorem writeChunkHeader_length (env : Env) (type size : Nat) :
    (writeChunkHeader env type size).length = 12 := by
  simp [writeChunkHeader, le_length]

theorem u32_u32_add (a b : Nat) : u32 (u32 a + b) = u32 (a + b) := by
  simp [u32, Nat.add_mod]

theorem u32_of_lt {a : Nat} (h : a < 2 ^ 32) : u32 a = a := Nat.mod_eq_of_lt h

theorem length_flatMap_const {α : Type} (f : α → List Nat) (c : Nat) (hf : ∀ x, (f x).length = c)
    (xs : List α) : (xs.flatMap f).length = xs.length * c := by
  induction xs with
  | nil => simp
  | cons x xs ih => simp [List.flatMap_cons, hf, ih, Nat.add_mul]; omega

theorem foldl_range_u32 (c : Nat) (n a : Nat) :
    (List.range n).foldl (fun size _ => u32 (size + c)) (u32 a) = u32 (a + n * c) := by
  induction n with
  | zero => simp
  | succ n ih =>
    rw [List.range_succ, List.foldl_append, ih]
    simp only [List.foldl_cons, List.foldl_nil, u32_u32_add]
    congr 1
    rw [Nat.add_mul]
    omega

/-- One pass of the size loop adds the bytes one pass of the write loop emits. -/
theorem geoStructSizeMorph_eq (env : Env) (g : Geometry) (a : Nat) (m : MorphTarget) :
    geoStructSizeMorph env g (u32 a) m = u32 (a + (g.writeMorphTarget env m).length) := by
  unfold geoStructSizeMorph Geometry.writeMorphTarget
  cases hasFlag g.geoflags env.NATIVE <;> cases m.vertices <;> cases m.normals <;>
    simp [u32_u32_add, Stream.write_length, Stream.writeI32_length] <;> congr 1 <;> omega

theorem foldl_geoStructSizeMorph (env : Env) (g : Geometry) (ms : List MorphTarget) (a : Nat) :
    ms.foldl (geoStructSizeMorph env g) (u32 a)
      = u32 (a + (ms.flatMap (g.writeMorphTarget env)).length) := by
  induction ms generalizing a with
  | nil => simp
  | cons m ms ih =>
    rw [List.foldl_cons, geoStructSizeMorph_eq, ih, List.flatMap_cons, List.length_append]
    congr 1
    omega

/-- The function `geoStructSize` is the byte count of the STRUCT payload, as a
`uint32`. -/
theorem geoStructSize_eq_u32 (env : Env) (g : Geometry) :
    geoStructSize env g = u32 (g.writeStruct env).length := by
  unfold geoStructSize Geometry.writeStruct Geometry.writeArrays
  have htc : (g.texCoords.flatMap
      (fun tc => Stream.write (memOf 4 tc) (2 * g.numVertices * 4))).length
        = g.numTexCoordSets * (2 * g.numVertices * 4) :=
    length_flatMap_const _ _ (fun _ => Stream.write_length _ _) _
  by_cases hv : env.version < 0x34000 <;>
    cases hn : hasFlag g.geoflags env.NATIVE <;>
    cases hp : hasFlag g.geoflags env.PRELIT <;>
    simp only [hv, hn, hp, if_true, if_false, Bool.not_true, Bool.not_false, Nat.zero_add,
      u32_u32_add, foldl_range_u32, foldl_geoStructSizeMorph, List.length_append, le_length,
      Stream.write_length, htc, List.length_nil, Bool.false_eq_true] <;>
    congr 1 <;> omega

theorem getD_drop (l : List Nat) (j k d : Nat) : (l.drop j).getD k d = l.getD (j + k) d := by
  simp [List.getElem?_drop]

/-- The test of the counting loop is the specified condition. -/
theorem countTest_eq (adc : Option (List Int)) (off : Nat) (idx : List Nat) (j : Nat) :
    (!(adcSet adc off (j + 2)) && !(isDegenerate (idx.drop j))) = stripStepKept adc off idx j := by
  simp only [adcSet, isDegenerate, stripStepKept, getD_drop, Nat.add_zero]
  have hoff : off + (j + 2) = off + j + 2 := by omega
  rw [hoff]
  generalize idx.getD j 0 = a
  generalize idx.getD (j + 1) 0 = b
  generalize idx.getD (j + 2) 0 = c
  cases adc with
  | none =>
    by_cases h1 : a = b <;> by_cases h2 : a = c <;> by_cases h3 : b = c <;> simp [h1, h2, h3]
  | some bits =>
    dsimp only
    generalize bits.getD (off + j + 2) 0 = x
    by_cases h0 : x = 0 <;> by_cases h1 : a = b <;> by_cases h2 : a = c <;>
      by_cases h3 : b = c <;> simp [h0, h1, h2, h3]

/-- The test of the writing loop is the negation of the specified condition. -/
theorem writeTest_eq (adc : Option (List Int)) (off : Nat) (idx : List Nat) (j : Nat) :
    (adcSet adc off (j + 2) || isDegenerate (idx.drop j)) = !(stripStepKept adc off idx j) := by
  rw [← countTest_eq]
  cases adcSet adc off (j + 2) <;> cases isDegenerate (idx.drop j) <;> rfl

/-- The index arithmetic of the writing loop is the even/odd rule. -/
theorem writeQuad_eq (idx : List Nat) (mat j : Nat) :
    [idx.getD (j + 1 + j % 2) 0, idx.getD (j + 0) 0, mat, idx.getD (j + 2 - j % 2) 0]
      = stripQuad idx mat j := by
  unfold stripQuad
  rcases Nat.mod_two_eq_zero_or_one j with h | h
  · simp [h]
  · have h2 : j + 2 - 1 = j + 1 := by omega
    simp [h, h2]

theorem foldl_count_filter (p : Nat → Bool) (xs : List Nat) (c : Nat) :
    xs.foldl (fun c j => if p j = true then c + 1 else c) c = c + (xs.filter p).length := by
  induction xs generalizing c with
  | nil => simp
  | cons x xs ih =>
    rw [List.foldl_cons, ih]
    cases hp : p x <;> simp [List.filter_cons, hp]
    omega

theorem foldl_write_filter (q : Nat → Bool) (quad : Nat → List Nat) (xs : List Nat)
    (f : List Nat) :
    xs.foldl (fun f j => if q j = true then f else f ++ quad j) f
      = f ++ (xs.filter (fun j => !(q j))).flatMap quad := by
  induction xs generalizing f with
  | nil => simp
  | cons x xs ih =>
    rw [List.foldl_cons, ih]
    cases hq : q x <;> simp [List.filter_cons, hq]

theorem adcCursor_succ (all : List Mesh) (i : Nat) (m : Mesh) (hget : all[i]? = some m) :
    adcCursor all (i + 1) = adcCursor all i + m.indices.length := by
  unfold adcCursor
  rw [List.take_succ, hget]
  simp

/-- One pass of the counting loop, in strip mode. -/
theorem countMesh_strip (adc : Option (List Int)) (all : List Mesh) (i : Nat) (m : Mesh)
    (hget : all[i]? = some m) (c : Nat) :
    countMesh 1 adc (c, adcCursor all i) m
      = (c + (meshStripSteps adc all i).length, adcCursor all (i + 1)) := by
  rw [adcCursor_succ all i m hget]
  unfold countMesh meshStripSteps
  rw [hget]
  by_cases h3 : m.indices.length < 3
  · have : ¬ 3 ≤ m.indices.length := by omega
    simp [h3, this]
  · have : 3 ≤ m.indices.length := by omega
    simp only [h3, this, if_true, if_false, countTest_eq, foldl_count_filter, List.length_map]

/-- One pass of the writing loop, in strip mode. -/
theorem writeMesh_strip (adc : Option (List Int)) (materialList : List Nat) (all : List Mesh)
    (i : Nat) (m : Mesh) (hget : all[i]? = some m) (f : List Nat) :
    writeMesh 1 adc materialList (f, adcCursor all i) m
      = (f ++ (meshStripSteps adc all i).flatMap (stripQuadOf all materialList),
          adcCursor all (i + 1)) := by
  rw [adcCursor_succ all i m hget]
  unfold writeMesh meshStripSteps
  rw [hget]
  by_cases h3 : m.indices.length < 3
  · have : ¬ 3 ≤ m.indices.length := by omega
    simp [h3, this]
  · have : 3 ≤ m.indices.length := by omega
    simp only [h3, this, if_true, if_false, writeTest_eq, writeQuad_eq, foldl_write_filter,
      Bool.not_not, List.flatMap_map]
    have hq : (fun a => stripQuadOf all materialList (i, a))
        = stripQuad m.indices (toU16 (findPointer m.material materialList)) := by
      funext j
      simp [stripQuadOf, hget]
    rw [hq]

theorem foldl_countMesh_strip (adc : Option (List Int)) (all : List Mesh) :
    ∀ (rest pre : List Mesh) (c : Nat), all = pre ++ rest →
      rest.foldl (countMesh 1 adc) (c, adcCursor all pre.length)
        = (c + ((List.range' pre.length rest.length).flatMap (meshStripSteps adc all)).length,
            adcCursor all (pre.length + rest.length)) := by
  intro rest
  induction rest with
  | nil => intro pre c _; simp
  | cons m rest ih =>
    intro pre c hall
    have hget : all[pre.length]? = some m := by
      rw [hall, List.getElem?_append_right (Nat.le_refl _)]
      simp
    have h := ih (pre ++ [m]) (c + (meshStripSteps adc all pre.length).length)
      (by rw [hall]; simp)
    simp only [List.length_append, List.length_singleton] at h
    rw [List.foldl_cons, countMesh_strip adc all pre.length m hget, h, List.length_cons,
      List.range'_succ, List.flatMap_cons, List.length_append]
    congr 1
    · omega
    · congr 1; omega

theorem foldl_writeMesh_strip (adc : Option (List Int)) (materialList : List Nat)
    (all : List Mesh) :
    ∀ (rest pre : List Mesh) (f : List Nat), all = pre ++ rest →
      rest.foldl (writeMesh 1 adc materialList) (f, adcCursor all pre.length)
        = (f ++ ((List.range' pre.length rest.length).flatMap (meshStripSteps adc all)).flatMap
                (stripQuadOf all materialList),
            adcCursor all (pre.length + rest.length)) := by
  intro rest
  induction rest with
  | nil => intro pre f _; simp
  | cons m rest ih =>
    intro pre f hall
    have hget : all[pre.length]? = some m := by
      rw [hall, List.getElem?_append_right (Nat.le_refl _)]
      simp
    have h := ih (pre ++ [m])
      (f ++ (meshStripSteps adc all pre.length).flatMap (stripQuadOf all materialList))
      (by rw [hall]; simp)
    simp only [List.length_append, List.length_singleton] at h
    rw [List.foldl_cons, writeMesh_strip adc materialList all pre.length m hget, h,
      List.length_cons, List.range'_succ, List.flatMap_cons, List.flatMap_append,
      List.append_assoc]
    congr 2
    omega

/-- Membership in the steps of one mesh. -/
theorem mem_meshStripSteps (adc : Option (List Int)) (all : List Mesh) (i : Nat)
    (step : Nat × Nat) :
    step ∈ meshStripSteps adc all i ↔
      step.1 = i ∧ ∃ m, all[i]? = some m ∧ 3 ≤ m.indices.length
        ∧ step.2 < m.indices.length - 2
        ∧ stripStepKept adc (adcCursor all i) m.indices step.2 = true := by
  obtain ⟨a, b⟩ := step
  unfold meshStripSteps
  cases hget : all[i]? with
  | none => simp
  | some m =>
    by_cases h3 : 3 ≤ m.indices.length
    · simp only [h3, if_true, List.mem_map, List.mem_filter, List.mem_range, Prod.mk.injEq]
      constructor
      · rintro ⟨j, ⟨hj, hk⟩, rfl, rfl⟩
        exact ⟨rfl, m, rfl, h3, hj, hk⟩
      · rintro ⟨rfl, m1, hm1, _, hj, hk⟩
        cases hm1
        exact ⟨b, ⟨hj, hk⟩, rfl, rfl⟩
    · simp only [h3, if_false, List.not_mem_nil, false_iff]
      rintro ⟨_, m1, hm1, h31, _⟩
      cases hm1
      exact h3 h31

theorem stripQuad_length (idx : List Nat) (mat j : Nat) : (stripQuad idx mat j).length = 4 := by
  unfold stripQuad
  split <;> rfl

theorem stripQuadOf_length (adc : Option (List Int)) (all : List Mesh) (materialList : List Nat)
    (step : Nat × Nat) (hstep : step ∈ stripSteps adc all) :
    (stripQuadOf all materialList step).length = 4 := by
  simp only [stripSteps, List.mem_flatMap, List.mem_range] at hstep
  obtain ⟨i, _, hi⟩ := hstep
  obtain ⟨h1, m, hget, _⟩ := (mem_meshStripSteps adc all i step).1 hi
  unfold stripQuadOf
  rw [h1, hget]
  exact stripQuad_length _ _ _

theorem length_flatMap_four {α : Type} (f : α → List Nat) (xs : List α)
    (hf : ∀ x ∈ xs, (f x).length = 4) : (xs.flatMap f).length = 4 * xs.length := by
  induction xs with
  | nil => simp
  | cons x xs ih =>
    have h1 := hf x (List.mem_cons_self x xs)
    have h2 := ih (fun y hy => hf y (List.mem_cons_of_mem x hy))
    simp only [List.flatMap_cons, List.length_append, List.length_cons, h1, h2]
    omega

/-- In strip mode `Geometry::generateTriangles` counts the kept steps and writes
their quadruplets, mesh by mesh and step by step. -/
theorem Geometry.generateTriangles_strip_eq (g : Geometry) (adc : Option (List Int))
    (header : MeshHeader) (hheader : g.meshHeader = some header) (hstrip : header.flags = 1) :
    g.generateTriangles adc
      = some { g with
          numTriangles := (stripSteps adc header.mesh).length
          triangles := some ((stripSteps adc header.mesh).flatMap
            (stripQuadOf header.mesh (g.materialList.map (fun mat => mat.addr)))) } := by
  have hc := foldl_countMesh_strip adc header.mesh header.mesh [] 0 rfl
  have hw := foldl_writeMesh_strip adc (g.materialList.map (fun mat => mat.addr)) header.mesh
    header.mesh [] [] rfl
  have h0 : adcCursor header.mesh 0 = 0 := by simp [adcCursor]
  simp only [List.length_nil, Nat.zero_add, ← List.range_eq_range', h0, List.nil_append] at hc hw
  have hlen := length_flatMap_four
    (stripQuadOf header.mesh (g.materialList.map (fun mat => mat.addr)))
    (stripSteps adc header.mesh) (fun x hx => stripQuadOf_length adc _ _ x hx)
  unfold stripSteps at hlen
  unfold Geometry.generateTriangles
  simp only [hheader, hstrip, hc, hw, stripSteps]
  rw [List.drop_eq_nil_of_le (by rw [List.length_replicate, hlen]), List.append_nil]

/-- C9: in triangle-strip mode, a strip step `j` of mesh `i` (a mesh with at
least 3 indices, `j < n-2`) yields a triangle if and only if the indices at
`j`, `j+1`, `j+2` are pairwise distinct and either no adjacency bits were
supplied or the bit at the cursor position of the mesh plus `j+2` is zero, the
cursor being the sum of the index counts of all earlier meshes (skipped ones
included); `numTriangles` is the number of such steps over all meshes, and the
array written holds one quadruplet for each of them. -/
theorem Geometry.generateTriangles_strip_steps (g : Geometry) (adc : Option (List Int))
    (header : MeshHeader) (hheader : g.meshHeader = some header) (hstrip : header.flags = 1) :
    (∃ r, g.generateTriangles adc = some r
        ∧ r.numTriangles = (stripSteps adc header.mesh).length
        ∧ r.triangles = some ((stripSteps adc header.mesh).flatMap
            (stripQuadOf header.mesh (g.materialList.map (fun mat => mat.addr))))
        ∧ r.triangles.map List.length = some (4 * (stripSteps adc header.mesh).length))
      ∧ ∀ i j, (i, j) ∈ stripSteps adc header.mesh ↔
          ∃ m, header.mesh[i]? = some m ∧ 3 ≤ m.indices.length ∧ j < m.indices.length - 2
            ∧ (m.indices.getD j 0 ≠ m.indices.getD (j + 1) 0
                ∧ m.indices.getD j 0 ≠ m.indices.getD (j + 2) 0
                ∧ m.indices.getD (j + 1) 0 ≠ m.indices.getD (j + 2) 0)
            ∧ (adc = none ∨ ∃ bits, adc = some bits
                ∧ bits.getD (((header.mesh.take i).map (fun m => m.indices.length)).sum + j + 2) 0
                    = 0) := by
  refine ⟨⟨_, g.generateTriangles_strip_eq adc header hheader hstrip, rfl, rfl, ?_⟩, ?_⟩
  · simp only [Option.map_some']
    rw [length_flatMap_four _ _ (fun x hx => stripQuadOf_length adc _ _ x hx)]
  · intro i j
    simp only [stripSteps, List.mem_flatMap, List.mem_range]
    constructor
    · rintro ⟨i1, _, hmem⟩
      obtain ⟨h1, m, hget, h3, hj, hk⟩ := (mem_meshStripSteps adc header.mesh i1 (i, j)).1 hmem
      simp only at h1 hj hk
      subst h1
      refine ⟨m, hget, h3, hj, ?_⟩
      cases adc with
      | none => simpa [stripStepKept] using hk
      | some bits =>
        simp only [stripStepKept, Bool.and_eq_true, decide_eq_true_eq] at hk
        exact ⟨hk.1, Or.inr ⟨bits, rfl, hk.2⟩⟩
    · rintro ⟨m, hget, h3, hj, hd, hadc⟩
      have hi : i < header.mesh.length := by
        rcases List.getElem?_eq_some_iff.1 hget with ⟨h, _⟩
        exact h
      refine ⟨i, hi, (mem_meshStripSteps adc header.mesh i (i, j)).2 ⟨rfl, m, hget, h3, hj, ?_⟩⟩
      rcases hadc with h | ⟨bits, h, hb⟩
      · subst h
        simpa [stripStepKept] using hd
      · subst h
        simp only [stripStepKept, Bool.and_eq_true, decide_eq_true_eq]
        exact ⟨hd, hb⟩

/-- C9 at the geometry `adjacencyExample` with the adjacency bits
0,0,0,0,0,1,0,0: the first mesh is skipped but moves the cursor by 2, step 0 of
the second mesh is kept, step 1 is dropped by its bit (position 2+1+2), steps 2
and 3 repeat an index. -/
theorem Geometry.generateTriangles_strip_steps_witness :
    adjacencyExample.meshHeader
        = some { flags := 1
                 mesh := [{ indices := [7, 8], material := 101 },
                          { indices := [0, 1, 2, 3, 3, 4], material := 100 }] }
      ∧ (∃ r, adjacencyExample.generateTriangles (some [0, 0, 0, 0, 0, 1, 0, 0]) = some r
          ∧ r.numTriangles = 1 ∧ r.triangles = some [1, 0, 0, 2]) := by
  refine ⟨rfl, ?_⟩
  obtain ⟨⟨r, hr, hn, ht, _⟩, _⟩ :=
    Geometry.generateTriangles_strip_steps adjacencyExample (some [0, 0, 0, 0, 0, 1, 0, 0])
      { flags := 1
        mesh := [{ indices := [7, 8], material := 101 },
                 { indices := [0, 1, 2, 3, 3, 4], material := 100 }] } rfl rfl
  exact ⟨r, hr, hn.trans (by decide), ht.trans (by decide)⟩

theorem fst_of_mem_meshStripSteps (adc : Option (List Int)) (all : List Mesh) (i : Nat)
    (step : Nat × Nat) (h : step ∈ meshStripSteps adc all i) : step.1 = i :=
  ((mem_meshStripSteps adc all i step).1 h).1

/-- The kept steps are listed mesh by mesh in header order, and in increasing
`j` within a mesh. -/
theorem stripSteps_ordered (adc : Option (List Int)) (all : List Mesh) :
    List.Pairwise (fun a b : Nat × Nat => a.1 < b.1 ∨ (a.1 = b.1 ∧ a.2 < b.2))
      (stripSteps adc all) := by
  unfold stripSteps
  rw [List.pairwise_flatMap]
  constructor
  · intro i _
    unfold meshStripSteps
    cases all[i]? with
    | none => exact List.Pairwise.nil
    | some m =>
      dsimp only
      split
      · rw [List.pairwise_map]
        exact ((List.pairwise_lt_range _).filter _).imp (fun h => Or.inr ⟨rfl, h⟩)
      · exact List.Pairwise.nil
  · exact (List.pairwise_lt_range _).imp (fun {a b} hab x hx y hy => by
      rw [fst_of_mem_meshStripSteps adc all a x hx, fst_of_mem_meshStripSteps adc all b y hy]
      exact Or.inl hab)

/-- C10: in strip mode the array written by `Geometry::generateTriangles` is the
sequence of the quadruplets of the emitted steps, meshes in header order and
steps in increasing `j` within a mesh; the quadruplet of step `j` over the
indices `idx` of its mesh is `(idx[j+1], idx[j], materialIndex, idx[j+2])` when
`j` is even and `(idx[j+2], idx[j], materialIndex, idx[j+1])` when `j` is odd,
where `materialIndex` is the position of the mesh's material in the material
list (as stored in a `uint16`). -/
theorem Geometry.generateTriangles_strip_winding (g : Geometry) (adc : Option (List Int))
    (header : MeshHeader) (hheader : g.meshHeader = some header) (hstrip : header.flags = 1) :
    (∃ r, g.generateTriangles adc = some r
        ∧ r.triangles = some ((stripSteps adc header.mesh).flatMap
            (stripQuadOf header.mesh (g.materialList.map (fun mat => mat.addr)))))
      ∧ List.Pairwise (fun a b : Nat × Nat => a.1 < b.1 ∨ (a.1 = b.1 ∧ a.2 < b.2))
          (stripSteps adc header.mesh)
      ∧ (∀ i j m, header.mesh[i]? = some m →
          stripQuadOf header.mesh (g.materialList.map (fun mat => mat.addr)) (i, j)
            = if j % 2 = 0 then
                [m.indices.getD (j + 1) 0, m.indices.getD j 0,
                  toU16 (findPointer m.material (g.materialList.map (fun mat => mat.addr))),
                  m.indices.getD (j + 2) 0]
              else
                [m.indices.getD (j + 2) 0, m.indices.getD j 0,
                  toU16 (findPointer m.material (g.materialList.map (fun mat => mat.addr))),
                  m.indices.getD (j + 1) 0])
      ∧ (∀ (p : Nat) (list : List Nat), p ∈ list → list.indexOf p < 65536 →
          toU16 (findPointer p list) = list.indexOf p) := by
  refine ⟨⟨_, g.generateTriangles_strip_eq adc header hheader hstrip, rfl⟩,
    stripSteps_ordered adc header.mesh, ?_, ?_⟩
  · intro i j m hget
    simp only [stripQuadOf, hget, stripQuad]
  · intro p list hp hlt
    simp only [findPointer, hp, if_true, toU16]
    omega

/-- C10 at the geometry `stripExample`: steps 0 and 1 of its single mesh give
(1,0,5,2) and (3,1,5,2). -/
theorem Geometry.generateTriangles_strip_winding_witness :
    stripExample.meshHeader
        = some { flags := 1, mesh := [{ indices := [0, 1, 2, 3], material := 105 }] }
      ∧ (∃ r, stripExample.generateTriangles none = some r
          ∧ r.triangles = some [1, 0, 5, 2, 3, 1, 5, 2]) := by
  refine ⟨rfl, ?_⟩
  obtain ⟨⟨r, hr, ht⟩, _⟩ :=
    Geometry.generateTriangles_strip_winding stripExample none
      { flags := 1, mesh := [{ indices := [0, 1, 2, 3], material := 105 }] } rfl rfl
  exact ⟨r, hr, ht.trans (by decide)⟩

/-! ## Theorems: the stream codec -/

theorem unle_le (w x : Nat) : unle (le w x) = x % 256 ^ w := by
  induction w generalizing x with
  | zero => simp [le, unle, Nat.mod_one]
  | succ w ih =>
    simp only [le, unle, ih]
    rw [Nat.pow_succ, Nat.mul_comm (256 ^ w) 256, Nat.mod_mul]

theorem unle_le_of_lt (w x : Nat) (h : x < 256 ^ w) : unle (le w x) = x := by
  rw [unle_le, Nat.mod_eq_of_lt h]

theorem image_length (w : Nat) (xs : List Nat) : (image w xs).length = xs.length * w :=
  length_flatMap_const _ _ (fun x => le_length w x) xs

theorem Stream.read_append (a tail : List Nat) (n : Nat) (h : a.length = n) :
    Stream.read (a ++ tail) n = some (a, tail) := by
  subst h
  simp [Stream.read]

theorem Stream.readI32_append (x : Nat) (tail : List Nat) (h : x < 2 ^ 32) :
    Stream.readI32 (Stream.writeI32 x ++ tail) = some (x, tail) := by
  unfold Stream.readI32
  rw [Stream.read_append _ _ 4 (Stream.writeI32_length x)]
  simp only [Stream.writeI32]
  rw [unle_le_of_lt 4 x (by simpa using h)]

theorem elems_image (w : Nat) (xs tail : List Nat) (hx : ∀ x ∈ xs, x < 256 ^ w) :
    elems w xs.length (image w xs ++ tail) = xs := by
  induction xs with
  | nil => rfl
  | cons x xs ih =>
    have h1 : (image w (x :: xs) ++ tail).take w = le w x := by
      simp [image, List.flatMap_cons, List.take_append_eq_append_take, le_length]
    have h2 : (image w (x :: xs) ++ tail).drop w = image w xs ++ tail := by
      simp [image, List.flatMap_cons, List.drop_append_eq_append_drop, le_length]
    simp only [List.length_cons, elems, h1, h2]
    rw [unle_le_of_lt w x (hx x (List.mem_cons_self x xs)),
      ih (fun y hy => hx y (List.mem_cons_of_mem x hy))]

/-- Writing an allocated array of the right size and reading it back into an
array of the same length restores it; a `NULL` array stays `NULL`. -/
theorem store_write (w : Nat) (hw : 0 < w) (p p0 : Option (List Nat)) (n : Nat)
    (hshape : p.map List.length = p0.map List.length)
    (hlen : ∀ xs, p = some xs → xs.length * w = n)
    (hrange : ∀ xs, p = some xs → ∀ x ∈ xs, x < 256 ^ w) :
    store w p0 (Stream.write (memOf w p) n) = p := by
  cases p with
  | none =>
    cases p0 with
    | none => rfl
    | some old => simp at hshape
  | some xs =>
    cases p0 with
    | none => simp at hshape
    | some old =>
      have hl : old.length = xs.length := by simpa using hshape.symm
      have hn := hlen xs rfl
      have hwr : Stream.write (memOf w (some xs)) n = image w xs := by
        simp [Stream.write, memOf, image_length, hn]
      have hdiv : xs.length * w / w = xs.length := Nat.mul_div_cancel _ hw
      simp only [store, hwr, image_length, hdiv]
      have h := elems_image w xs [] (hrange xs rfl)
      rw [List.append_nil] at h
      rw [h, List.drop_eq_nil_of_le (by omega), List.append_nil]

/-- Reading back an array that was written, into an array of the same shape:
the call succeeds and restores the array, provided no bytes were written for a
`NULL` array. -/
theorem Stream.readArray_write (w : Nat) (hw : 0 < w) (p p0 : Option (List Nat)) (n : Nat)
    (tail : List Nat)
    (hshape : p.map List.length = p0.map List.length)
    (hlen : ∀ xs, p = some xs → xs.length * w = n)
    (hrange : ∀ xs, p = some xs → ∀ x ∈ xs, x < 256 ^ w)
    (hnull : p = none → n = 0) :
    Stream.readArray w p0 (Stream.write (memOf w p) n ++ tail) n = some (p, tail) := by
  have hguard : (p0.isNone && n != 0) = false := by
    cases p with
    | none =>
      rw [hnull rfl]
      simp
    | some xs =>
      cases p0 with
      | none => simp at hshape
      | some old => rfl
  unfold Stream.readArray
  rw [hguard]
  simp only [Bool.false_eq_true, if_false]
  rw [Stream.read_append _ _ _ (Stream.write_length _ _)]
  simp only [store_write w hw p p0 n hshape hlen hrange]

theorem findChunk_header (env : Env) (type size : Nat) (tail : List Nat)
    (htype : type < 2 ^ 32) (hsize : size < 2 ^ 32) (hver : env.version < 2 ^ 32) :
    findChunk (writeChunkHeader env type size ++ tail) type
      = some ((size, env.version), tail) := by
  have hlen : (writeChunkHeader env type size ++ tail).length
      = (tail.length + 11) + 1 := by
    simp [writeChunkHeader_length]; omega
  unfold findChunk
  rw [hlen]
  unfold findChunkAux
  rw [Stream.read_append _ _ 12 (writeChunkHeader_length env type size)]
  have h1 : (writeChunkHeader env type size).take 4 = le 4 type := by
    simp [writeChunkHeader, List.take_append_eq_append_take, le_length]
  have h2 : ((writeChunkHeader env type size).drop 4).take 4 = le 4 size := by
    simp [writeChunkHeader, List.take_append_eq_append_take, List.drop_append_eq_append_drop,
      le_length]
  have h3 : ((writeChunkHeader env type size).drop 8).take 4 = le 4 env.version := by
    have hd : (writeChunkHeader env type size).drop 8 = le 4 env.version :=
      List.drop_left' (by simp [le_length])
    rw [hd, List.take_of_length_le (by simp [le_length])]
  simp only [h1, h2, h3]
  rw [unle_le_of_lt 4 type (by simpa using htype), unle_le_of_lt 4 size (by simpa using hsize),
    unle_le_of_lt 4 env.version (by simpa using hver)]
  simp

/-! ## Theorems: reading back what was written -/

theorem option_map_length_none {p p0 : Option (List Nat)}
    (h : p.map List.length = p0.map List.length) (hp : p = none) : p0 = none := by
  subst hp
  cases p0 with
  | none => rfl
  | some _ => simp at h

theorem readTexCoords_write (V : Nat) :
    ∀ (tcs tcs0 : List (Option (List Nat))) (tail : List Nat),
      tcs.map (Option.map List.length) = tcs0.map (Option.map List.length) →
      (∀ tc ∈ tcs, ∀ xs, tc = some xs → xs.length * 4 = 2 * V * 4) →
      (∀ tc ∈ tcs, ∀ xs, tc = some xs → ∀ x ∈ xs, x < 256 ^ 4) →
      (∀ tc ∈ tcs, tc = none → 2 * V * 4 = 0) →
      readTexCoords V tcs0
          (tcs.flatMap (fun tc => Stream.write (memOf 4 tc) (2 * V * 4)) ++ tail)
        = some (tcs, tail) := by
  intro tcs
  induction tcs with
  | nil =>
    intro tcs0 tail hshape _ _ _
    cases tcs0 with
    | nil => rfl
    | cons _ _ => simp at hshape
  | cons tc tcs ih =>
    intro tcs0 tail hshape hlen hrange hnull
    cases tcs0 with
    | nil => simp at hshape
    | cons tc0 tcs0 =>
      simp only [List.map_cons, List.cons.injEq] at hshape
      have h1 := ih tcs0 tail hshape.2
        (fun t ht => hlen t (List.mem_cons_of_mem tc ht))
        (fun t ht => hrange t (List.mem_cons_of_mem tc ht))
        (fun t ht => hnull t (List.mem_cons_of_mem tc ht))
      simp only [readTexCoords, List.flatMap_cons, List.append_assoc]
      rw [Stream.readArray_write 4 (by decide) tc tc0 (2 * V * 4) _ hshape.1
        (hlen tc (List.mem_cons_self tc tcs)) (hrange tc (List.mem_cons_self tc tcs))
        (hnull tc (List.mem_cons_self tc tcs))]
      simp only [h1]

/-- What the round trip needs of one morph target `m` of the written geometry:
a four-element bounding sphere, arrays of `3*V` floats, 32-bit elements, and no
arrays at all when the geometry is NATIVE. -/
theorem readMorphTargets_write (env : Env) (g : Geometry) :
    ∀ (ms ms0 : List MorphTarget) (tail : List Nat),
      ms.map MorphTarget.shape = ms0.map MorphTarget.shape →
      (∀ m ∈ ms, m.boundingSphere.length = 4
        ∧ (∀ xs, m.vertices = some xs → xs.length * 4 = 3 * g.numVertices * 4)
        ∧ (∀ xs, m.normals = some xs → xs.length * 4 = 3 * g.numVertices * 4)
        ∧ (hasFlag g.geoflags env.NATIVE = true → m.vertices = none ∧ m.normals = none)) →
      (∀ m ∈ ms, (∀ x ∈ m.boundingSphere, x < 256 ^ 4)
        ∧ (∀ xs, m.vertices = some xs → ∀ x ∈ xs, x < 256 ^ 4)
        ∧ (∀ xs, m.normals = some xs → ∀ x ∈ xs, x < 256 ^ 4)) →
      readMorphTargets g.numVertices ms0 (ms.flatMap (g.writeMorphTarget env) ++ tail)
        = some (ms, tail) := by
  intro ms
  induction ms with
  | nil =>
    intro ms0 tail hshape _ _
    cases ms0 with
    | nil => rfl
    | cons _ _ => simp at hshape
  | cons m ms ih =>
    intro ms0 tail hshape hwf hrange
    cases ms0 with
    | nil => simp at hshape
    | cons m0 ms0 =>
      simp only [List.map_cons, List.cons.injEq, MorphTarget.shape, Prod.mk.injEq] at hshape
      obtain ⟨⟨hs, hv, hn⟩, hrest⟩ := hshape
      obtain ⟨hsl, hvl, hnl, hnat⟩ := hwf m (List.mem_cons_self m ms)
      obtain ⟨hsr, hvr, hnr⟩ := hrange m (List.mem_cons_self m ms)
      have h1 := ih ms0 tail hrest
        (fun t ht => hwf t (List.mem_cons_of_mem m ht))
        (fun t ht => hrange t (List.mem_cons_of_mem m ht))
      obtain ⟨sp, vs, ns⟩ := m
      dsimp only at hs hv hn hsl hvl hnl hnat hsr hvr hnr
      have hsphere : Stream.write (image 4 sp) (4 * 4) = image 4 sp := by
        simp [Stream.write, image_length, hsl]
      have hel : elems 4 4 (image 4 sp) = sp := by
        have h := elems_image 4 sp [] hsr
        rw [List.append_nil, hsl] at h
        exact h
      have hdrop : m0.boundingSphere.drop 4 = [] :=
        List.drop_eq_nil_of_le (by omega)
      have hsv := fun (h : vs = none → 3 * g.numVertices * 4 = 0) (tl : List Nat) =>
        Stream.readArray_write 4 (by decide) vs m0.vertices (3 * g.numVertices * 4) tl hv hvl hvr h
      have hsn := fun (h : ns = none → 3 * g.numVertices * 4 = 0) (tl : List Nat) =>
        Stream.readArray_write 4 (by decide) ns m0.normals (3 * g.numVertices * 4) tl hn hnl hnr h
      simp only [List.flatMap_cons, List.append_assoc, Geometry.writeMorphTarget]
      cases hnative : hasFlag g.geoflags env.NATIVE with
      | true =>
        obtain ⟨hvn, hnn⟩ := hnat hnative
        subst hvn hnn
        have hv0 := option_map_length_none hv rfl
        have hn0 := option_map_length_none hn rfl
        simp only [Bool.not_true, Bool.false_eq_true, if_false, List.append_assoc, readMorphTargets]
        rw [Stream.read_append _ _ _ (Stream.write_length _ _)]
        simp only [Stream.readI32_append 0 _ (by decide), hsphere, hel, hdrop, List.append_nil,
          ne_eq, not_true_eq_false, if_false, h1, hv0, hn0]
      | false =>
        simp only [Bool.not_false, if_true, List.append_assoc, readMorphTargets]
        rw [Stream.read_append _ _ _ (Stream.write_length _ _)]
        cases vs with
        | none =>
          have hv0 := option_map_length_none hv rfl
          cases ns with
          | none =>
            have hn0 := option_map_length_none hn rfl
            simp only [Option.isSome_none, Bool.false_eq_true, if_false, List.nil_append,
              Stream.readI32_append 0 _ (by decide), hsphere, hel, hdrop, List.append_nil,
              ne_eq, not_true_eq_false, h1, hv0, hn0]
          | some ns =>
            simp only [Option.isSome_none, Option.isSome_some, Bool.false_eq_true, if_false,
              if_true, List.nil_append, List.append_assoc,
              Stream.readI32_append 0 _ (by decide), Stream.readI32_append 1 _ (by decide),
              hsphere, hel, hdrop, List.append_nil, ne_eq, not_true_eq_false, one_ne_zero,
              not_false_eq_true, h1, hv0]
            rw [hsn (fun h => by cases h)]
            simp only [h1]
        | some vs =>
          cases ns with
          | none =>
            have hn0 := option_map_length_none hn rfl
            simp only [Option.isSome_none, Option.isSome_some, Bool.false_eq_true, if_false,
              if_true, List.nil_append, List.append_assoc, List.append_nil,
              Stream.readI32_append 0 _ (by decide), Stream.readI32_append 1 _ (by decide),
              hsphere, hel, hdrop, ne_eq, not_true_eq_false, one_ne_zero,
              not_false_eq_true, hn0]
            rw [hsv (fun h => by cases h)]
            simp only [h1]
          | some ns =>
            simp only [Option.isSome_some, if_true, List.append_assoc, List.append_nil,
              Stream.readI32_append 1 _ (by decide),
              hsphere, hel, hdrop, ne_eq, one_ne_zero, not_false_eq_true]
            rw [hsv (fun h => by cases h)]
            simp only []
            rw [hsn (fun h => by cases h)]
            simp only [h1]

theorem testBit_of_lt_256 (n k : Nat) (hn : n < 256) (hk : 8 ≤ k) : n.testBit k = false :=
  Nat.testBit_lt_two_pow
    (lt_of_lt_of_le hn (by
      have h : 2 ^ 8 ≤ 2 ^ k := Nat.pow_le_pow_right (by decide) hk
      simpa using h))

theorem testBit_FF00FFFF (i : Nat) :
    (0xFF00FFFF : Nat).testBit i = (decide (i < 16) || (decide (24 ≤ i) && decide (i < 32))) := by
  rw [mask_FF00FFFF, Nat.testBit_or, Nat.testBit_shiftLeft, Nat.testBit_two_pow_sub_one,
    Nat.testBit_two_pow_sub_one]
  congr 1
  by_cases h : 24 ≤ i
  · have : (i - 24 < 8) = (i < 32) := by apply propext; omega
    simp [h, this]
  · simp [h]

theorem testBit_FF0000 (i : Nat) :
    (0xFF0000 : Nat).testBit i = (decide (16 ≤ i) && decide (i < 24)) := by
  rw [mask_FF0000, Nat.testBit_shiftLeft, Nat.testBit_two_pow_sub_one]
  by_cases h : 16 ≤ i
  · have : (i - 16 < 8) = (i < 24) := by apply propext; omega
    simp [h, this]
  · simp [h]

/-- The stored flags survive the flags word `geoflags | numTexCoordSets << 16`. -/
theorem flagsWord_mask (x n : Nat) (hn : n < 256) :
    ((x &&& 0xFF00FFFF) ||| (n <<< 16)) &&& 0xFF00FFFF = x &&& 0xFF00FFFF := by
  apply Nat.eq_of_testBit_eq
  intro i
  rw [Nat.testBit_and, Nat.testBit_or, Nat.testBit_and, Nat.testBit_shiftLeft, testBit_FF00FFFF]
  by_cases h16 : i < 16
  · have : ¬ i ≥ 16 := by omega
    simp [this, h16]
  · by_cases h24 : 24 ≤ i
    · have hk := testBit_of_lt_256 n (i - 16) hn (by omega)
      simp [hk]
    · simp [h16, h24]

/-- The count field of the flags word is the count. -/
theorem flagsWord_field (x n : Nat) (hn : n < 256) :
    (((x &&& 0xFF00FFFF) ||| (n <<< 16)) &&& 0xFF0000) >>> 16 = n := by
  apply Nat.eq_of_testBit_eq
  intro i
  rw [Nat.testBit_shiftRight, Nat.testBit_and, Nat.testBit_or, Nat.testBit_and,
    Nat.testBit_shiftLeft, testBit_FF00FFFF, testBit_FF0000]
  have h1 : 16 + i - 16 = i := by omega
  have h2 : ¬ 16 + i < 16 := by omega
  rw [h1]
  by_cases h8 : i < 8
  · have h3 : ¬ 24 ≤ 16 + i := by omega
    have h4 : 16 + i < 24 := by omega
    simp [h2, h3, h4]
  · have hk := testBit_of_lt_256 n i hn (by omega)
    have h4 : ¬ 16 + i < 24 := by omega
    simp [h4, hk]

/-- The flags word is a `uint32`. -/
theorem flagsWord_lt (x n : Nat) (hn : n < 256) : (x &&& 0xFF00FFFF) ||| (n <<< 16) < 2 ^ 32 := by
  apply Nat.lt_pow_two_of_testBit
  intro i hi
  rw [Nat.testBit_or, Nat.testBit_shiftLeft, testBit_geoflagsMask]
  have hk := testBit_of_lt_256 n (i - 16) hn (by omega)
  have h1 : ¬ i < 16 := by omega
  have h2 : ¬ i < 32 := by omega
  simp [hk, h1, h2]

theorem Geometry.create_texCount (env : Env) (numVerts numTris x : Nat) :
    (Geometry.create env numVerts numTris x).texCoords.length
      = (if (x &&& 0xFF0000) >>> 16 = 0 then
          (if hasFlag (x &&& 0xFF00FFFF) env.TEXTURED then 1
           else if hasFlag (x &&& 0xFF00FFFF) env.TEXTURED2 then 2 else 0)
         else (x &&& 0xFF0000) >>> 16) := by
  unfold Geometry.create
  simp only [List.length_replicate]

theorem Geometry.create_texCount_lt (env : Env) (numVerts numTris x : Nat) :
    (Geometry.create env numVerts numTris x).texCoords.length < 256 := by
  rw [Geometry.create_texCount, countField_eq]
  have h : x / 2 ^ 16 % 2 ^ 8 < 256 := Nat.mod_lt _ (by decide)
  split
  · split
    · decide
    · split <;> decide
  · exact h

theorem Geometry.create_congr (env : Env) (numVerts numTris w x : Nat)
    (h1 : w &&& 0xFF00FFFF = x &&& 0xFF00FFFF)
    (h2 : (Geometry.create env numVerts numTris w).texCoords.length
      = (Geometry.create env numVerts numTris x).texCoords.length) :
    Geometry.create env numVerts numTris w = Geometry.create env numVerts numTris x := by
  rw [Geometry.create_texCount, Geometry.create_texCount, h1] at h2
  unfold Geometry.create
  simp only [h1, h2]

/-- Creating a geometry from the flags word that `streamWrite` stores for a
created geometry gives the same geometry. -/
theorem Geometry.create_flagsWord (env : Env) (numVerts numTris flags : Nat) :
    Geometry.create env numVerts numTris
        ((Geometry.create env numVerts numTris flags).geoflags
          ||| ((Geometry.create env numVerts numTris flags).numTexCoordSets <<< 16))
      = Geometry.create env numVerts numTris flags := by
  have hn := Geometry.create_texCount_lt env numVerts numTris flags
  have hg : (Geometry.create env numVerts numTris flags).geoflags = flags &&& 0xFF00FFFF := rfl
  unfold Geometry.numTexCoordSets
  rw [hg]
  apply Geometry.create_congr
  · exact flagsWord_mask flags _ hn
  · rw [Geometry.create_texCount env numVerts numTris
      ((flags &&& 0xFF00FFFF) ||| ((Geometry.create env numVerts numTris flags).texCoords.length <<< 16)),
      flagsWord_field flags _ hn, flagsWord_mask flags _ hn]
    by_cases h0 : (Geometry.create env numVerts numTris flags).texCoords.length = 0
    · rw [if_pos h0, h0]
      rw [Geometry.create_texCount] at h0
      by_cases hf : (flags &&& 0xFF0000) >>> 16 = 0
      · rw [if_pos hf] at h0
        exact h0
      · rw [if_neg hf] at h0
        exact absurd h0 hf
    · rw [if_neg h0]

theorem u32_lt (a : Nat) : u32 a < 2 ^ 32 := Nat.mod_lt _ (by decide)

theorem length_of_shape {p p0 : Option (List Nat)} {c : Nat}
    (h : p.map List.length = p0.map List.length)
    (h0 : ∀ k, p0.map List.length = some k → k = c) :
    ∀ xs, p = some xs → xs.length = c := by
  intro xs hp
  subst hp
  exact h0 xs.length h.symm

theorem eq_of_shape_none :
    ∀ (tcs tcs0 : List (Option (List Nat))),
      tcs.map (Option.map List.length) = tcs0.map (Option.map List.length) →
      (∀ tc ∈ tcs, tc = none) → tcs0 = tcs := by
  intro tcs
  induction tcs with
  | nil =>
    intro tcs0 h _
    cases tcs0 with
    | nil => rfl
    | cons _ _ => simp at h
  | cons tc tcs ih =>
    intro tcs0 h hnone
    cases tcs0 with
    | nil => simp at h
    | cons tc0 tcs0 =>
      simp only [List.map_cons, List.cons.injEq] at h
      have h1 := hnone tc (List.mem_cons_self tc tcs)
      rw [option_map_length_none h.1 h1, h1,
        ih tcs0 h.2 (fun t ht => hnone t (List.mem_cons_of_mem tc ht))]

/-- The arrays of a geometry returned by `Geometry::create`: their lengths when
present, and where they are absent. -/
theorem Geometry.create_shape (env : Env) (numVerts numTris flags : Nat) :
    (∀ k, (Geometry.create env numVerts numTris flags).colors.map List.length = some k →
        k = 4 * numVerts)
      ∧ (∀ tc ∈ (Geometry.create env numVerts numTris flags).texCoords,
          ∀ k, tc.map List.length = some k → k = 2 * numVerts)
      ∧ (∀ k, (Geometry.create env numVerts numTris flags).triangles.map List.length = some k →
          k = 4 * numTris)
      ∧ (∀ m ∈ (Geometry.create env numVerts numTris flags).morphTargets,
          m.boundingSphere.length = 4
            ∧ (∀ k, m.vertices.map List.length = some k → k = 3 * numVerts)
            ∧ (∀ k, m.normals.map List.length = some k → k = 3 * numVerts))
      ∧ (hasFlag (Geometry.create env numVerts numTris flags).geoflags env.PRELIT = false →
          (Geometry.create env numVerts numTris flags).colors = none)
      ∧ (hasFlag (Geometry.create env numVerts numTris flags).geoflags env.NATIVE = true →
          (Geometry.create env numVerts numTris flags).colors = none
            ∧ (∀ tc ∈ (Geometry.create env numVerts numTris flags).texCoords, tc = none)
            ∧ (Geometry.create env numVerts numTris flags).triangles = none
            ∧ (∀ m ∈ (Geometry.create env numVerts numTris flags).morphTargets,
                m.vertices = none ∧ m.normals = none)) := by
  refine ⟨?_, ?_, ?_, ?_, ?_, ?_⟩
  · intro k hk
    simp only [Geometry.create] at hk
    split at hk <;> simp at hk
    exact hk.symm
  · intro tc htc k hk
    simp only [Geometry.create] at htc
    have h := List.eq_of_mem_replicate htc
    subst h
    split at hk <;> simp at hk
    exact hk.symm
  · intro k hk
    simp only [Geometry.create] at hk
    split at hk <;> simp at hk
    exact hk.symm
  · intro m hm
    simp only [Geometry.create, List.mem_singleton] at hm
    subst hm
    refine ⟨rfl, ?_, ?_⟩
    · intro k hk
      dsimp only at hk
      split at hk <;> simp at hk
      exact hk.symm
    · intro k hk
      dsimp only at hk
      split at hk <;> simp at hk
      exact hk.symm
  · intro h
    have h1 : hasFlag (flags &&& 0xFF00FFFF) env.PRELIT = false := h
    simp [Geometry.create, h1]
  · intro h
    have h1 : hasFlag (flags &&& 0xFF00FFFF) env.NATIVE = true := h
    refine ⟨by simp [Geometry.create, h1], ?_, by simp [Geometry.create, h1], ?_⟩
    · intro tc htc
      simp only [Geometry.create] at htc
      have h2 := List.eq_of_mem_replicate htc
      simpa [h1] using h2
    · intro m hm
      simp only [Geometry.create, List.mem_singleton] at hm
      subst hm
      simp [h1]

/-- Reading the arrays back into a geometry `g0` of the same shape as the written
geometry `g` gives `g0` with the arrays of `g`. -/
theorem Geometry.readArrays_writeArrays (env : Env) (g g0 : Geometry) (tail : List Nat)
    (hflags : g.geoflags = g0.geoflags) (hverts : g.numVertices = g0.numVertices)
    (htris : g.numTriangles = g0.numTriangles)
    (hc : g.colors.map List.length = g0.colors.map List.length)
    (htc : g.texCoords.map (Option.map List.length) = g0.texCoords.map (Option.map List.length))
    (htr : g.triangles.map List.length = g0.triangles.map List.length)
    (hcl : ∀ xs, g.colors = some xs → xs.length = 4 * g.numVertices)
    (htcl : ∀ tc ∈ g.texCoords, ∀ xs, tc = some xs → xs.length = 2 * g.numVertices)
    (htrl : ∀ xs, g.triangles = some xs → xs.length = 4 * g.numTriangles)
    (hpre : hasFlag g.geoflags env.PRELIT = false → g.colors = none)
    (hnat : hasFlag g.geoflags env.NATIVE = true →
      g.colors = none ∧ (∀ tc ∈ g.texCoords, tc = none) ∧ g.triangles = none)
    (hcr : ∀ xs, g.colors = some xs → ∀ x ∈ xs, x < 256 ^ 1)
    (htcr : ∀ tc ∈ g.texCoords, ∀ xs, tc = some xs → ∀ x ∈ xs, x < 256 ^ 4)
    (htrr : ∀ xs, g.triangles = some xs → ∀ x ∈ xs, x < 256 ^ 2)
    (hnull : g.writesFromNull env = false) :
    g0.readArrays env (g.writeArrays env ++ tail)
      = some ({ g0 with colors := g.colors, texCoords := g.texCoords,
                        triangles := g.triangles }, tail) := by
  unfold Geometry.writesFromNull at hnull
  unfold Geometry.readArrays Geometry.writeArrays
  simp only [hflags, hverts, htris] at hcl htcl htrl hpre hnat hnull ⊢
  cases hn : hasFlag g0.geoflags env.NATIVE with
  | true =>
    obtain ⟨h1, h2, h3⟩ := hnat hn
    have e1 : g0.colors = g.colors := by rw [option_map_length_none hc h1, h1]
    have e2 : g0.texCoords = g.texCoords := eq_of_shape_none _ _ htc h2
    have e3 : g0.triangles = g.triangles := by rw [option_map_length_none htr h3, h3]
    simp only [Bool.not_true, Bool.false_eq_true, if_false, List.nil_append]
    rw [← e1, ← e2, ← e3]
  | false =>
    rw [hn] at hnull
    have hcn : hasFlag g0.geoflags env.PRELIT = true → g.colors = none →
        4 * g0.numVertices = 0 := by
      intro hp hc0
      by_contra hne
      have hbad : (hasFlag g0.geoflags env.PRELIT && g.colors.isNone
          && 4 * g0.numVertices != 0) = true := by
        simp [hp, hc0, hne]
      rw [hbad] at hnull
      simp at hnull
    have htn : ∀ tc ∈ g.texCoords, tc = none → 2 * g0.numVertices * 4 = 0 := by
      intro tc hmem htc0
      by_contra hne
      have hbad : g.texCoords.any (fun tc => tc.isNone && 2 * g0.numVertices * 4 != 0)
          = true := by
        rw [List.any_eq_true]
        exact ⟨tc, hmem, by simp [htc0, hne]⟩
      rw [hbad] at hnull
      simp at hnull
    have htrn : g.triangles = none → 4 * g0.numTriangles * 2 = 0 := by
      intro htr0
      by_contra hne
      have hbad : (g.triangles.isNone && 4 * g0.numTriangles * 2 != 0) = true := by
        simp [htr0, hne]
      rw [hbad] at hnull
      simp at hnull
    have hs1 := fun h tl => Stream.readArray_write 1 (by decide) g.colors g0.colors
      (4 * g0.numVertices) tl hc (fun xs h => by have := hcl xs h; omega) hcr h
    have hs2 := readTexCoords_write g0.numVertices g.texCoords g0.texCoords
      (Stream.write (memOf 2 g.triangles) (4 * g0.numTriangles * 2) ++ tail) htc
      (fun tc h xs hx => by have := htcl tc h xs hx; omega) htcr htn
    have hs3 := Stream.readArray_write 2 (by decide) g.triangles g0.triangles
      (4 * g0.numTriangles * 2) tail htr (fun xs h => by have := htrl xs h; omega) htrr htrn
    simp only [Bool.not_false, if_true, List.append_assoc]
    cases hp : hasFlag g0.geoflags env.PRELIT with
    | true =>
      simp only [if_true]
      rw [hs1 (hcn hp)]
      simp only [hs2]
      rw [hs3]
    | false =>
      have e1 : g0.colors = g.colors := by
        rw [option_map_length_none hc (hpre hp), hpre hp]
      simp only [Bool.false_eq_true, if_false, List.nil_append, hs2]
      rw [hs3, ← e1]

/-- The four fields of the 16-byte `GeoStreamData` record. -/
theorem record_fields (a b c d : Nat) (ha : a < 2 ^ 32) (hb : b < 2 ^ 32) (hc : c < 2 ^ 32)
    (hd : d < 2 ^ 32) :
    (le 4 a ++ le 4 b ++ le 4 c ++ le 4 d).length = 16
      ∧ unle ((le 4 a ++ le 4 b ++ le 4 c ++ le 4 d).take 4) = a
      ∧ unle (((le 4 a ++ le 4 b ++ le 4 c ++ le 4 d).drop 4).take 4) = b
      ∧ unle (((le 4 a ++ le 4 b ++ le 4 c ++ le 4 d).drop 8).take 4) = c
      ∧ unle (((le 4 a ++ le 4 b ++ le 4 c ++ le 4 d).drop 12).take 4) = d := by
  have e1 : (le 4 a ++ le 4 b ++ le 4 c ++ le 4 d).take 4 = le 4 a := by
    simp [List.take_append_eq_append_take, le_length]
  have e2 : ((le 4 a ++ le 4 b ++ le 4 c ++ le 4 d).drop 4).take 4 = le 4 b := by
    simp [List.take_append_eq_append_take, List.drop_append_eq_append_drop, le_length]
  have e3 : ((le 4 a ++ le 4 b ++ le 4 c ++ le 4 d).drop 8).take 4 = le 4 c := by
    have hd3 : (le 4 a ++ le 4 b ++ le 4 c ++ le 4 d).drop 8 = le 4 c ++ le 4 d := by
      rw [List.append_assoc (le 4 a ++ le 4 b)]
      exact List.drop_left' (by simp [le_length])
    rw [hd3]
    simp [List.take_append_eq_append_take, le_length]
  have e4 : ((le 4 a ++ le 4 b ++ le 4 c ++ le 4 d).drop 12).take 4 = le 4 d := by
    have hd4 : (le 4 a ++ le 4 b ++ le 4 c ++ le 4 d).drop 12 = le 4 d :=
      List.drop_left' (by simp [le_length])
    rw [hd4, List.take_of_length_le (by simp [le_length])]
  rw [e1, e2, e3, e4, unle_le_of_lt 4 a (by simpa using ha), unle_le_of_lt 4 b (by simpa using hb),
    unle_le_of_lt 4 c (by simpa using hc), unle_le_of_lt 4 d (by simpa using hd)]
  simp [le_length]

theorem Geometry.addMorphTargets_zero (env : Env) (junk : Nat → MorphTarget) (g : Geometry) :
    g.addMorphTargets env junk 0 = g := by
  simp [Geometry.addMorphTargets]

theorem Stream.seek_write (mem tail : List Nat) (n : Nat) :
    Stream.seek (Stream.write mem n ++ tail) n = tail :=
  List.drop_left' (Stream.write_length mem n)

theorem exists_of_map_eq {α β : Type} (f : α → β) (xs ys : List α)
    (h : xs.map f = ys.map f) (x : α) (hx : x ∈ xs) : ∃ y ∈ ys, f y = f x := by
  have hm : f x ∈ xs.map f := List.mem_map_of_mem f hx
  rw [h] at hm
  obtain ⟨y, hy, e⟩ := List.mem_map.1 hm
  exact ⟨y, hy, e⟩

/-- The round trip where the stream code reads and writes through no `NULL`
array: for a geometry `g` built by `Geometry::create` and then filled with
arbitrary array contents, such that `Geometry::streamWrite` passes no `NULL`
array with a nonzero byte count to the stream, the write succeeds, and
`findChunk` for the GEOMETRY chunk followed by `Geometry::streamRead`, applied
to the bytes written (same format version, any bytes `tail` behind them),
succeeds, consumes exactly those bytes, and yields a geometry with the same
flags, texture-coordinate-set count, vertex, triangle and morph-target counts
and with colour, texcoord, triangle, position and normal arrays and bounding
spheres equal to those of `g`.  The byte counts `4*numVertices`,
`2*numVertices*4`, `3*numVertices*4` and `4*numTriangles*2` are `int32` products
and are taken not to overflow; array elements are values of their C type,
version and chunk ids `uint32`, and the plugin registry reads back what it
wrote. -/
theorem Geometry.streamRead_streamWrite (env : Env) (junk : Nat → MorphTarget)
    (alloc : Nat → Nat) (rights : Nat × Nat) (numVerts numTris flags : Nat) (g : Geometry)
    (tail : List Nat)
    (henv : env.WellTyped) (hverts : 12 * numVerts < 2 ^ 31) (htris : 8 * numTris < 2 ^ 31)
    (hfill : g.FilledFrom (Geometry.create env numVerts numTris flags))
    (htyped : g.WellTyped)
    (hnull : g.writesFromNull env = false)
    (hplug : ∃ p, env.geoStreamReadPlugins (env.geoStreamWritePlugins g ++ tail) g.plugins
      = some (p, tail)) :
    g.streamWriteChecked env = some (g.streamWrite env)
      ∧ ∃ s g' rights',
        findChunk (g.streamWrite env ++ tail) env.ID_GEOMETRY
            = some ((g.streamGetSize env, env.version), s)
          ∧ Geometry.streamRead env junk alloc rights s = some (g', rights', tail)
          ∧ g'.geoflags = g.geoflags ∧ g'.numTexCoordSets = g.numTexCoordSets
          ∧ g'.numVertices = g.numVertices ∧ g'.numTriangles = g.numTriangles
          ∧ g'.numMorphTargets = g.numMorphTargets
          ∧ g'.colors = g.colors ∧ g'.texCoords = g.texCoords ∧ g'.triangles = g.triangles
          ∧ g'.morphTargets = g.morphTargets := by
  refine ⟨by simp [Geometry.streamWriteChecked, hnull], ?_⟩
  obtain ⟨hver, hidS, hidG, hidM⟩ := henv
  obtain ⟨hf, ht, hv, hc, htc, htr, hmt, hml, _, _, _, hpl⟩ := hfill
  obtain ⟨tyc, tytc, tytr, tymt⟩ := htyped
  obtain ⟨shc, shtc, shtr, shmt, shpre, shnat⟩ := Geometry.create_shape env numVerts numTris flags
  obtain ⟨p, hp⟩ := hplug
  have hword := Geometry.create_flagsWord env numVerts numTris flags
  have hwlt := flagsWord_lt flags _ (Geometry.create_texCount_lt env numVerts numTris flags)
  generalize hg0 : Geometry.create env numVerts numTris flags = g0 at *
  have hV0 : g0.numVertices = numVerts := by rw [← hg0]; rfl
  have hT0 : g0.numTriangles = numTris := by rw [← hg0]; rfl
  have hF0 : g0.geoflags = flags &&& 0xFF00FFFF := by rw [← hg0]; rfl
  have hM0 : g0.materialList = [] := by rw [← hg0]; rfl
  have hN0 : g0.morphTargets.length = 1 := by rw [← hg0]; rfl
  have hntc : g.numTexCoordSets = g0.numTexCoordSets := by
    have := congrArg List.length htc
    simpa [Geometry.numTexCoordSets] using this
  have hnmt : g.numMorphTargets = 1 := by
    have := congrArg List.length hmt
    simp only [List.length_map] at this
    rw [Geometry.numMorphTargets, this, hN0]
  rw [hM0] at hml
  -- the bytes written
  have hmat : g.writeMatList env
      = writeChunkHeader env env.ID_MATLIST (u32 (12 + 4))
        ++ (writeChunkHeader env env.ID_STRUCT 4 ++ (Stream.writeI32 0 ++ [])) := by
    simp [Geometry.writeMatList, hml, Geometry.numMaterials, List.append_assoc]
  have hwrite : g.streamWrite env ++ tail
      = writeChunkHeader env env.ID_GEOMETRY (g.streamGetSize env)
        ++ (writeChunkHeader env env.ID_STRUCT (geoStructSize env g)
        ++ ((le 4 (g0.geoflags ||| (g0.numTexCoordSets <<< 16)) ++ le 4 numTris ++ le 4 numVerts
              ++ le 4 1)
        ++ ((if env.version < 0x34000 then
              Stream.write (image 4 [0x3F800000, 0x3F800000, 0x3F800000]) 12 else [])
        ++ (g.writeArrays env
        ++ (g.morphTargets.flatMap (g.writeMorphTarget env)
        ++ (writeChunkHeader env env.ID_MATLIST (u32 (12 + 4))
        ++ (writeChunkHeader env env.ID_STRUCT 4
        ++ (Stream.writeI32 0
        ++ (env.geoStreamWritePlugins g ++ tail))))))))) := by
    simp only [Geometry.streamWrite, Geometry.writeStruct, hmat, List.append_assoc,
      List.nil_append, hf, hntc, ht, hT0, hv, hV0, hnmt]
  have hsize : g.streamGetSize env < 2 ^ 32 := u32_lt _
  refine ⟨?s, { g0 with colors := g.colors, texCoords := g.texCoords, triangles := g.triangles,
                         morphTargets := g.morphTargets, materialList := [], plugins := p },
    rights, ?h1, ?h2, hf.symm, rfl, hv.symm, ht.symm, rfl, rfl, rfl, rfl, rfl⟩
  case h1 =>
    rw [hwrite]
    exact findChunk_header env env.ID_GEOMETRY _ _ hidG hsize hver
  case h2 =>
    have hrec := record_fields (g0.geoflags ||| (g0.numTexCoordSets <<< 16)) numTris numVerts 1
      (by rw [hF0]; exact hwlt) (by omega) (by omega) (by decide)
    obtain ⟨hl, r1, r2, r3, r4⟩ := hrec
    have hgs : geoStructSize env g < 2 ^ 32 := by rw [geoStructSize_eq_u32]; exact u32_lt _
    unfold Geometry.streamRead
    rw [findChunk_header env env.ID_STRUCT _ _ hidS hgs hver]
    simp only []
    rw [Stream.read_append _ _ 16 hl]
    simp only [r1, r2, r3, r4, hword, Nat.sub_self, Geometry.addMorphTargets_zero]
    have hseek : (if env.version < 0x34000 then
          Stream.seek ((if env.version < 0x34000 then
              Stream.write (image 4 [0x3F800000, 0x3F800000, 0x3F800000]) 12 else [])
            ++ (g.writeArrays env
            ++ (g.morphTargets.flatMap (g.writeMorphTarget env)
            ++ (writeChunkHeader env env.ID_MATLIST (u32 (12 + 4))
            ++ (writeChunkHeader env env.ID_STRUCT 4
            ++ (Stream.writeI32 0
            ++ (env.geoStreamWritePlugins g ++ tail))))))) 12
        else
          ((if env.version < 0x34000 then
              Stream.write (image 4 [0x3F800000, 0x3F800000, 0x3F800000]) 12 else [])
            ++ (g.writeArrays env
            ++ (g.morphTargets.flatMap (g.writeMorphTarget env)
            ++ (writeChunkHeader env env.ID_MATLIST (u32 (12 + 4))
            ++ (writeChunkHeader env env.ID_STRUCT 4
            ++ (Stream.writeI32 0
            ++ (env.geoStreamWritePlugins g ++ tail))))))))
        = g.writeArrays env
            ++ (g.morphTargets.flatMap (g.writeMorphTarget env)
            ++ (writeChunkHeader env env.ID_MATLIST (u32 (12 + 4))
            ++ (writeChunkHeader env env.ID_STRUCT 4
            ++ (Stream.writeI32 0
            ++ (env.geoStreamWritePlugins g ++ tail))))) := by
      by_cases hlt : env.version < 0x34000
      · simp only [hlt, if_true]
        exact Stream.seek_write _ _ 12
      · simp only [hlt, if_false, List.nil_append]
    rw [hseek]
    have hgV : g.numVertices = numVerts := hv.trans hV0
    have hgT : g.numTriangles = numTris := ht.trans hT0
    -- the arrays
    have hcl : ∀ xs, g.colors = some xs → xs.length = 4 * g.numVertices := by
      intro xs h
      rw [hgV]
      exact length_of_shape hc shc xs h
    have htcl : ∀ tc ∈ g.texCoords, ∀ xs, tc = some xs → xs.length = 2 * g.numVertices := by
      intro tc htcm xs h
      obtain ⟨tc0, h0, e⟩ := exists_of_map_eq (Option.map List.length) _ _ htc tc htcm
      rw [hgV]
      exact length_of_shape e.symm (shtc tc0 h0) xs h
    have htrl : ∀ xs, g.triangles = some xs → xs.length = 4 * g.numTriangles := by
      intro xs h
      rw [hgT]
      exact length_of_shape htr shtr xs h
    have hpre : hasFlag g.geoflags env.PRELIT = false → g.colors = none := by
      intro h
      rw [hf] at h
      exact option_map_length_none hc.symm (shpre h)
    have hnat : hasFlag g.geoflags env.NATIVE = true →
        g.colors = none ∧ (∀ tc ∈ g.texCoords, tc = none) ∧ g.triangles = none := by
      intro h
      rw [hf] at h
      obtain ⟨n1, n2, n3, _⟩ := shnat h
      refine ⟨option_map_length_none hc.symm n1, ?_, option_map_length_none htr.symm n3⟩
      intro tc htcm
      obtain ⟨tc0, h0, e⟩ := exists_of_map_eq (Option.map List.length) _ _ htc tc htcm
      exact option_map_length_none e (n2 tc0 h0)
    rw [Geometry.readArrays_writeArrays env g g0 _ hf hv ht hc htc htr hcl htcl htrl hpre hnat
      tyc tytc tytr hnull]
    simp only []
    -- the morph targets
    have hwf : ∀ m ∈ g.morphTargets, m.boundingSphere.length = 4
        ∧ (∀ xs, m.vertices = some xs → xs.length * 4 = 3 * g.numVertices * 4)
        ∧ (∀ xs, m.normals = some xs → xs.length * 4 = 3 * g.numVertices * 4)
        ∧ (hasFlag g.geoflags env.NATIVE = true → m.vertices = none ∧ m.normals = none) := by
      intro m hm
      obtain ⟨m0, h0, e⟩ := exists_of_map_eq MorphTarget.shape _ _ hmt m hm
      simp only [MorphTarget.shape, Prod.mk.injEq] at e
      obtain ⟨e1, e2, e3⟩ := e
      obtain ⟨s1, s2, s3⟩ := shmt m0 h0
      refine ⟨by omega, ?_, ?_, ?_⟩
      · intro xs h
        have := length_of_shape e2.symm s2 xs h
        rw [hgV]; omega
      · intro xs h
        have := length_of_shape e3.symm s3 xs h
        rw [hgV]; omega
      · intro h
        rw [hf] at h
        obtain ⟨_, _, _, n4⟩ := shnat h
        exact ⟨option_map_length_none e2 (n4 m0 h0).1, option_map_length_none e3 (n4 m0 h0).2⟩
    have hB := readMorphTargets_write env g g.morphTargets g0.morphTargets
      (writeChunkHeader env env.ID_MATLIST (u32 (12 + 4))
        ++ (writeChunkHeader env env.ID_STRUCT 4
        ++ (Stream.writeI32 0
        ++ (env.geoStreamWritePlugins g ++ tail)))) hmt hwf tymt
    rw [hv] at hB
    rw [hB]
    simp only []
    -- the material list and the plugins
    rw [findChunk_header env env.ID_MATLIST _ _ hidM (u32_lt _) hver]
    simp only []
    rw [findChunk_header env env.ID_STRUCT _ _ hidS (by decide) hver]
    simp only []
    rw [Stream.readI32_append 0 _ (by decide)]
    simp only [Nat.zero_mul, Stream.seek, List.drop_zero, readMaterials, ← hpl, hp]

/-- The round trip at the geometry `filledExample` (PRELIT, NORMALS and
TEXTURED2 set, two vertices, one triangle), written at version `0x36003` and
followed by the bytes 9, 9 in the stream. -/
theorem Geometry.streamRead_streamWrite_witness :
    (Env.bare 0x36003).WellTyped
      ∧ filledExample.FilledFrom (Geometry.create (Env.bare 0x36003) 2 1 0x98)
      ∧ filledExample.WellTyped
      ∧ (∃ s g' rights',
          findChunk (filledExample.streamWrite (Env.bare 0x36003) ++ [9, 9])
              (Env.bare 0x36003).ID_GEOMETRY
            = some ((filledExample.streamGetSize (Env.bare 0x36003), 0x36003), s)
          ∧ Geometry.streamRead (Env.bare 0x36003) (fun _ => ⟨[], none, none⟩) id (0, 0) s
            = some (g', rights', [9, 9])
          ∧ g'.colors = some [1, 2, 3, 4, 5, 6, 7, 8]
          ∧ g'.texCoords = [some [11, 12, 13, 14], some [21, 22, 23, 24]]
          ∧ g'.triangles = some [1, 0, 5, 2]
          ∧ g'.morphTargets
            = [{ boundingSphere := [1, 2, 3, 4], vertices := some [1, 2, 3, 4, 5, 6],
                 normals := some [7, 8, 9, 10, 11, 12] }]) := by
  have henv : (Env.bare 0x36003).WellTyped := by
    unfold Env.WellTyped
    decide
  have hfill : filledExample.FilledFrom (Geometry.create (Env.bare 0x36003) 2 1 0x98) :=
    ⟨rfl, rfl, rfl, rfl, rfl, rfl, rfl, rfl, rfl, rfl, rfl, rfl⟩
  have htyped : filledExample.WellTyped := by
    simp [Geometry.WellTyped, filledExample]
  obtain ⟨_, s, g', rights', h1, h2, _, _, _, _, _, h3, h4, h5, h6⟩ :=
    Geometry.streamRead_streamWrite (Env.bare 0x36003) (fun _ => ⟨[], none, none⟩) id (0, 0)
      2 1 0x98 filledExample [9, 9] henv (by decide) (by decide) hfill htyped (by decide)
      ⟨[], by decide⟩
  exact ⟨henv, hfill, htyped, s, g', rights', h1, h2, h3, h4, h5, h6⟩

/-- C2 fails on the code at the geometry `Geometry::create(0, 1, 0)`: it has one
triangle and, having no vertex, no triangle array, so `Geometry::streamWrite`
passes the `NULL` array with the byte count 8 to the stream and fails; and
`Geometry::streamRead` fails on every stream whose STRUCT record announces no
vertex and one triangle (flags 0, one morph target), whatever bytes follow the
record, because it creates the same geometry and reads 8 bytes into the `NULL`
triangle array. -/
theorem Geometry.streamWrite_null_triangles (junk : Nat → MorphTarget) (alloc : Nat → Nat)
    (rights : Nat × Nat) (rest : List Nat) :
    (Geometry.create (Env.bare 0x36003) 0 1 0).numTriangles = 1
      ∧ (Geometry.create (Env.bare 0x36003) 0 1 0).triangles = none
      ∧ (Geometry.create (Env.bare 0x36003) 0 1 0).streamWriteChecked (Env.bare 0x36003) = none
      ∧ Geometry.streamRead (Env.bare 0x36003) junk alloc rights
          (writeChunkHeader (Env.bare 0x36003) 1 48
            ++ ((le 4 0 ++ le 4 1 ++ le 4 0 ++ le 4 1) ++ rest)) = none := by
  refine ⟨rfl, rfl, by decide, ?_⟩
  have hrec := record_fields 0 1 0 1 (by decide) (by decide) (by decide) (by decide)
  obtain ⟨hl, r1, r2, r3, r4⟩ := hrec
  unfold Geometry.streamRead
  rw [show (Env.bare 0x36003).ID_STRUCT = 1 from rfl,
    findChunk_header (Env.bare 0x36003) 1 48 _ (by decide) (by decide) (by decide)]
  simp only []
  rw [Stream.read_append _ _ 16 hl]
  simp only [r1, r2, r3, r4, Nat.sub_self, Geometry.addMorphTargets_zero]
  have hc : Geometry.create (Env.bare 0x36003) 0 1 0
      = { geoflags := 0, numTriangles := 1, numVertices := 0, colors := none, texCoords := [],
          triangles := none,
          morphTargets := [{ boundingSphere := [0, 0, 0, 0], vertices := none, normals := none }],
          materialList := [], meshHeader := none, instData := none, refCount := 1,
          plugins := [] } := by
    decide
  rw [hc]
  have hv : ¬ ((Env.bare 0x36003).version < 0x34000) := by decide
  simp only [hv, if_false]
  have hra : ∀ s : Stream,
      Geometry.readArrays (Env.bare 0x36003)
          { geoflags := 0, numTriangles := 1, numVertices := 0, colors := none, texCoords := [],
            triangles := none,
            morphTargets := [{ boundingSphere := [0, 0, 0, 0], vertices := none,
                               normals := none }],
            materialList := [], meshHeader := none, instData := none, refCount := 1,
            plugins := [] } s = none := by
    intro s
    have hnat : hasFlag 0 (Env.bare 0x36003).NATIVE = false := by decide
    have hpre : hasFlag 0 (Env.bare 0x36003).PRELIT = false := by decide
    simp only [Geometry.readArrays, hnat, hpre, Bool.not_false, if_true, Bool.false_eq_true,
      if_false, readTexCoords, Stream.readArray, Option.isNone_none, Bool.true_and]
    rfl
  rw [hra]

/-! ## Theorems: HAnimHierarchy::attach -/

/-- The search `findById` returns the first frame, in search order, whose id is
not negative and equals the id looked for. -/
theorem findById_addrOf (f : Frame) (id : Int) :
    (findById f id).addrOf = f.firstWithValidId id := by
  induction f with
  | nil => rfl
  | node addr hanim next child ihn ihc =>
    unfold Frame.firstWithValidId at ihn ihc ⊢
    by_cases hc : hanim.id ≥ 0 ∧ hanim.id = id
    · have hc1 : decide (0 ≤ hanim.id ∧ hanim.id = id) = true := by simpa using hc
      simp only [findById, Frame.searchOrder, List.find?_cons]
      rw [if_pos hc, hc1]
      rfl
    · have hc1 : decide (0 ≤ hanim.id ∧ hanim.id = id) = false := by simpa using hc
      simp only [findById, Frame.searchOrder, List.find?_cons]
      rw [if_neg hc, hc1]
      simp only [List.find?_append]
      cases hn : findById next id with
      | nil =>
        rw [hn] at ihn
        have h0 : next.searchOrder.find? (fun p => decide (0 ≤ p.2 ∧ p.2 = id)) = none := by
          cases hf : next.searchOrder.find? (fun p => decide (0 ≤ p.2 ∧ p.2 = id)) with
          | none => rfl
          | some x => rw [hf] at ihn; simp [Frame.addrOf] at ihn
        simp only [h0, Option.or]
        exact ihc
      | node a h n c =>
        rw [hn] at ihn
        cases hf : next.searchOrder.find? (fun p => decide (0 ≤ p.2 ∧ p.2 = id)) with
        | none => rw [hf] at ihn; simp [Frame.addrOf] at ihn
        | some x =>
          rw [hf] at ihn
          simp only [Option.or]
          exact ihn

/-- A loop that rewrites the entries of an array one index after the other
rewrites every entry. -/
theorem foldl_range_set {α : Type} (f : α → α) (l : List α) :
    ∀ k, k ≤ l.length →
      (List.range k).foldl
          (fun acc i => (acc[i]?.map (fun x => acc.set i (f x))).getD acc) l
        = (l.take k).map f ++ l.drop k := by
  intro k
  induction k with
  | zero => intro _; simp
  | succ k ih =>
    intro hk
    have hlt : k < l.length := by omega
    rw [List.range_succ, List.foldl_append, ih (by omega)]
    have hlen : ((l.take k).map f).length = k := by
      simp [List.length_take]; omega
    have hget : ((l.take k).map f ++ l.drop k)[k]? = some l[k] := by
      rw [List.getElem?_append_right (by omega), hlen, Nat.sub_self, List.getElem?_drop]
      simp [hlt]
    simp only [List.foldl_cons, List.foldl_nil, hget, Option.map_some', Option.getD_some]
    have hdrop : l.drop k = l[k] :: l.drop (k + 1) := List.drop_eq_getElem_cons hlt
    rw [List.set_append_right _ _ (by omega), hlen, Nat.sub_self, hdrop, List.set_cons_zero]
    rw [List.take_succ, List.getElem?_eq_getElem hlt, Option.toList, List.map_append,
      List.append_assoc]
    rfl

theorem foldl_attachByIndex (parentFrame : Frame) (is : List Nat) (hier : HAnimHierarchy) :
    is.foldl (fun h i => h.attachByIndex parentFrame i) hier
      = { hier with
          nodeInfo := is.foldl
            (fun acc i => (acc[i]?.map (fun x => acc.set i
              ((fun node : HAnimNodeInfo =>
                { node with frame := (findById parentFrame node.id).addrOf }) x))).getD acc)
            hier.nodeInfo } := by
  induction is generalizing hier with
  | nil => rfl
  | cons i is ih =>
    rw [List.foldl_cons, ih, List.foldl_cons]
    unfold HAnimHierarchy.attachByIndex
    cases hier.nodeInfo[i]? <;> rfl

/-- What `HAnimHierarchy::attach` does to a hierarchy: every node is bound to the
first frame, in search order, whose id is not negative and equals the node's
id; nothing else changes. -/
theorem HAnimHierarchy.attach_eq (hier : HAnimHierarchy) (parentFrame : Frame) :
    hier.attach parentFrame
      = { hier with
          nodeInfo := hier.nodeInfo.map (fun node =>
            { node with frame := parentFrame.firstWithValidId node.id }) } := by
  unfold HAnimHierarchy.attach HAnimHierarchy.numNodes
  rw [foldl_attachByIndex, foldl_range_set _ _ _ (Nat.le_refl _)]
  simp [findById_addrOf]

/-- The first frame with a valid, equal id is the first frame with an equal id
when the id looked for is not negative, and there is none when it is. -/
theorem Frame.firstWithValidId_eq (f : Frame) (id : Int) :
    f.firstWithValidId id = if 0 ≤ id then f.firstWithId id else none := by
  unfold Frame.firstWithValidId Frame.firstWithId
  by_cases h : 0 ≤ id
  · rw [if_pos h]
    have hp : (fun p : Nat × Int => decide (0 ≤ p.2 ∧ p.2 = id))
        = (fun p : Nat × Int => decide (p.2 = id)) := by
      funext p
      by_cases hp : p.2 = id
      · simp [hp, h]
      · simp [hp]
    rw [hp]
  · rw [if_neg h]
    have hn : f.searchOrder.find? (fun p => decide (0 ≤ p.2 ∧ p.2 = id)) = none := by
      rw [List.find?_eq_none]
      intro p _
      simp only [decide_eq_true_eq, not_and]
      intro h0 he
      exact h (he ▸ h0)
    rw [hn]
    rfl

/-- C11 as stated fails: a node with the id -1, over a tree whose root frame
carries the id -1, is left unbound although a frame carries that id. -/
theorem HAnimHierarchy.attach_counterexample :
    ((HAnimHierarchy.create 1 [0] [-1] 0 36).attach
        (Frame.node 1 { id := -1, hierarchy := none } Frame.nil Frame.nil)).nodeInfo.map
          (fun node => node.frame) = [none]
      ∧ (Frame.node 1 { id := -1, hierarchy := none } Frame.nil Frame.nil).firstWithId (-1)
          = some 1 := by
  decide

/-- C11, amended: for every hierarchy and every frame tree rooted at its
`parentFrame`, `HAnimHierarchy::attach` binds each node whose id is not negative
to the first frame, in the order that visits a frame, then what its next
sibling reaches, then what its child reaches, whose HAnim id equals the node's
id, and leaves it unbound when no frame carries that id; a node whose id is
negative is left unbound; nothing else in the hierarchy changes, and the call
always returns. -/
theorem HAnimHierarchy.attach_binds (hier : HAnimHierarchy) (parentFrame : Frame) :
    (hier.attach parentFrame).nodeInfo
        = hier.nodeInfo.map (fun node =>
            { node with
              frame := if 0 ≤ node.id then parentFrame.firstWithId node.id else none })
      ∧ (hier.attach parentFrame).flags = hier.flags
      ∧ (hier.attach parentFrame).maxInterpKeyFrameSize = hier.maxInterpKeyFrameSize
      ∧ (hier.attach parentFrame).parentFrame = hier.parentFrame
      ∧ (hier.attach parentFrame).matricesUnaligned = hier.matricesUnaligned := by
  rw [HAnimHierarchy.attach_eq]
  refine ⟨?_, rfl, rfl, rfl, rfl⟩
  simp only [Frame.firstWithValidId_eq]

/-- C11, amended, at the hierarchy with the node ids 10, 20, 30 over
`frameTreeExample`: node 0 is bound to frame 2, node 1 stays unbound, node 2 is
bound to frame 5, found through the next sibling before the child 4. -/
theorem HAnimHierarchy.attach_binds_witness :
    (skeletonExample.attach frameTreeExample).nodeInfo.map (fun node => (node.id, node.frame))
      = [(10, some 2), (20, none), (30, some 5)] := by
  rw [(HAnimHierarchy.attach_binds skeletonExample frameTreeExample).1]
  decide

/-! ## Theorems: the keyframe codec -/

theorem unle_lt (bs : List Nat) (hb : ∀ b ∈ bs, b < 256) : unle bs < 256 ^ bs.length := by
  induction bs with
  | nil => simp [unle]
  | cons b bs ih =>
    have h1 := hb b (List.mem_cons_self b bs)
    have h2 := ih (fun x hx => hb x (List.mem_cons_of_mem b hx))
    simp only [unle, List.length_cons, Nat.pow_succ]
    omega

theorem le_unle (bs : List Nat) (hb : ∀ b ∈ bs, b < 256) : le bs.length (unle bs) = bs := by
  induction bs with
  | nil => rfl
  | cons b bs ih =>
    have h1 := hb b (List.mem_cons_self b bs)
    have h2 := ih (fun x hx => hb x (List.mem_cons_of_mem b hx))
    have e1 : (b + 256 * unle bs) % 256 = b := by omega
    have e2 : (b + 256 * unle bs) / 256 = unle bs := by omega
    simp only [unle, List.length_cons, le, e1, e2, h2]

theorem toU32_toI32 (n : Nat) : toU32 (toI32 n) = n % 2 ^ 32 := by
  unfold toU32 toI32
  split <;> omega

theorem toI32_toU32 (x : Int) (h1 : -(2 ^ 31) ≤ x) (h2 : x < 2 ^ 31) : toI32 (toU32 x) = x := by
  unfold toU32 toI32
  split <;> omega

theorem toI32_of_lt (n : Nat) (h : n < 2 ^ 31) : toI32 n = (n : Int) := by
  unfold toI32
  have h1 : n % 2 ^ 32 = n := Nat.mod_eq_of_lt (by omega)
  rw [h1, if_pos h]

/-- An int32 read from four bytes and written again gives the same bytes. -/
theorem writeInt32_toI32_unle (d : List Nat) (hl : d.length = 4) (hb : ∀ b ∈ d, b < 256) :
    Stream.writeInt32 (toI32 (unle d)) = d := by
  have hlt := unle_lt d hb
  rw [hl] at hlt
  unfold Stream.writeInt32 Stream.writeI32
  rw [toU32_toI32, Nat.mod_eq_of_lt (by simpa using hlt)]
  have h := le_unle d hb
  rw [hl] at h
  exact h

theorem image_elems (w : Nat) :
    ∀ (k : Nat) (bs : List Nat), bs.length = w * k → (∀ b ∈ bs, b < 256) →
      image w (elems w k bs) = bs := by
  intro k
  induction k with
  | zero =>
    intro bs hl _
    have : bs = [] := List.length_eq_zero.1 (by simpa using hl)
    subst this
    rfl
  | succ k ih =>
    intro bs hl hb
    have hlt : (bs.take w).length = w := by
      rw [List.length_take]
      have : w ≤ w * (k + 1) := Nat.le_mul_of_pos_right w (by omega)
      omega
    have h1 := le_unle (bs.take w) (fun b h => hb b (List.mem_of_mem_take h))
    rw [hlt] at h1
    have h2 := ih (bs.drop w) (by rw [List.length_drop, hl, Nat.mul_succ]; omega)
      (fun b h => hb b (List.mem_of_mem_drop h))
    simp only [elems, image, List.flatMap_cons, h1]
    have h3 : (elems w k (bs.drop w)).flatMap (le w) = bs.drop w := h2
    rw [h3, List.take_append_drop]

theorem Stream.write_of_length (mem : List Nat) (n : Nat) (h : mem.length = n) :
    Stream.write mem n = mem := by
  subst h
  simp [Stream.write]

theorem exists_split (l : List Nat) (n : Nat) (h : n ≤ l.length) :
    ∃ a r, l = a ++ r ∧ a.length = n ∧ r.length = l.length - n :=
  ⟨l.take n, l.drop n, (List.take_append_drop n l).symm, by simp [List.length_take]; omega,
    by simp⟩

/-- Reading `frames.length` keyframe records and writing the result gives the
bytes read, and keyframe `i` points at `base + prev * keySize` for the
previous-index `prev` stored in record `i`. -/
theorem hAnimFrameReadLoop_write (base keySize : Int) (hsize : keySize ≠ 0) :
    ∀ (frames : List HAnimKeyFrame) (bytes tail : List Nat),
      (∀ b ∈ bytes, b < 256) → bytes.length = 36 * frames.length →
      ∃ frames', hAnimFrameReadLoop base keySize frames (bytes ++ tail) = some (frames', tail)
        ∧ hAnimFrameWrite keySize { keyframes := base, frames := frames' } = bytes
        ∧ frames'.length = frames.length
        ∧ ∀ i, i < frames.length →
            (frames'.map (fun f => f.prev))[i]?
              = some (base + toI32 (keyframePrevIndex bytes i) * keySize) := by
  intro frames
  induction frames with
  | nil =>
    intro bytes tail _ hl
    have : bytes = [] := List.length_eq_zero.1 (by simpa using hl)
    subst this
    exact ⟨[], rfl, rfl, rfl, fun i hi => absurd hi (by simp)⟩
  | cons f frames ih =>
    intro bytes tail hb hl
    simp only [List.length_cons] at hl
    obtain ⟨a, r1, e1, la, lr1⟩ := exists_split bytes 4 (by omega)
    obtain ⟨b, r2, e2, lb, lr2⟩ := exists_split r1 16 (by omega)
    obtain ⟨c, r3, e3, lc, lr3⟩ := exists_split r2 12 (by omega)
    obtain ⟨d, rest, e4, ld, lr4⟩ := exists_split r3 4 (by omega)
    subst e4 e3 e2 e1
    have hba : ∀ x ∈ a, x < 256 := fun x hx => hb x (by simp [hx])
    have hbb : ∀ x ∈ b, x < 256 := fun x hx => hb x (by simp [hx])
    have hbc : ∀ x ∈ c, x < 256 := fun x hx => hb x (by simp [hx])
    have hbd : ∀ x ∈ d, x < 256 := fun x hx => hb x (by simp [hx])
    have hbr : ∀ x ∈ rest, x < 256 := fun x hx => hb x (by simp [hx])
    obtain ⟨frames', hr, hw, hlen, hprev⟩ := ih rest tail hbr (by omega)
    have hwa : Stream.writeF32 (unle a) = a := by
      have h := le_unle a hba
      rw [la] at h
      exact h
    have hwb : Stream.write (image 4 (elems 4 4 b)) (4 * 4) = b := by
      rw [image_elems 4 4 b (by omega) hbb]
      exact Stream.write_of_length b _ (by omega)
    have hwc : Stream.write (image 4 (elems 4 3 c)) (3 * 4) = c := by
      rw [image_elems 4 3 c (by omega) hbc]
      exact Stream.write_of_length c _ (by omega)
    have hwd : Stream.writeInt32 ((base + toI32 (unle d) * keySize - base) / keySize) = d := by
      have e : base + toI32 (unle d) * keySize - base = toI32 (unle d) * keySize := by omega
      rw [e, Int.mul_ediv_cancel _ hsize]
      exact writeInt32_toI32_unle d ld hbd
    have hk0 : keyframePrevIndex (a ++ (b ++ (c ++ (d ++ rest)))) 0 = unle d := by
      unfold keyframePrevIndex
      have h32 : (a ++ (b ++ (c ++ (d ++ rest)))).drop (36 * 0 + 32) = d ++ rest := by
        rw [← List.append_assoc b, ← List.append_assoc a]
        exact List.drop_left' (by simp; omega)
      rw [h32, List.take_left' ld]
    have hks : ∀ i, keyframePrevIndex (a ++ (b ++ (c ++ (d ++ rest)))) (i + 1)
        = keyframePrevIndex rest i := by
      intro i
      unfold keyframePrevIndex
      have h36 : (a ++ (b ++ (c ++ (d ++ rest)))).drop (36 * (i + 1) + 32)
          = rest.drop (36 * i + 32) := by
        rw [← List.append_assoc c, ← List.append_assoc b, ← List.append_assoc a]
        have hp : 36 * (i + 1) + 32 = (a ++ (b ++ (c ++ d))).length + (36 * i + 32) := by
          simp; omega
        rw [hp, List.drop_append]
      rw [h36]
    refine ⟨{ prev := base + toI32 (unle d) * keySize, time := unle a, q := elems 4 4 b,
              t := elems 4 3 c } :: frames', ?_, ?_, by simp [hlen], ?_⟩
    · simp only [hAnimFrameReadLoop, Stream.readF32, Stream.readInt32, Stream.readI32,
        List.append_assoc]
      rw [Stream.read_append a _ 4 la]
      simp only []
      rw [Stream.read_append b _ (4 * 4) (by omega)]
      simp only []
      rw [Stream.read_append c _ (3 * 4) (by omega)]
      simp only []
      rw [Stream.read_append d _ 4 ld]
      simp only [hr]
    · unfold hAnimFrameWrite at hw ⊢
      simp only [List.flatMap_cons] at hw ⊢
      rw [hw, hwa, hwb, hwc, hwd]
      simp [List.append_assoc]
    · intro i hi
      cases i with
      | zero => simp [hk0]
      | succ i =>
        rw [hks i]
        simpa using hprev i (by simpa using hi)

/-- C12: for an animation of `n` keyframes and a stream of `n` keyframe records
(36 bytes each) whose previous-indices all lie in `[0, n)`, `hAnimFrameRead`
succeeds and consumes exactly the records, keyframe `i` then refers to
`array[index]`, the element of the same array at the previous-index stored in
record `i`, and `hAnimFrameWrite` of the result emits the identical bytes, so
in particular the identical previous-indices. -/
theorem hAnimFrame_round_trip (keySize : Int) (hsize : 0 < keySize) (anim : Animation)
    (bytes tail : List Nat) (hb : ∀ b ∈ bytes, b < 256)
    (hl : bytes.length = 36 * anim.frames.length)
    (hn : anim.frames.length < 2 ^ 31)
    (hidx : ∀ i, i < anim.frames.length → keyframePrevIndex bytes i < anim.frames.length) :
    ∃ anim', hAnimFrameRead keySize (bytes ++ tail) anim = some (anim', tail)
      ∧ anim'.keyframes = anim.keyframes
      ∧ anim'.frames.length = anim.frames.length
      ∧ hAnimFrameWrite keySize anim' = bytes
      ∧ (∀ i, i < anim.frames.length →
          keyframePrevIndex (hAnimFrameWrite keySize anim') i = keyframePrevIndex bytes i)
      ∧ ∀ i, i < anim.frames.length →
          (anim'.frames.map (fun f => f.prev))[i]?
            = some (anim.keyframes + (keyframePrevIndex bytes i : Nat) * keySize) := by
  obtain ⟨frames', hr, hw, hlen, hprev⟩ :=
    hAnimFrameReadLoop_write anim.keyframes keySize (by omega) anim.frames bytes tail hb hl
  refine ⟨{ anim with frames := frames' }, ?_, rfl, hlen, hw, ?_, ?_⟩
  · simp only [hAnimFrameRead, hr]
  · intro i _
    rw [hw]
  · intro i hi
    have h := hprev i hi
    rw [toI32_of_lt _ (by have := hidx i hi; omega)] at h
    exact h

/-- C12 at five keyframes with the on-disk previous-indices 0, 0, 1, 2, 3, the
array at address 1000 and 40-byte keyframes: the decoded back-references are the
addresses of elements 0, 0, 1, 2, 3 and the bytes written back are the bytes
read. -/
theorem hAnimFrame_round_trip_witness :
    ∃ anim', hAnimFrameRead 40 (keyframeBytesExample ++ [9]) animationExample = some (anim', [9])
      ∧ hAnimFrameWrite 40 anim' = keyframeBytesExample
      ∧ (List.range 5).map (keyframePrevIndex (hAnimFrameWrite 40 anim')) = [0, 0, 1, 2, 3]
      ∧ anim'.frames.map (fun f => f.prev) = [1000, 1000, 1040, 1080, 1120] := by
  obtain ⟨anim', h1, _, h3, h4, _, h6⟩ :=
    hAnimFrame_round_trip 40 (by decide) animationExample keyframeBytesExample [9]
      (by decide!) (by decide!) (by decide!) (by decide!)
  refine ⟨anim', h1, h4, ?_, ?_⟩
  · rw [h4]
    decide!
  · have hlen : (anim'.frames.map (fun f => f.prev)).length = 5 := by
      rw [List.length_map, h3]
      rfl
    apply List.ext_getElem?
    intro i
    by_cases hi : i < 5
    · have h := h6 i hi
      rw [h]
      have e : ∀ j, j < 5 →
          some (animationExample.keyframes + (keyframePrevIndex keyframeBytesExample j : Nat) * 40)
            = ([1000, 1000, 1040, 1080, 1120] : List Int)[j]? := by decide!
      exact e i hi
    · rw [List.getElem?_eq_none (by omega), List.getElem?_eq_none (by simp; omega)]

/-! ## Theorems: the frame extension stream -/

theorem Stream.writeInt32_length (x : Int) : (Stream.writeInt32 x).length = 4 :=
  le_length 4 _

theorem toU32_lt (x : Int) : toU32 x < 2 ^ 32 := by
  unfold toU32
  omega

theorem Stream.readInt32_writeInt32 (x : Int) (tail : List Nat)
    (h1 : -(2 ^ 31) ≤ x) (h2 : x < 2 ^ 31) :
    Stream.readInt32 (Stream.writeInt32 x ++ tail) = some (x, tail) := by
  unfold Stream.readInt32 Stream.writeInt32
  rw [Stream.readI32_append _ _ (toU32_lt x)]
  simp only [toI32_toU32 x h1 h2]

theorem Stream.readInt32_none (s : Stream) (h : s.length < 4) : Stream.readInt32 s = none := by
  unfold Stream.readInt32 Stream.readI32 Stream.read
  rw [if_neg (by omega)]

theorem Stream.readInt32_drop (s : Stream) (k : Nat) (h : 4 * k + 4 ≤ s.length) :
    Stream.readInt32 (s.drop (4 * k)) = some (int32At s k, s.drop (4 * (k + 1))) := by
  unfold Stream.readInt32 Stream.readI32 Stream.read
  rw [if_pos (by rw [List.length_drop]; omega)]
  simp only [int32At, List.drop_drop]
  have e : 4 * k + 4 = 4 * (k + 1) := by omega
  rw [e]

/-- The node loop of `readHAnim` on a stream with `n` triples left: the ids are
the first and the flags the third field of each triple. -/
theorem readHAnimNodes_drop (s : Stream) :
    ∀ (n k : Nat), 4 * k + 12 * n ≤ s.length →
      readHAnimNodes n (s.drop (4 * k))
        = some (((List.range n).map (fun i => int32At s (k + 3 * i)),
                 (List.range n).map (fun i => int32At s (k + 3 * i + 2))),
                s.drop (4 * (k + 3 * n))) := by
  intro n
  induction n with
  | zero =>
    intro k _
    simp [readHAnimNodes]
  | succ n ih =>
    intro k h
    unfold readHAnimNodes
    rw [Stream.readInt32_drop s k (by omega)]
    simp only []
    rw [Stream.readInt32_drop s (k + 1) (by omega)]
    simp only []
    rw [Stream.readInt32_drop s (k + 1 + 1) (by omega)]
    simp only []
    rw [ih (k + 1 + 1 + 1) (by omega)]
    simp only [List.range_succ_eq_map, List.map_cons, List.map_map, Nat.mul_zero, Nat.add_zero]
    have e1 : ((fun i => int32At s (k + 3 * i)) ∘ Nat.succ)
        = (fun i => int32At s (k + 1 + 1 + 1 + 3 * i)) := by
      funext i
      show int32At s (k + 3 * (i + 1)) = _
      congr 1
      omega
    have e2 : ((fun i => int32At s (k + 3 * i + 2)) ∘ Nat.succ)
        = (fun i => int32At s (k + 1 + 1 + 1 + 3 * i + 2)) := by
      funext i
      show int32At s (k + 3 * (i + 1) + 2) = _
      congr 1
      omega
    have e3 : 4 * (k + 1 + 1 + 1 + 3 * n) = 4 * (k + 3 * (n + 1)) := by omega
    rw [e1, e2, e3]

/-- The node array `HAnimHierarchy::create` builds from arrays of `n` ids and
`n` flags. -/
theorem HAnimHierarchy.create_nodeInfo (n : Nat) (ids fls : Nat → Int) (flags maxKeySize : Int) :
    (HAnimHierarchy.create n ((List.range n).map fls) ((List.range n).map ids)
        flags maxKeySize).nodeInfo
      = (List.range n).map (fun i =>
          { id := ids i, index := i, flags := fls i, frame := none }) := by
  unfold HAnimHierarchy.create
  apply List.map_congr_left
  intro i hi
  have hi2 : i < n := List.mem_range.1 hi
  simp [List.getD, hi2]

/-- The bytes `writeHAnim` emits for a record with a hierarchy. -/
theorem writeHAnim_length (hanim : HAnimData) :
    (writeHAnim hanim).length
      = match hanim.hierarchy with
        | none => 12
        | some hier => 12 + 8 + 12 * hier.numNodes := by
  unfold writeHAnim
  cases hh : hanim.hierarchy with
  | none => simp [Stream.writeInt32_length]
  | some hier =>
    have h : (hier.nodeInfo.flatMap (fun node =>
        Stream.writeInt32 node.id ++ Stream.writeInt32 node.index
          ++ Stream.writeInt32 node.flags)).length = hier.nodeInfo.length * 12 :=
      length_flatMap_const _ 12 (fun _ => by simp [Stream.writeInt32_length]) _
    simp only [List.length_append, Stream.writeInt32_length, h, HAnimHierarchy.numNodes]
    omega

/-- The node loop of `readHAnim` on the triples `writeHAnim` emits for the
nodes `nodes`. -/
theorem readHAnimNodes_write (tail : List Nat) :
    ∀ nodes : List HAnimNodeInfo,
      (∀ nd ∈ nodes, (-(2 ^ 31) ≤ nd.id ∧ nd.id < 2 ^ 31)
        ∧ (-(2 ^ 31) ≤ nd.index ∧ nd.index < 2 ^ 31)
        ∧ (-(2 ^ 31) ≤ nd.flags ∧ nd.flags < 2 ^ 31)) →
      readHAnimNodes nodes.length
          (nodes.flatMap (fun node =>
              Stream.writeInt32 node.id ++ Stream.writeInt32 node.index
                ++ Stream.writeInt32 node.flags) ++ tail)
        = some ((nodes.map (fun nd => nd.id), nodes.map (fun nd => nd.flags)), tail) := by
  intro nodes
  induction nodes with
  | nil =>
    intro _
    rfl
  | cons nd nodes ih =>
    intro h
    obtain ⟨⟨a1, a2⟩, ⟨b1, b2⟩, ⟨c1, c2⟩⟩ := h nd (List.mem_cons_self nd nodes)
    have ih1 := ih (fun x hx => h x (List.mem_cons_of_mem nd hx))
    simp only [List.append_assoc] at ih1
    simp only [List.length_cons, List.flatMap_cons, List.append_assoc, readHAnimNodes]
    rw [Stream.readInt32_writeInt32 nd.id _ a1 a2]
    simp only []
    rw [Stream.readInt32_writeInt32 nd.index _ b1 b2]
    simp only []
    rw [Stream.readInt32_writeInt32 nd.flags _ c1 c2]
    simp only []
    rw [ih1]
    simp

/-- Reading back what `writeHAnim` has written, for a record without hierarchy
or with a hierarchy of at least one node (all fields `int32`): the bytes are
consumed exactly, the id is reproduced and, with a hierarchy, so are the node
count, the flags, the maximal keyframe size and the id and flags of every
node. -/
theorem readHAnim_writeHAnim (object : Nat) (dst hanim : HAnimData) (tail : List Nat)
    (hid1 : -(2 ^ 31) ≤ hanim.id) (hid2 : hanim.id < 2 ^ 31)
    (hhier : ∀ hier, hanim.hierarchy = some hier →
      0 < hier.numNodes ∧ hier.numNodes < 2 ^ 31
        ∧ (-(2 ^ 31) ≤ hier.flags ∧ hier.flags < 2 ^ 31)
        ∧ (-(2 ^ 31) ≤ hier.maxInterpKeyFrameSize ∧ hier.maxInterpKeyFrameSize < 2 ^ 31)
        ∧ ∀ nd ∈ hier.nodeInfo, (-(2 ^ 31) ≤ nd.id ∧ nd.id < 2 ^ 31)
            ∧ (-(2 ^ 31) ≤ nd.index ∧ nd.index < 2 ^ 31)
            ∧ (-(2 ^ 31) ≤ nd.flags ∧ nd.flags < 2 ^ 31)) :
    ∃ r, readHAnim object dst (writeHAnim hanim ++ tail) = Except.ok (r, tail)
      ∧ r.id = hanim.id
      ∧ (hanim.hierarchy = none → r.hierarchy = dst.hierarchy)
      ∧ (∀ hier, hanim.hierarchy = some hier →
          ∃ hier', r.hierarchy = some hier'
            ∧ hier'.numNodes = hier.numNodes
            ∧ hier'.flags = hier.flags
            ∧ hier'.maxInterpKeyFrameSize = hier.maxInterpKeyFrameSize
            ∧ hier'.nodeInfo.map (fun nd => nd.id) = hier.nodeInfo.map (fun nd => nd.id)
            ∧ hier'.nodeInfo.map (fun nd => nd.flags)
                = hier.nodeInfo.map (fun nd => nd.flags)) := by
  cases hh : hanim.hierarchy with
  | none =>
    refine ⟨{ id := hanim.id, hierarchy := dst.hierarchy }, ?_, rfl, fun _ => rfl,
      fun hier h => by simp at h⟩
    simp only [writeHAnim, hh, List.append_assoc, readHAnim]
    rw [Stream.readInt32_writeInt32 256 _ (by decide) (by decide)]
    simp only []
    rw [if_neg (by decide)]
    rw [Stream.readInt32_writeInt32 hanim.id _ hid1 hid2]
    simp only []
    rw [Stream.readInt32_writeInt32 _ _ (by decide) (by decide)]
    simp
  | some hier =>
    obtain ⟨hpos, hlt, ⟨f1, f2⟩, ⟨k1, k2⟩, hnodes⟩ := hhier hier hh
    have hne : ((hier.numNodes : Nat) : Int) ≠ 0 := by omega
    have hmapid : ∀ l : List HAnimNodeInfo,
        (List.range l.length).map (fun i => (l.map (fun nd => nd.id)).getD i 0)
          = l.map (fun nd => nd.id) := by
      intro l
      apply List.ext_getElem?
      intro i
      by_cases hi : i < l.length
      · simp [List.getD, hi]
      · rw [List.getElem?_eq_none (by simp; omega), List.getElem?_eq_none (by simp; omega)]
    have hmapfl : ∀ l : List HAnimNodeInfo,
        (List.range l.length).map (fun i => (l.map (fun nd => nd.flags)).getD i 0)
          = l.map (fun nd => nd.flags) := by
      intro l
      apply List.ext_getElem?
      intro i
      by_cases hi : i < l.length
      · simp [List.getD, hi]
      · rw [List.getElem?_eq_none (by simp; omega), List.getElem?_eq_none (by simp; omega)]
    refine ⟨{ id := hanim.id,
              hierarchy := some { HAnimHierarchy.create hier.numNodes
                (hier.nodeInfo.map (fun nd => nd.flags)) (hier.nodeInfo.map (fun nd => nd.id))
                hier.flags hier.maxInterpKeyFrameSize with parentFrame := some object } },
      ?_, rfl, fun h => by simp at h, ?_⟩
    · simp only [writeHAnim, hh, List.append_assoc, readHAnim]
      rw [Stream.readInt32_writeInt32 256 _ (by decide) (by decide)]
      simp only []
      rw [if_neg (by decide)]
      rw [Stream.readInt32_writeInt32 hanim.id _ hid1 hid2]
      simp only []
      rw [Stream.readInt32_writeInt32 _ _ (by omega) (by omega)]
      simp only []
      rw [if_pos hne]
      rw [Stream.readInt32_writeInt32 _ _ f1 f2]
      simp only []
      rw [Stream.readInt32_writeInt32 _ _ k1 k2]
      simp only [Int.toNat_ofNat, HAnimHierarchy.numNodes]
      have hw := readHAnimNodes_write tail hier.nodeInfo hnodes
      simp only [List.append_assoc] at hw
      rw [hw]
    · intro hier2 h2
      have e : hier2 = hier := (Option.some.inj h2).symm
      subst e
      refine ⟨_, rfl, ?_, rfl, rfl, ?_, ?_⟩
      · simp [HAnimHierarchy.numNodes, HAnimHierarchy.create]
      · simp only [HAnimHierarchy.create, HAnimHierarchy.numNodes, List.map_map]
        exact hmapid hier2.nodeInfo
      · simp only [HAnimHierarchy.create, HAnimHierarchy.numNodes, List.map_map]
        exact hmapfl hier2.nodeInfo

/-- C13: for a record whose hierarchy has zero nodes the round trip fails:
`writeHAnim` emits 20 bytes (and `getSizeHAnim` announces 20), but `readHAnim`
on those bytes consumes only the first 12, leaves the 8 bytes of the flags and
the maximal keyframe size unread in the stream, and attaches no hierarchy to
the record it fills. -/
theorem readHAnim_writeHAnim_zero_nodes (object version : Nat) (dst hanim : HAnimData)
    (hier : HAnimHierarchy) (tail : List Nat)
    (hh : hanim.hierarchy = some hier) (hz : hier.numNodes = 0)
    (hid1 : -(2 ^ 31) ≤ hanim.id) (hid2 : hanim.id < 2 ^ 31) :
    (writeHAnim hanim).length = 20
      ∧ getSizeHAnim true version hanim = 20
      ∧ readHAnim object dst (writeHAnim hanim ++ tail)
          = Except.ok ({ id := hanim.id, hierarchy := dst.hierarchy },
              Stream.writeInt32 hier.flags ++ Stream.writeInt32 hier.maxInterpKeyFrameSize
                ++ tail) := by
  have hnil : hier.nodeInfo = [] := List.length_eq_zero.1 hz
  refine ⟨?_, ?_, ?_⟩
  · rw [writeHAnim_length, hh]
    simp only [hz]
  · simp only [getSizeHAnim, hh, hz, Option.isNone_some, Bool.and_false, Bool.not_true,
      Bool.or_false, Bool.false_eq_true, if_false]
    decide
  · simp only [writeHAnim, hh, HAnimHierarchy.numNodes, hnil, List.length_nil, List.flatMap_nil,
      List.append_nil, List.append_assoc, readHAnim]
    rw [Stream.readInt32_writeInt32 256 _ (by decide) (by decide)]
    simp only []
    rw [if_neg (by decide)]
    rw [Stream.readInt32_writeInt32 hanim.id _ hid1 hid2]
    simp only []
    rw [Stream.readInt32_writeInt32 _ _ (by decide) (by decide)]
    simp

/-- C13 at the record `emptyHierarchyExample` (id 5, a hierarchy of zero nodes
with flags 0 and maximal keyframe size 36), read into a fresh record: the bytes
of 0 and 36 stay in the stream and the record has no hierarchy. -/
theorem readHAnim_writeHAnim_zero_nodes_witness :
    (writeHAnim emptyHierarchyExample).length = 20
      ∧ getSizeHAnim true 0x36003 emptyHierarchyExample = 20
      ∧ readHAnim 1 freshHAnimExample (writeHAnim emptyHierarchyExample ++ [9])
          = Except.ok ({ id := 5, hierarchy := none }, [0, 0, 0, 0, 36, 0, 0, 0, 9]) :=
  readHAnim_writeHAnim_zero_nodes 1 0x36003 freshHAnimExample emptyHierarchyExample
    (HAnimHierarchy.create 0 [] [] 0 36) [9] rfl rfl (by decide) (by decide)

/-- C14: `getSizeHAnim` returns 0 when streaming is disabled, or when the
format version is at least `0x35000` and the record has id -1 and no
hierarchy; in every other case it returns the number of bytes `writeHAnim`
emits for the record, which is 12 without a hierarchy and
`12 + 8 + 12 * numNodes` with one.  The result is an `int32`, so the byte count
is taken to be below `2^31`. -/
theorem getSizeHAnim_eq (hAnimDoStream : Bool) (version : Nat) (hanim : HAnimData)
    (hfit : (writeHAnim hanim).length < 2 ^ 31) :
    (hAnimDoStream = false ∨ (version ≥ 0x35000 ∧ hanim.id = -1 ∧ hanim.hierarchy = none)
        → getSizeHAnim hAnimDoStream version hanim = 0)
      ∧ (¬ (hAnimDoStream = false ∨ (version ≥ 0x35000 ∧ hanim.id = -1 ∧ hanim.hierarchy = none))
        → getSizeHAnim hAnimDoStream version hanim = ((writeHAnim hanim).length : Nat))
      ∧ (hanim.hierarchy = none → (writeHAnim hanim).length = 12)
      ∧ (∀ hier, hanim.hierarchy = some hier
          → (writeHAnim hanim).length = 12 + 8 + 12 * hier.numNodes) := by
  have hlen := writeHAnim_length hanim
  refine ⟨?_, ?_, ?_, ?_⟩
  · intro h
    unfold getSizeHAnim
    rw [if_pos]
    rcases h with h | ⟨h1, h2, h3⟩
    · simp [h]
    · simp [h1, h2, h3]
  · intro h
    unfold getSizeHAnim
    rw [if_neg]
    · cases hh : hanim.hierarchy with
      | none =>
        rw [hh] at hlen
        simp only [hlen]
        rfl
      | some hier =>
        rw [hh] at hlen
        simp only [hlen] at hfit ⊢
        rw [toI32_toU32 _ (by omega) (by omega)]
        push_cast
        omega
    · intro hc
      apply h
      cases hb : hAnimDoStream with
      | false => exact Or.inl rfl
      | true =>
        right
        simp only [hb, Bool.not_true, Bool.false_or, Bool.and_eq_true, decide_eq_true_eq,
          Option.isNone_iff_eq_none] at hc
        exact ⟨hc.1.1, hc.1.2, hc.2⟩
  · intro hh
    rw [hh] at hlen
    exact hlen
  · intro hier hh
    rw [hh] at hlen
    exact hlen

/-- C14 at the record `skeletonRecordExample` (three nodes) and at a fresh
record: 56 bytes for the first at any version, and for the second 0 bytes at
version `0x36003` but 12 bytes at version `0x34000`. -/
theorem getSizeHAnim_eq_witness :
    getSizeHAnim true 0x36003 skeletonRecordExample = 56
      ∧ (writeHAnim skeletonRecordExample).length = 56
      ∧ getSizeHAnim true 0x36003 freshHAnimExample = 0
      ∧ getSizeHAnim true 0x34000 freshHAnimExample = 12
      ∧ (writeHAnim freshHAnimExample).length = 12
      ∧ getSizeHAnim false 0x34000 skeletonRecordExample = 0 := by
  have h1 := getSizeHAnim_eq true 0x36003 skeletonRecordExample (by decide!)
  have h2 := getSizeHAnim_eq true 0x36003 freshHAnimExample (by decide!)
  have h3 := getSizeHAnim_eq true 0x34000 freshHAnimExample (by decide!)
  have h4 := getSizeHAnim_eq false 0x34000 skeletonRecordExample (by decide!)
  have e1 : (writeHAnim skeletonRecordExample).length = 56 :=
    (h1.2.2.2 skeletonExample rfl).trans (by decide)
  have e2 : (writeHAnim freshHAnimExample).length = 12 := h2.2.2.1 rfl
  refine ⟨?_, e1, ?_, ?_, e2, ?_⟩
  · rw [h1.2.1 (by decide), e1]
    rfl
  · exact h2.1 (Or.inr ⟨by decide, rfl, rfl⟩)
  · rw [h3.2.1 (by decide), e2]
    rfl
  · exact h4.1 (Or.inl rfl)

/-- After the version check has passed, `readHAnim` does not fail with
`unsupportedHierarchyVersion`. -/
theorem readHAnim_of_version (object : Nat) (hanim : HAnimData) (s : Stream)
    (h4 : 4 ≤ s.length) (hver : int32At s 0 = 0x100) :
    readHAnim object hanim s ≠ Except.error LoadError.unsupportedHierarchyVersion := by
  have h0 : Stream.readInt32 s = some (int32At s 0, s.drop 4) := by
    simpa using Stream.readInt32_drop s 0 (by omega)
  unfold readHAnim
  rw [h0]
  simp only [hver]
  rw [if_neg (by decide)]
  repeat' split
  all_goals simp

/-- C15: `readHAnim` fails with `unsupportedHierarchyVersion` if and only if
the first 32-bit value of the payload is there and differs from `0x100`; when
it equals `0x100` the read goes on to the id (it then fails only if the stream
ends early); and the first 32-bit value `writeHAnim` emits is `0x100`, so that
what it has written never fails this check. -/
theorem readHAnim_version (object : Nat) (hanim : HAnimData) (s : Stream) :
    (readHAnim object hanim s = Except.error LoadError.unsupportedHierarchyVersion
        ↔ 4 ≤ s.length ∧ int32At s 0 ≠ 0x100)
      ∧ (∀ src : HAnimData, int32At (writeHAnim src) 0 = 0x100)
      ∧ (∀ (src : HAnimData) (tail : List Nat),
          readHAnim object hanim (writeHAnim src ++ tail)
            ≠ Except.error LoadError.unsupportedHierarchyVersion) := by
  have hw : ∀ (src : HAnimData) (tail : List Nat),
      int32At (writeHAnim src ++ tail) 0 = 0x100 := by
    intro src tail
    simp only [int32At, writeHAnim, List.append_assoc, Nat.mul_zero, List.drop_zero]
    rw [List.take_left' (Stream.writeInt32_length 256)]
    decide
  refine ⟨?_, ?_, ?_⟩
  · by_cases h4 : 4 ≤ s.length
    · have h0 : Stream.readInt32 s = some (int32At s 0, s.drop 4) := by
        simpa using Stream.readInt32_drop s 0 (by omega)
      by_cases hver : int32At s 0 = 0x100
      · constructor
        · intro h
          exact absurd h (readHAnim_of_version object hanim s h4 hver)
        · intro h
          exact absurd hver h.2
      · constructor
        · intro _
          exact ⟨h4, hver⟩
        · intro _
          unfold readHAnim
          rw [h0]
          simp only []
          rw [if_pos hver]
    · constructor
      · intro h
        unfold readHAnim at h
        rw [Stream.readInt32_none s (by omega)] at h
        simp at h
      · intro h
        exact absurd h.1 h4
  · intro src
    have h := hw src []
    rwa [List.append_nil] at h
  · intro src tail
    apply readHAnim_of_version
    · simp only [List.length_append, writeHAnim, Stream.writeInt32_length]
      omega
    · exact hw src tail

/-- C15 at two payloads: one that starts with `0x101` fails with
`unsupportedHierarchyVersion`, and the payload `hanimPayloadExample`, which
starts with `0x100`, does not. -/
theorem readHAnim_version_witness :
    readHAnim 1 freshHAnimExample (Stream.writeInt32 0x101 ++ [0, 0, 0, 0, 0, 0, 0, 0])
        = Except.error LoadError.unsupportedHierarchyVersion
      ∧ readHAnim 1 freshHAnimExample hanimPayloadExample
          ≠ Except.error LoadError.unsupportedHierarchyVersion := by
  constructor
  · exact (readHAnim_version 1 freshHAnimExample
      (Stream.writeInt32 0x101 ++ [0, 0, 0, 0, 0, 0, 0, 0])).1.2 ⟨by decide, by decide⟩
  · intro h
    exact absurd ((readHAnim_version 1 freshHAnimExample hanimPayloadExample).1.1 h).2
      (by decide)

/-- C16: on a payload that starts with the version `0x100`, `readHAnim` stores
the second field as the id; when the node count (the third field) is 0 it
leaves the record's hierarchy as it was and consumes 12 bytes; when the node
count is `n > 0` and the `20 + 12 * n` bytes are there, it consumes them and
attaches a new hierarchy whose flags and maximal keyframe size are the fourth
and fifth fields, whose `parentFrame` is the host frame `object`, and whose node
`i` has the id and the flags of the `i`-th triple, the index `i` (the index
field of the triple is not used) and no frame. -/
theorem readHAnim_hierarchy (object : Nat) (hanim : HAnimData) (s : Stream)
    (h12 : 12 ≤ s.length) (hver : int32At s 0 = 0x100) :
    (int32At s 2 = 0 →
        readHAnim object hanim s
          = Except.ok ({ id := int32At s 1, hierarchy := hanim.hierarchy }, s.drop 12))
      ∧ (∀ n : Nat, 0 < n → int32At s 2 = (n : Int) → 20 + 12 * n ≤ s.length →
          ∃ hier, readHAnim object hanim s
              = Except.ok ({ id := int32At s 1, hierarchy := some hier }, s.drop (20 + 12 * n))
            ∧ hier.numNodes = n
            ∧ hier.flags = int32At s 3
            ∧ hier.maxInterpKeyFrameSize = int32At s 4
            ∧ hier.parentFrame = some object
            ∧ hier.nodeInfo
                = (List.range n).map (fun i =>
                    { id := int32At s (5 + 3 * i), index := i, flags := int32At s (5 + 3 * i + 2),
                      frame := none })) := by
  have h0 : Stream.readInt32 s = some (int32At s 0, s.drop 4) := by
    simpa using Stream.readInt32_drop s 0 (by omega)
  have h1 : Stream.readInt32 (s.drop 4) = some (int32At s 1, s.drop 8) := by
    simpa using Stream.readInt32_drop s 1 (by omega)
  have h2 : Stream.readInt32 (s.drop 8) = some (int32At s 2, s.drop 12) := by
    simpa using Stream.readInt32_drop s 2 (by omega)
  constructor
  · intro hz
    unfold readHAnim
    rw [h0]
    simp only [hver]
    rw [if_neg (by decide), h1]
    simp only []
    rw [h2]
    simp only [hz]
    rw [if_neg (by decide)]
  · intro n hn hcount hlen
    have h3 : Stream.readInt32 (s.drop 12) = some (int32At s 3, s.drop 16) := by
      simpa using Stream.readInt32_drop s 3 (by omega)
    have h4 : Stream.readInt32 (s.drop 16) = some (int32At s 4, s.drop (4 * 5)) := by
      simpa using Stream.readInt32_drop s 4 (by omega)
    have hne : ((n : Int) ≠ 0) := by omega
    have hdrop : 4 * (5 + 3 * n) = 20 + 12 * n := by omega
    refine ⟨{ HAnimHierarchy.create n
                ((List.range n).map (fun i => int32At s (5 + 3 * i + 2)))
                ((List.range n).map (fun i => int32At s (5 + 3 * i)))
                (int32At s 3) (int32At s 4) with parentFrame := some object },
      ?_, ?_, rfl, rfl, rfl, ?_⟩
    · unfold readHAnim
      rw [h0]
      simp only [hver]
      rw [if_neg (by decide), h1]
      simp only []
      rw [h2]
      simp only [hcount]
      rw [if_pos hne, h3]
      simp only []
      rw [h4]
      simp only [Int.toNat_ofNat]
      rw [readHAnimNodes_drop s n 5 (by omega), hdrop]
    · simp [HAnimHierarchy.numNodes, HAnimHierarchy.create]
    · exact HAnimHierarchy.create_nodeInfo n (fun i => int32At s (5 + 3 * i))
        (fun i => int32At s (5 + 3 * i + 2)) (int32At s 3) (int32At s 4)

/-- C16 at the payload `hanimPayloadExample` followed by the byte 9, read for
the frame at address 1: the record gets id 7 and a hierarchy of two nodes with
ids 10 and -1, flags 1 and 3, indices 0 and 1 (not the 5 and 9 of the stream),
no frame bound, and `parentFrame` the frame at address 1. -/
theorem readHAnim_hierarchy_witness :
    ∃ hier, readHAnim 1 freshHAnimExample (hanimPayloadExample ++ [9])
        = Except.ok ({ id := 7, hierarchy := some hier }, [9])
      ∧ hier.flags = 2
      ∧ hier.maxInterpKeyFrameSize = 36
      ∧ hier.parentFrame = some 1
      ∧ hier.nodeInfo
          = [{ id := 10, index := 0, flags := 1, frame := none },
             { id := -1, index := 1, flags := 3, frame := none }] := by
  obtain ⟨hier, hr, _, hf, hm, hp, hnodes⟩ :=
    (readHAnim_hierarchy 1 freshHAnimExample (hanimPayloadExample ++ [9])
      (by decide) (by decide)).2 2 (by decide) (by decide) (by decide)
  refine ⟨hier, ?_, ?_, ?_, hp, ?_⟩
  · have e1 : int32At (hanimPayloadExample ++ [9]) 1 = 7 := by decide!
    have e2 : List.drop (20 + 12 * 2) (hanimPayloadExample ++ [9]) = [9] := by decide!
    rw [hr, e1, e2]
  · rw [hf]
    decide
  · rw [hm]
    decide
  · rw [hnodes]
    decide!

/-! ## Theorems: Material sizes -/

/-- The bytes `Material::streamWrite` emits between the STRUCT header and the
texture: the 16-byte record, then the three reflectance scalars from version
`0x30400` on. -/
theorem Material.streamWrite_split (env : Env) (m : Material) :
    ∃ payload, (m.streamWrite env).drop 24
        = payload
          ++ (match m.texture with
              | some t => env.texStreamWrite t
              | none => [])
          ++ env.matStreamWritePlugins m
      ∧ payload.length = 16 + (if env.version ≥ 0x30400 then 12 else 0) := by
  refine ⟨(Stream.writeI32 0
      ++ [m.color.red, m.color.green, m.color.blue, m.color.alpha]
      ++ Stream.writeI32 0
      ++ Stream.writeI32 (if m.texture.isSome then 1 else 0))
    ++ (if env.version ≥ 0x30400 then
        Stream.write
          (image 4 [m.surfaceProps.ambient, m.surfaceProps.specular, m.surfaceProps.diffuse]) 12
      else []), ?_, ?_⟩
  · unfold Material.streamWrite
    simp only [List.append_assoc]
    rw [← List.append_assoc (writeChunkHeader env env.ID_MATERIAL _)]
    exact List.drop_left' (by simp [writeChunkHeader_length])
  · by_cases hv : env.version ≥ 0x30400
    · simp [hv, Stream.writeI32_length, Stream.write_length]
    · simp [hv, Stream.writeI32_length]

/-- C17: every chunk length `Material::streamWrite` declares equals the payload
it writes.  The stream starts with the MATERIAL header, which declares
`Material::streamGetSize`, and that is the number of bytes that follow it,
assuming the texture's and the plugin registry's size functions are consistent
with their writers; next comes the STRUCT header, which declares 16, plus 12
exactly when the version is at least `0x30400`, and that many bytes follow it
before the texture and the extension section.  It holds with or without a
texture and at any version.  The size is a `uint32`, so the payload is taken to
be shorter than `2^32` bytes. -/
theorem Material.streamWrite_declared_lengths (env : Env) (m : Material)
    (htex : ∀ t, m.texture = some t → (env.texStreamWrite t).length = 12 + env.texStreamGetSize t)
    (hplug : (env.matStreamWritePlugins m).length = 12 + env.matStreamGetPluginSize m)
    (hfit : ((m.streamWrite env).drop 12).length < 2 ^ 32) :
    m.streamGetSize env = ((m.streamWrite env).drop 12).length
      ∧ (m.streamWrite env).take 12
          = writeChunkHeader env env.ID_MATERIAL ((m.streamWrite env).drop 12).length
      ∧ ((m.streamWrite env).drop 12).take 12
          = writeChunkHeader env env.ID_STRUCT (16 + (if env.version ≥ 0x30400 then 12 else 0))
      ∧ ∃ payload, (m.streamWrite env).drop 24
            = payload
              ++ (match m.texture with
                  | some t => env.texStreamWrite t
                  | none => [])
              ++ env.matStreamWritePlugins m
          ∧ payload.length = 16 + (if env.version ≥ 0x30400 then 12 else 0) := by
  have hlen : ((m.streamWrite env).drop 12).length
      = 12 + 16 + (if env.version ≥ 0x30400 then 12 else 0)
        + (match m.texture with
            | some t => 12 + env.texStreamGetSize t
            | none => 0)
        + (12 + env.matStreamGetPluginSize m) := by
    cases ht : m.texture with
    | none =>
      by_cases hv : env.version ≥ 0x30400
      · simp [Material.streamWrite, ht, hv, writeChunkHeader_length, Stream.writeI32_length,
          Stream.write_length, hplug]
        omega
      · simp [Material.streamWrite, ht, hv, writeChunkHeader_length, Stream.writeI32_length,
          hplug]
        omega
    | some t =>
      have h := htex t ht
      by_cases hv : env.version ≥ 0x30400
      · simp [Material.streamWrite, ht, hv, writeChunkHeader_length, Stream.writeI32_length,
          Stream.write_length, hplug, h]
        omega
      · simp [Material.streamWrite, ht, hv, writeChunkHeader_length, Stream.writeI32_length,
          hplug, h]
        omega
  have hsize : m.streamGetSize env = u32 ((m.streamWrite env).drop 12).length := by
    rw [hlen]
    unfold Material.streamGetSize
    cases ht : m.texture with
    | none =>
      by_cases hv : env.version ≥ 0x30400
      · simp only [hv, if_true, Nat.zero_add, u32_u32_add]
      · simp only [hv, if_false, Nat.zero_add, u32_u32_add]
    | some t =>
      by_cases hv : env.version ≥ 0x30400
      · simp only [hv, if_true, Nat.zero_add, u32_u32_add]
      · simp only [hv, if_false, Nat.zero_add, u32_u32_add]
  have h : m.streamGetSize env = ((m.streamWrite env).drop 12).length := by
    rw [hsize, u32_of_lt hfit]
  refine ⟨h, ?_, ?_, Material.streamWrite_split env m⟩
  · rw [← h]
    simp [Material.streamWrite, List.append_assoc, List.take_append_eq_append_take,
      writeChunkHeader_length]
  · have hd : (m.streamWrite env).drop 12
        = writeChunkHeader env env.ID_STRUCT (16 + (if env.version ≥ 0x30400 then 12 else 0))
          ++ ((Stream.writeI32 0
            ++ [m.color.red, m.color.green, m.color.blue, m.color.alpha]
            ++ Stream.writeI32 0
            ++ Stream.writeI32 (if m.texture.isSome then 1 else 0))
          ++ (if env.version ≥ 0x30400 then
              Stream.write
                (image 4 [m.surfaceProps.ambient, m.surfaceProps.specular,
                  m.surfaceProps.diffuse]) 12
            else [])
          ++ (match m.texture with
              | some t => env.texStreamWrite t
              | none => [])
          ++ env.matStreamWritePlugins m) := by
      unfold Material.streamWrite
      simp only [List.append_assoc]
      exact List.drop_left' (writeChunkHeader_length _ _ _)
    rw [hd]
    exact List.take_left' (writeChunkHeader_length _ _ _)

/-- C17 at the material `texturedMaterialExample`, written at version `0x36003`
with no plugin registered: 64 bytes follow the MATERIAL header (the STRUCT
header, 28 bytes of payload, an empty TEXTURE chunk and an empty extension
chunk) and 64 is the size computed. -/
theorem Material.streamWrite_declared_lengths_witness :
    texturedMaterialExample.streamGetSize (Env.bare 0x36003) = 64
      ∧ ((texturedMaterialExample.streamWrite (Env.bare 0x36003)).drop 12).length = 64
      ∧ ((texturedMaterialExample.streamWrite (Env.bare 0x36003)).drop 12).take 12
          = writeChunkHeader (Env.bare 0x36003) 1 28 := by
  have h := Material.streamWrite_declared_lengths (Env.bare 0x36003) texturedMaterialExample
    (fun t _ => rfl) rfl (by decide!)
  have hlen : ((texturedMaterialExample.streamWrite (Env.bare 0x36003)).drop 12).length = 64 := by
    decide!
  exact ⟨h.1.trans hlen, hlen, h.2.2.1⟩

/-! ## Theorems: Material::clone and Material::destroy -/

/-- The fields of the material `Material::clone` returns. -/
theorem Material.clone_fields (env : Env) (addr : Nat) (m : Material) (counts : TextureCounts) :
    (m.clone env addr counts).2.1.refCount = 1
      ∧ (m.clone env addr counts).2.1.color = m.color
      ∧ (m.clone env addr counts).2.1.surfaceProps = m.surfaceProps
      ∧ (m.clone env addr counts).2.1.texture = m.texture := by
  unfold Material.clone
  cases m.texture <;> simp [Material.create]

/-- The texture counts after `Material::clone`. -/
theorem Material.clone_counts (env : Env) (addr : Nat) (m : Material) (counts : TextureCounts) :
    (m.clone env addr counts).2.2
      = match m.texture with
        | some t => fun a => if a = t.addr then counts a + 1 else counts a
        | none => counts := by
  unfold Material.clone
  cases m.texture <;> rfl

/-- C18: for every material `m`, `Material::clone` returns a new material with
reference count 1 whose colour and three reflectance scalars are those of `m`;
if `m` has a texture the clone refers to the same texture, whose reference
count is increased by exactly 1 (no other texture count changes), and if `m`
has none the clone has none and no count changes; `m` itself (its reference
count, colour, reflectance and texture reference) is unchanged. -/
theorem Material.clone_shares_texture (env : Env) (addr : Nat) (m : Material)
    (counts : TextureCounts) :
    (m.clone env addr counts).2.1.refCount = 1
      ∧ (m.clone env addr counts).2.1.color = m.color
      ∧ (m.clone env addr counts).2.1.surfaceProps = m.surfaceProps
      ∧ (∀ t, m.texture = some t →
          (m.clone env addr counts).2.1.texture = some t
            ∧ (m.clone env addr counts).2.2 t.addr = counts t.addr + 1
            ∧ ∀ a, a ≠ t.addr → (m.clone env addr counts).2.2 a = counts a)
      ∧ (m.texture = none →
          (m.clone env addr counts).2.1.texture = none
            ∧ (m.clone env addr counts).2.2 = counts)
      ∧ (m.clone env addr counts).1 = m := by
  obtain ⟨h1, h2, h3, h4⟩ := Material.clone_fields env addr m counts
  have hc := Material.clone_counts env addr m counts
  refine ⟨h1, h2, h3, ?_, ?_, rfl⟩
  · intro t ht
    rw [ht] at h4 hc
    refine ⟨h4, ?_, ?_⟩
    · rw [hc]
      simp
    · intro a ha
      rw [hc]
      simp [ha]
  · intro ht
    rw [ht] at h4 hc
    exact ⟨h4, hc⟩

/-- C18 at the material `texturedMaterialExample`, whose texture (at address 7)
has count 3: the clone has reference count 1, the same colour, reflectance and
texture, the texture count becomes 4 and the count of another texture stays 1. -/
theorem Material.clone_shares_texture_witness :
    (texturedMaterialExample.clone (Env.bare 0x36003) 200 textureCountsExample).2.1
        = { texturedMaterialExample with addr := 200 }
      ∧ (texturedMaterialExample.clone (Env.bare 0x36003) 200 textureCountsExample).2.2 7 = 4
      ∧ (texturedMaterialExample.clone (Env.bare 0x36003) 200 textureCountsExample).2.2 8 = 1
      ∧ (texturedMaterialExample.clone (Env.bare 0x36003) 200 textureCountsExample).1
          = texturedMaterialExample := by
  have h := Material.clone_shares_texture (Env.bare 0x36003) 200 texturedMaterialExample
    textureCountsExample
  have ht := h.2.2.2.1 { addr := 7 } rfl
  exact ⟨rfl, ht.2.1, ht.2.2 8 (by decide), h.2.2.2.2.2⟩

/-- The result of `Material::destroy` on a material whose count is 1. -/
theorem Material.destroy_last (m : Material) (counts : TextureCounts) (h : m.refCount = 1) :
    (m.destroy counts).2
      = match m.texture with
        | some t => t.destroy counts
        | none => counts := by
  unfold Material.destroy
  simp only [h]
  cases m.texture <;> rfl

/-- C19: for a live material (reference count at least 1), `Material::destroy`
decrements the reference count by exactly 1; if the material has a texture,
that texture's count is decreased by 1 exactly when the material's count
thereby reaches zero, and no other texture count changes; when the count is
still positive, or the material has no texture, no texture count changes.  Consequently, for a material with
reference count 1 and a texture with count `c`, cloning it and then destroying
both materials, in either order, leaves the texture's count at `c - 1`. -/
theorem Material.destroy_releases_texture (m : Material) (counts : TextureCounts)
    (hlive : 1 ≤ m.refCount) :
    (m.destroy counts).1.refCount = m.refCount - 1
      ∧ (∀ t, m.texture = some t →
          ((m.destroy counts).2 t.addr = counts t.addr - 1 ↔ m.refCount - 1 = 0)
            ∧ ∀ a, a ≠ t.addr → (m.destroy counts).2 a = counts a)
      ∧ (0 < m.refCount - 1 → (m.destroy counts).2 = counts)
      ∧ (m.texture = none → (m.destroy counts).2 = counts)
      ∧ (∀ (env : Env) (addr : Nat) (t : Texture), m.refCount = 1 → m.texture = some t →
          ((m.clone env addr counts).2.1.destroy
              ((m.clone env addr counts).1.destroy (m.clone env addr counts).2.2).2).2 t.addr
            = counts t.addr - 1
          ∧ ((m.clone env addr counts).1.destroy
              ((m.clone env addr counts).2.1.destroy (m.clone env addr counts).2.2).2).2 t.addr
            = counts t.addr - 1) := by
  refine ⟨?_, ?_, ?_, ?_, ?_⟩
  · unfold Material.destroy
    simp only []
    split
    · split <;> rfl
    · rfl
  · intro t ht
    unfold Material.destroy
    simp only [ht]
    by_cases h0 : m.refCount - 1 ≤ 0
    · rw [if_pos h0]
      simp only [Texture.destroy]
      refine ⟨⟨fun _ => by omega, fun _ => by simp⟩, ?_⟩
      intro a ha
      simp [ha]
    · rw [if_neg h0]
      refine ⟨⟨fun h => ?_, fun h => by omega⟩, fun _ _ => rfl⟩
      dsimp only at h
      omega
  · intro hpos
    unfold Material.destroy
    simp only []
    rw [if_neg (by omega)]
  · intro ht
    unfold Material.destroy
    simp only [ht]
    split <;> rfl
  · intro env addr t h1 ht
    obtain ⟨c1, _, _, c4⟩ := Material.clone_fields env addr m counts
    have hc := Material.clone_counts env addr m counts
    have hthis : (m.clone env addr counts).1 = m := rfl
    rw [ht] at c4 hc
    constructor
    · rw [Material.destroy_last _ _ c1, c4, hthis, Material.destroy_last _ _ h1, ht, hc]
      simp only [Texture.destroy, if_true]
      omega
    · rw [hthis, Material.destroy_last _ _ h1, ht, Material.destroy_last _ _ c1, c4, hc]
      simp only [Texture.destroy, if_true]
      omega

/-- C19 at the material `texturedMaterialExample` (reference count 1), whose
texture has count 3: destroying it leaves the material's count at 0 and the
texture's at 2; cloning it and destroying both the original and the clone also
leaves the texture's count at 2. -/
theorem Material.destroy_releases_texture_witness :
    (texturedMaterialExample.destroy textureCountsExample).1.refCount = 0
      ∧ (texturedMaterialExample.destroy textureCountsExample).2 7 = 2
      ∧ ((texturedMaterialExample.clone (Env.bare 0x36003) 200 textureCountsExample).2.1.destroy
          ((texturedMaterialExample.clone (Env.bare 0x36003) 200 textureCountsExample).1.destroy
            (texturedMaterialExample.clone (Env.bare 0x36003) 200 textureCountsExample).2.2).2).2 7
          = 2 := by
  have h := Material.destroy_releases_texture texturedMaterialExample textureCountsExample
    (by decide)
  exact ⟨h.1, (h.2.1 { addr := 7 } rfl).1.2 rfl,
    (h.2.2.2.2 (Env.bare 0x36003) 200 { addr := 7 } rfl rfl).1⟩

/-! ## Theorems: Material::streamRead -/

theorem Stream.read_of_le (s : Stream) (n : Nat) (h : n ≤ s.length) :
    Stream.read s n = some (s.take n, s.drop n) := by
  unfold Stream.read
  rw [if_pos h]

theorem getD_take (s : List Nat) (i n : Nat) (h : i < n) : (s.take n).getD i 0 = s.getD i 0 := by
  simp [List.getD, List.getElem?_take, h]

theorem take_drop_take (s : List Nat) (a b n : Nat) (h : a + b ≤ n) :
    ((s.take n).drop a).take b = (s.drop a).take b := by
  rw [List.drop_take, List.take_take, Nat.min_eq_left (by omega)]

/-- The offset of the textured field in what `Material::streamWrite` emits, and
its value. -/
theorem Material.streamWrite_textured (env : Env) (m : Material) :
    ((m.streamWrite env).drop 36).take 4
      = Stream.writeI32 (if m.texture.isSome then 1 else 0) := by
  have hd : (m.streamWrite env)
      = (writeChunkHeader env env.ID_MATERIAL (m.streamGetSize env)
          ++ writeChunkHeader env env.ID_STRUCT (16 + (if env.version ≥ 0x30400 then 12 else 0))
          ++ Stream.writeI32 0
          ++ [m.color.red, m.color.green, m.color.blue, m.color.alpha]
          ++ Stream.writeI32 0)
        ++ (Stream.writeI32 (if m.texture.isSome then 1 else 0)
          ++ ((if env.version ≥ 0x30400 then
              Stream.write
                (image 4 [m.surfaceProps.ambient, m.surfaceProps.specular,
                  m.surfaceProps.diffuse]) 12
            else [])
          ++ (match m.texture with
              | some t => env.texStreamWrite t
              | none => [])
          ++ env.matStreamWritePlugins m)) := by
    unfold Material.streamWrite
    simp only [List.append_assoc]
  rw [hd, List.drop_left' (by simp [writeChunkHeader_length, Stream.writeI32_length])]
  exact List.take_left' (Stream.writeI32_length _)

/-- C20: `Material::streamRead`, once the STRUCT chunk is found with format
version `version` and its record (and, from version `0x30400` on, the three
floats) is there, takes the colour from bytes 4 to 7 of the record; below
version `0x30400` it sets ambient, specular and diffuse to 1.0 and goes on
right after the 16-byte record, otherwise it reads three 32-bit floats as
ambient, specular, diffuse in that order.  When the textured field of the
record is 0 it looks for no TEXTURE chunk (the material has no texture and the
extension section is read from where the record, or the floats, ended); when
the field is nonzero it looks for a TEXTURE chunk there, fails if there is none,
and gives the material the texture read from it.  `Material::streamWrite` sets
the textured field to 1 when the material has a texture and to 0 when it has
none.  The rights extension is taken to leave colour, reflectance and texture
alone. -/
theorem Material.streamRead_fields (env : Env) (addr : Nat) (rights : Nat × Nat) (s s1 : Stream)
    (len version : Nat)
    (hfind : findChunk s env.ID_STRUCT = some ((len, version), s1))
    (hlen : (if version < 0x30400 then 16 else 28) ≤ s1.length)
    (hrights : ∀ m a b, (env.assertRights m a b).color = m.color
      ∧ (env.assertRights m a b).surfaceProps = m.surfaceProps
      ∧ (env.assertRights m a b).texture = m.texture) :
    (∀ (t : Option Texture) (s5 : Stream) (plugins : List Nat) (rights' : Nat × Nat)
        (out : Stream),
        ((unle ((s1.drop 12).take 4) = 0 ∧ t = none
            ∧ s5 = s1.drop (if version < 0x30400 then 16 else 28))
          ∨ (unle ((s1.drop 12).take 4) ≠ 0
            ∧ ∃ hdr s4 t', findChunk (s1.drop (if version < 0x30400 then 16 else 28))
                  env.ID_TEXTURE = some (hdr, s4)
                ∧ env.texStreamRead s4 = some (t', s5) ∧ t = some t')) →
        env.matStreamReadPlugins s5 env.matConstructPlugins (0, rights.2)
          = some (plugins, rights', out) →
        ∃ mat, Material.streamRead env addr rights s = some (mat, rights', out)
          ∧ mat.color
              = { red := s1.getD 4 0, green := s1.getD 5 0, blue := s1.getD 6 0,
                  alpha := s1.getD 7 0 }
          ∧ mat.surfaceProps
              = (if version < 0x30400 then
                  { ambient := 0x3F800000, specular := 0x3F800000, diffuse := 0x3F800000 }
                else
                  { ambient := unle ((s1.drop 16).take 4),
                    specular := unle ((s1.drop 20).take 4),
                    diffuse := unle ((s1.drop 24).take 4) })
          ∧ mat.texture = t)
      ∧ (unle ((s1.drop 12).take 4) ≠ 0 →
          findChunk (s1.drop (if version < 0x30400 then 16 else 28)) env.ID_TEXTURE = none →
          Material.streamRead env addr rights s = none)
      ∧ (∀ m : Material, ((m.streamWrite env).drop 36).take 4
          = Stream.writeI32 (if m.texture.isSome then 1 else 0)) := by
  have h16 : 16 ≤ s1.length := by
    split at hlen <;> omega
  have hbuf : Stream.read s1 16 = some (s1.take 16, s1.drop 16) := Stream.read_of_le s1 16 h16
  have htx : ((s1.take 16).drop 12).take 4 = (s1.drop 12).take 4 :=
    take_drop_take s1 12 4 16 (by omega)
  refine ⟨?_, ?_, Material.streamWrite_textured env⟩
  · intro t s5 plugins rights' out htex hplug
    have hread : ∃ M : Material,
        Material.streamRead env addr rights s
          = some (if rights'.1 ≠ 0 then env.assertRights M rights'.1 rights'.2 else M,
              rights', out)
        ∧ M.color
            = { red := (s1.take 16).getD 4 0, green := (s1.take 16).getD 5 0,
                blue := (s1.take 16).getD 6 0, alpha := (s1.take 16).getD 7 0 }
        ∧ M.surfaceProps
            = (if version < 0x30400 then
                { ambient := 0x3F800000, specular := 0x3F800000, diffuse := 0x3F800000 }
              else
                { ambient := unle ((s1.drop 16).take 4),
                  specular := unle ((s1.drop 20).take 4),
                  diffuse := unle ((s1.drop 24).take 4) })
        ∧ M.texture = t := by
      by_cases hv : version < 0x30400
      · rw [if_pos hv] at htex
        rcases htex with ⟨h0, ht, hs5⟩ | ⟨h0, hdr, s4, t', hf, hr, ht⟩
        · subst ht hs5
          unfold Material.streamRead
          rw [hfind]
          simp only [hbuf, hv, if_true, htx, h0, ne_eq, not_true_eq_false, if_false,
            Material.create, hplug]
          exact ⟨_, rfl, rfl, rfl, rfl⟩
        · subst ht
          unfold Material.streamRead
          rw [hfind]
          simp only [hbuf, hv, if_true, htx, h0, ne_eq, not_false_eq_true, hf, hr,
            Material.create, hplug]
          exact ⟨_, rfl, rfl, rfl, rfl⟩
      · rw [if_neg hv] at htex hlen
        have hfl : Stream.read (s1.drop 16) 12 = some ((s1.drop 16).take 12, s1.drop 28) := by
          rw [Stream.read_of_le _ 12 (by rw [List.length_drop]; omega), List.drop_drop]
        have ha : ((s1.drop 16).take 12).take 4 = (s1.drop 16).take 4 := by
          rw [List.take_take]
          rfl
        have hb : (((s1.drop 16).take 12).drop 4).take 4 = (s1.drop 20).take 4 := by
          rw [take_drop_take _ 4 4 12 (by omega), List.drop_drop]
        have hc : (((s1.drop 16).take 12).drop 8).take 4 = (s1.drop 24).take 4 := by
          rw [take_drop_take _ 8 4 12 (by omega), List.drop_drop]
        rcases htex with ⟨h0, ht, hs5⟩ | ⟨h0, hdr, s4, t', hf, hr, ht⟩
        · subst ht hs5
          unfold Material.streamRead
          rw [hfind]
          simp only [hbuf, hv, if_false, hfl, ha, hb, hc, htx, h0, ne_eq, not_true_eq_false,
            Material.create, hplug]
          exact ⟨_, rfl, rfl, rfl, rfl⟩
        · subst ht
          unfold Material.streamRead
          rw [hfind]
          simp only [hbuf, hv, if_false, hfl, ha, hb, hc, htx, h0, ne_eq, not_false_eq_true,
            if_true, hf, hr, Material.create, hplug]
          exact ⟨_, rfl, rfl, rfl, rfl⟩
    obtain ⟨M, hread, hcol, hsp, htx2⟩ := hread
    refine ⟨_, hread, ?_, ?_, ?_⟩
    · have hcol2 : M.color
          = { red := s1.getD 4 0, green := s1.getD 5 0, blue := s1.getD 6 0,
              alpha := s1.getD 7 0 } := by
        rw [hcol, getD_take s1 4 16 (by omega), getD_take s1 5 16 (by omega),
          getD_take s1 6 16 (by omega), getD_take s1 7 16 (by omega)]
      split
      · rw [(hrights M _ _).1, hcol2]
      · exact hcol2
    · split
      · rw [(hrights M _ _).2.1, hsp]
      · exact hsp
    · split
      · rw [(hrights M _ _).2.2, htx2]
      · exact htx2
  · intro h0 hnone
    unfold Material.streamRead
    rw [hfind]
    by_cases hv : version < 0x30400
    · rw [if_pos hv] at hnone
      simp only [hbuf, hv, if_true, htx, h0, ne_eq, not_false_eq_true, hnone]
    · rw [if_neg hv] at hnone hlen
      have hfl : Stream.read (s1.drop 16) 12 = some ((s1.drop 16).take 12, s1.drop 28) := by
        rw [Stream.read_of_le _ 12 (by rw [List.length_drop]; omega), List.drop_drop]
      simp only [hbuf, hv, if_false, hfl, htx, h0, ne_eq, not_false_eq_true, if_true, hnone]

/-- C20 at the stream `materialStreamExample` (version `0x36003`, textured
field 1): the material read has the colour 1, 2, 3, 4 of the record, the three
floats of the stream as ambient, specular and diffuse, and the texture read
from the TEXTURE chunk that follows. -/
theorem Material.streamRead_fields_witness :
    ∃ mat, Material.streamRead (Env.bare 0x36003) 200 (0, 0) materialStreamExample
        = some (mat, (0, 0), [9])
      ∧ mat.color = { red := 1, green := 2, blue := 3, alpha := 4 }
      ∧ mat.surfaceProps
          = { ambient := 0x3F000000, specular := 0x3E800000, diffuse := 0x3F400000 }
      ∧ mat.texture = some { addr := 0 } := by
  obtain ⟨mat, hr, hc, hs, ht⟩ :=
    (Material.streamRead_fields (Env.bare 0x36003) 200 (0, 0) materialStreamExample
      (materialStreamExample.drop 12) 28 0x36003 (by decide!) (by decide!)
      (fun _ _ _ => ⟨rfl, rfl, rfl⟩)).1
      (some { addr := 0 }) (materialStreamExample.drop 52) [] (0, 0) [9]
      (Or.inr ⟨by decide!, (0, 0x36003), materialStreamExample.drop 52, { addr := 0 },
        by decide!, rfl, rfl⟩)
      (by decide!)
  exact ⟨mat, hr, hc.trans (by decide!), hs.trans (by decide!), ht⟩

/-! ## Theorems: the material rights extension -/

/-- C21 as stated fails: a material that has a pipeline, with plugin id 0, gets
the sentinel -1 from `getSizeMaterialRights`, not 8. -/
theorem getSizeMaterialRights_counterexample :
    zeroPipelineMaterialExample.pipeline ≠ none
      ∧ getSizeMaterialRights zeroPipelineMaterialExample = -1 := by
  decide

/-- C21, amended: `getSizeMaterialRights` returns the sentinel -1 exactly when
the material has no pipeline or its pipeline's plugin id is 0; for every other
material it returns 8, and `writeMaterialRights` emits 8 bytes: the pipeline's
`pluginID` followed by its `pluginData`, four little-endian bytes each. -/
theorem getSizeMaterialRights_eq (material : Material) :
    (getSizeMaterialRights material = -1
        ↔ material.pipeline = none ∨ ∃ p, material.pipeline = some p ∧ p.pluginID = 0)
      ∧ (∀ p, material.pipeline = some p → p.pluginID ≠ 0 →
          getSizeMaterialRights material = 8
            ∧ writeMaterialRights material = some (le 4 p.pluginID ++ le 4 p.pluginData)
            ∧ (le 4 p.pluginID ++ le 4 p.pluginData).length = 8) := by
  constructor
  · unfold getSizeMaterialRights
    cases hp : material.pipeline with
    | none => simp
    | some p =>
      by_cases h0 : p.pluginID = 0
      · simp [h0]
      · simp [h0]
  · intro p hp h0
    refine ⟨?_, ?_, by simp [le_length]⟩
    · simp [getSizeMaterialRights, hp, h0]
    · simp only [writeMaterialRights, hp, image, List.flatMap_cons, List.flatMap_nil,
        List.append_nil]
      rw [Stream.write_of_length _ 8 (by simp [le_length])]

/-- C21, amended, at a material whose pipeline has plugin id `0x116` and plugin
data 3, and at a material without pipeline. -/
theorem getSizeMaterialRights_eq_witness :
    getSizeMaterialRights pipelineMaterialExample = 8
      ∧ writeMaterialRights pipelineMaterialExample = some [0x16, 0x01, 0, 0, 3, 0, 0, 0]
      ∧ getSizeMaterialRights texturedMaterialExample = -1 := by
  have h := (getSizeMaterialRights_eq pipelineMaterialExample).2
    { pluginID := 0x116, pluginData := 3 } rfl (by decide)
  exact ⟨h.1, h.2.1.trans (by decide),
    (getSizeMaterialRights_eq texturedMaterialExample).1.2 (Or.inl rfl)⟩

/-! ## Theorems: Geometry::destroy -/

/-- The material `Material::destroy` leaves behind: only its count has changed. -/
theorem Material.destroy_fst (m : Material) (counts : TextureCounts) :
    (m.destroy counts).1 = { m with refCount := m.refCount - 1 } := by
  unfold Material.destroy
  simp only []
  split
  · split <;> rfl
  · rfl

theorem foldl_destroy_fst (ms : List Material) :
    ∀ (acc : List Material) (counts : TextureCounts),
      (ms.foldl
          (fun (acc : List Material × TextureCounts) m =>
            (acc.1 ++ [(m.destroy acc.2).1], (m.destroy acc.2).2))
          (acc, counts)).1
        = acc ++ ms.map (fun m => { m with refCount := m.refCount - 1 }) := by
  induction ms with
  | nil =>
    intro acc counts
    simp
  | cons m ms ih =>
    intro acc counts
    rw [List.foldl_cons, ih, Material.destroy_fst]
    simp

/-- The materials after the loop of `Geometry::destroy`: each entry of the list
has lost one reference. -/
theorem destroyMaterials_fst (ms : List Material) (counts : TextureCounts) :
    (destroyMaterials ms counts).1 = ms.map (fun m => { m with refCount := m.refCount - 1 }) := by
  unfold destroyMaterials
  rw [foldl_destroy_fst]
  simp

/-- C22: `Geometry::destroy` decrements the geometry's reference count by
exactly 1; when the resulting count is still positive nothing else changes (the
arrays, the morph targets, the material list with every material's reference
count, and the texture counts are as before); when it reaches zero, every entry
of the material list has its own reference count decremented exactly once and
is otherwise as before. -/
theorem Geometry.destroy_frame (g : Geometry) (counts : TextureCounts) :
    (g.destroy counts).1.refCount = g.refCount - 1
      ∧ (0 < g.refCount - 1 →
          g.destroy counts = ({ g with refCount := g.refCount - 1 }, counts))
      ∧ (g.refCount - 1 = 0 →
          (g.destroy counts).1.materialList
              = g.materialList.map (fun m => { m with refCount := m.refCount - 1 })
            ∧ (g.destroy counts).1.materialList.map (fun m => m.refCount)
              = g.materialList.map (fun m => m.refCount - 1)) := by
  refine ⟨?_, ?_, ?_⟩
  · unfold Geometry.destroy
    simp only []
    split <;> rfl
  · intro hpos
    unfold Geometry.destroy
    simp only []
    rw [if_neg (by omega)]
  · intro hzero
    have h : (g.destroy counts).1.materialList
        = g.materialList.map (fun m => { m with refCount := m.refCount - 1 }) := by
      unfold Geometry.destroy
      simp only []
      rw [if_pos (by omega)]
      exact destroyMaterials_fst g.materialList counts
    refine ⟨h, ?_⟩
    rw [h, List.map_map]
    rfl

/-- C22 at the geometry `ownedGeometryExample` (count 1, materials with the
counts 1 and 2): after `destroy` its count is 0 and the materials have the
counts 0 and 1; the same geometry with count 2 only has its count lowered
to 1. -/
theorem Geometry.destroy_frame_witness :
    (ownedGeometryExample.destroy textureCountsExample).1.refCount = 0
      ∧ (ownedGeometryExample.destroy textureCountsExample).1.materialList.map
          (fun m => m.refCount) = [0, 1]
      ∧ ({ ownedGeometryExample with refCount := 2 } : Geometry).destroy textureCountsExample
          = ({ ownedGeometryExample with refCount := 1 }, textureCountsExample) := by
  have h := Geometry.destroy_frame ownedGeometryExample textureCountsExample
  have h2 := Geometry.destroy_frame { ownedGeometryExample with refCount := 2 }
    textureCountsExample
  exact ⟨h.1, (h.2.2 rfl).2, h2.2.1 (by decide)⟩

/-! ## Theorems: Geometry::calculateBoundingSphere -/

theorem max_eq_ite (m x : ℚ) : (if x > m then x else m) = max m x := by
  by_cases h : x > m
  · rw [if_pos h, max_eq_right (le_of_lt h)]
  · rw [if_neg h, max_eq_left (not_lt.1 h)]

theorem min_eq_ite (m x : ℚ) : (if x < m then x else m) = min m x := by
  by_cases h : x < m
  · rw [if_pos h, min_eq_right (le_of_lt h)]
  · rw [if_neg h, min_eq_left (not_lt.1 h)]

theorem extentStep_eq (v : List ℚ) (e : Extent) (j : Nat) :
    extentStep v e j
      = { min0 := min e.min0 (v.getD (3 * j + 0) 0)
          min1 := min e.min1 (v.getD (3 * j + 1) 0)
          min2 := min e.min2 (v.getD (3 * j + 2) 0)
          max0 := max e.max0 (v.getD (3 * j + 0) 0)
          max1 := max e.max1 (v.getD (3 * j + 1) 0)
          max2 := max e.max2 (v.getD (3 * j + 2) 0) } := by
  obtain ⟨a0, a1, a2, b0, b1, b2⟩ := e
  simp only [extentStep, ← max_eq_ite, ← min_eq_ite, apply_ite Extent.min0,
    apply_ite Extent.min1, apply_ite Extent.min2, apply_ite Extent.max0, apply_ite Extent.max1,
    apply_ite Extent.max2, ite_self]
  split_ifs <;> rfl

/-- The extent after the inner loop, axis by axis. -/
theorem foldl_extentStep (v : List ℚ) (js : List Nat) :
    ∀ e : Extent, js.foldl (extentStep v) e
      = { min0 := (js.map (fun j => v.getD (3 * j + 0) 0)).foldl min e.min0
          min1 := (js.map (fun j => v.getD (3 * j + 1) 0)).foldl min e.min1
          min2 := (js.map (fun j => v.getD (3 * j + 2) 0)).foldl min e.min2
          max0 := (js.map (fun j => v.getD (3 * j + 0) 0)).foldl max e.max0
          max1 := (js.map (fun j => v.getD (3 * j + 1) 0)).foldl max e.max1
          max2 := (js.map (fun j => v.getD (3 * j + 2) 0)).foldl max e.max2 } := by
  induction js with
  | nil => intro e; rfl
  | cons j js ih =>
    intro e
    rw [List.foldl_cons, ih, extentStep_eq]
    rfl

theorem foldl_max_ge (l : List ℚ) : ∀ a : ℚ, a ≤ l.foldl max a ∧ ∀ x ∈ l, x ≤ l.foldl max a := by
  induction l with
  | nil => intro a; simp
  | cons y t ih =>
    intro a
    obtain ⟨h1, h2⟩ := ih (max a y)
    refine ⟨le_trans (le_max_left a y) h1, ?_⟩
    intro x hx
    rcases List.mem_cons.1 hx with rfl | hx
    · exact le_trans (le_max_right a x) h1
    · exact h2 x hx

theorem foldl_min_le (l : List ℚ) : ∀ a : ℚ, l.foldl min a ≤ a ∧ ∀ x ∈ l, l.foldl min a ≤ x := by
  induction l with
  | nil => intro a; simp
  | cons y t ih =>
    intro a
    obtain ⟨h1, h2⟩ := ih (min a y)
    refine ⟨le_trans h1 (min_le_left a y), ?_⟩
    intro x hx
    rcases List.mem_cons.1 hx with rfl | hx
    · exact le_trans h1 (min_le_right a x)
    · exact h2 x hx

theorem foldl_max_mem (l : List ℚ) : ∀ a : ℚ, l.foldl max a = a ∨ l.foldl max a ∈ l := by
  induction l with
  | nil => intro a; simp
  | cons y t ih =>
    intro a
    rw [List.foldl_cons]
    rcases ih (max a y) with h | h
    · rcases max_choice a y with h2 | h2
      · left; rw [h, h2]
      · right; rw [h, h2]; exact List.mem_cons_self _ _
    · right; exact List.mem_cons_of_mem _ h

theorem foldl_min_mem (l : List ℚ) : ∀ a : ℚ, l.foldl min a = a ∨ l.foldl min a ∈ l := by
  induction l with
  | nil => intro a; simp
  | cons y t ih =>
    intro a
    rw [List.foldl_cons]
    rcases ih (min a y) with h | h
    · rcases min_choice a y with h2 | h2
      · left; rw [h, h2]
      · right; rw [h, h2]; exact List.mem_cons_self _ _
    · right; exact List.mem_cons_of_mem _ h

/-- Starting the maximum from a sentinel that does not exceed the first element
gives the maximum of the list. -/
theorem foldl_max_sentinel (l : List ℚ) (a : ℚ) (hne : l ≠ []) (h : ∀ x ∈ l, a ≤ x) :
    l.foldl max a = l.foldl max (l.headD 0) := by
  cases l with
  | nil => exact absurd rfl hne
  | cons x t =>
    simp only [List.foldl_cons, List.headD_cons, max_self]
    rw [max_eq_right (h x (List.mem_cons_self _ _))]

theorem foldl_min_sentinel (l : List ℚ) (a : ℚ) (hne : l ≠ []) (h : ∀ x ∈ l, x ≤ a) :
    l.foldl min a = l.foldl min (l.headD 0) := by
  cases l with
  | nil => exact absurd rfl hne
  | cons x t =>
    simp only [List.foldl_cons, List.headD_cons, min_self]
    rw [min_eq_right (h x (List.mem_cons_self _ _))]

/-- The sphere computed for one morph target, in terms of the extent the inner
loop ends with. -/
theorem boundingSphereOf_eq (n : Nat) (v : List ℚ) :
    boundingSphereOf n v
      = { center0 := (loopMin v n 0 + loopMax v n 0) / 2
          center1 := (loopMin v n 1 + loopMax v n 1) / 2
          center2 := (loopMin v n 2 + loopMax v n 2) / 2
          radiusSq :=
            (loopMax v n 0 - (loopMin v n 0 + loopMax v n 0) / 2)
                * (loopMax v n 0 - (loopMin v n 0 + loopMax v n 0) / 2)
              + (loopMax v n 1 - (loopMin v n 1 + loopMax v n 1) / 2)
                * (loopMax v n 1 - (loopMin v n 1 + loopMax v n 1) / 2)
              + (loopMax v n 2 - (loopMin v n 2 + loopMax v n 2) / 2)
                * (loopMax v n 2 - (loopMin v n 2 + loopMax v n 2) / 2) } := by
  unfold boundingSphereOf
  rw [foldl_extentStep]
  rfl

theorem mem_axisCoords (v : List ℚ) (n k j : Nat) (hj : j < n) :
    v.getD (3 * j + k) 0 ∈ axisCoords v n k :=
  List.mem_map.2 ⟨j, List.mem_range.2 hj, rfl⟩

/-- Every coordinate lies between the two ends of the extent the loop ends
with. -/
theorem loop_bounds (v : List ℚ) (n k j : Nat) (hj : j < n) :
    loopMin v n k ≤ v.getD (3 * j + k) 0 ∧ v.getD (3 * j + k) 0 ≤ loopMax v n k :=
  ⟨(foldl_min_le _ _).2 _ (mem_axisCoords v n k j hj),
    (foldl_max_ge _ _).2 _ (mem_axisCoords v n k j hj)⟩

theorem axisCoords_ne_nil (v : List ℚ) (n k : Nat) (hn : 0 < n) : axisCoords v n k ≠ [] := by
  intro h
  have := mem_axisCoords v n k 0 hn
  rw [h] at this
  exact absurd this (List.not_mem_nil _)

theorem exists_of_mem_axisCoords (v : List ℚ) (n k : Nat) (x : ℚ) (h : x ∈ axisCoords v n k) :
    ∃ j, j < n ∧ x = v.getD (3 * j + k) 0 := by
  obtain ⟨j, hj, e⟩ := List.mem_map.1 h
  exact ⟨j, List.mem_range.1 hj, e.symm⟩

/-- With at least one vertex and no coordinate above the sentinel, the loop ends
with the least coordinate. -/
theorem loopMin_eq_extentMin (v : List ℚ) (n k : Nat) (hn : 0 < n)
    (h : ∀ j, j < n → v.getD (3 * j + k) 0 ≤ 1000000) : loopMin v n k = extentMin v n k := by
  unfold loopMin extentMin
  apply foldl_min_sentinel _ _ (axisCoords_ne_nil v n k hn)
  intro x hx
  obtain ⟨j, hj, e⟩ := exists_of_mem_axisCoords v n k x hx
  rw [e]
  exact h j hj

theorem loopMax_eq_extentMax (v : List ℚ) (n k : Nat) (hn : 0 < n)
    (h : ∀ j, j < n → -1000000 ≤ v.getD (3 * j + k) 0) : loopMax v n k = extentMax v n k := by
  unfold loopMax extentMax
  apply foldl_max_sentinel _ _ (axisCoords_ne_nil v n k hn)
  intro x hx
  obtain ⟨j, hj, e⟩ := exists_of_mem_axisCoords v n k x hx
  rw [e]
  exact h j hj

/-- The least coordinate, as specified, is a coordinate of some vertex and is
below every other; likewise the greatest. -/
theorem extent_is_extent (v : List ℚ) (n k : Nat) (hn : 0 < n) :
    (∀ j, j < n → extentMin v n k ≤ v.getD (3 * j + k) 0 ∧ v.getD (3 * j + k) 0 ≤ extentMax v n k)
      ∧ (∃ j, j < n ∧ extentMin v n k = v.getD (3 * j + k) 0)
      ∧ (∃ j, j < n ∧ extentMax v n k = v.getD (3 * j + k) 0) := by
  have hne := axisCoords_ne_nil v n k hn
  have hhead : (axisCoords v n k).headD 0 ∈ axisCoords v n k := by
    cases h : axisCoords v n k with
    | nil => exact absurd h hne
    | cons x t => simp
  refine ⟨?_, ?_, ?_⟩
  · intro j hj
    exact ⟨(foldl_min_le _ _).2 _ (mem_axisCoords v n k j hj),
      (foldl_max_ge _ _).2 _ (mem_axisCoords v n k j hj)⟩
  · unfold extentMin
    rcases foldl_min_mem (axisCoords v n k) ((axisCoords v n k).headD 0) with h | h
    · rw [h]
      exact exists_of_mem_axisCoords v n k _ hhead
    · exact exists_of_mem_axisCoords v n k _ h
  · unfold extentMax
    rcases foldl_max_mem (axisCoords v n k) ((axisCoords v n k).headD 0) with h | h
    · rw [h]
      exact exists_of_mem_axisCoords v n k _ hhead
    · exact exists_of_mem_axisCoords v n k _ h

theorem sq_dist_le (lo hi x : ℚ) (h1 : lo ≤ x) (h2 : x ≤ hi) :
    (x - (lo + hi) / 2) ^ 2 ≤ (hi - (lo + hi) / 2) * (hi - (lo + hi) / 2) := by
  have h := sq_le_sq' (a := x - (lo + hi) / 2) (b := hi - (lo + hi) / 2) (by linarith)
    (by linarith)
  rw [← pow_two]
  exact h

theorem Geometry.calculateBoundingSphere_getElem? (n : Nat) (targets : List (List ℚ)) (i : Nat)
    (v : List ℚ) (hv : targets[i]? = some v) :
    (Geometry.calculateBoundingSphere n targets)[i]? = some (boundingSphereOf n v) := by
  unfold Geometry.calculateBoundingSphere
  rw [List.getElem?_map, hv]
  rfl

/-- C23 as stated fails: for the single vertex (2000000, 0, 0) the centre
computed has the first coordinate 1500000, while the extent of the vertex
positions on that axis runs from 2000000 to 2000000, with midpoint 2000000. -/
theorem Geometry.calculateBoundingSphere_counterexample :
    (Geometry.calculateBoundingSphere 1 [farVerticesExample]).map (fun s => s.center0)
        = [1500000]
      ∧ (extentMin farVerticesExample 1 0 + extentMax farVerticesExample 1 0) / 2 = 2000000 := by
  decide!

/-- C23, amended: for every geometry with at least one vertex and every morph
target of it whose vertex coordinates all lie in [-1000000, 1000000],
`Geometry::calculateBoundingSphere` sets the sphere centre to the per-axis
midpoint `(min + max) / 2` of the axis-aligned extent of that target's vertex
positions, and the radius to the distance from the extent's maximum corner to
the centre: over exact arithmetic the number under the square root is the sum
over the axes of `(max - centre)^2`. -/
theorem Geometry.calculateBoundingSphere_extent (n : Nat) (targets : List (List ℚ)) (i : Nat)
    (v : List ℚ) (hn : 0 < n) (hv : targets[i]? = some v)
    (hrange : ∀ j, j < n → ∀ k, k < 3 →
      -1000000 ≤ v.getD (3 * j + k) 0 ∧ v.getD (3 * j + k) 0 ≤ 1000000) :
    ∃ s, (Geometry.calculateBoundingSphere n targets)[i]? = some s
      ∧ s.center0 = (extentMin v n 0 + extentMax v n 0) / 2
      ∧ s.center1 = (extentMin v n 1 + extentMax v n 1) / 2
      ∧ s.center2 = (extentMin v n 2 + extentMax v n 2) / 2
      ∧ s.radiusSq
          = (extentMax v n 0 - s.center0) ^ 2 + (extentMax v n 1 - s.center1) ^ 2
            + (extentMax v n 2 - s.center2) ^ 2 := by
  refine ⟨_, Geometry.calculateBoundingSphere_getElem? n targets i v hv, ?_⟩
  rw [boundingSphereOf_eq,
    loopMin_eq_extentMin v n 0 hn (fun j hj => (hrange j hj 0 (by decide)).2),
    loopMin_eq_extentMin v n 1 hn (fun j hj => (hrange j hj 1 (by decide)).2),
    loopMin_eq_extentMin v n 2 hn (fun j hj => (hrange j hj 2 (by decide)).2),
    loopMax_eq_extentMax v n 0 hn (fun j hj => (hrange j hj 0 (by decide)).1),
    loopMax_eq_extentMax v n 1 hn (fun j hj => (hrange j hj 1 (by decide)).1),
    loopMax_eq_extentMax v n 2 hn (fun j hj => (hrange j hj 2 (by decide)).1)]
  exact ⟨rfl, rfl, rfl, by ring⟩

/-- C23, amended, at the two vertices (1, 2, 3) and (5, -2, 7): the centre is
(3, 0, 5) and the squared radius is 4 + 4 + 4. -/
theorem Geometry.calculateBoundingSphere_extent_witness :
    Geometry.calculateBoundingSphere 2 [boxVerticesExample]
      = [{ center0 := 3, center1 := 0, center2 := 5, radiusSq := 12 }] := by
  obtain ⟨s, h1, h2, h3, h4, h5⟩ :=
    Geometry.calculateBoundingSphere_extent 2 [boxVerticesExample] 0 boxVerticesExample
      (by decide) rfl (by decide!)
  have e : Geometry.calculateBoundingSphere 2 [boxVerticesExample] = [s] := by
    apply List.ext_getElem?
    intro i
    cases i with
    | zero => rw [h1]; rfl
    | succ i => rfl
  rw [e]
  obtain ⟨c0, c1, c2, r⟩ := s
  simp only at h2 h3 h4 h5
  have e0 : (extentMin boxVerticesExample 2 0 + extentMax boxVerticesExample 2 0) / 2 = 3 := by
    decide!
  have e1 : (extentMin boxVerticesExample 2 1 + extentMax boxVerticesExample 2 1) / 2 = 0 := by
    decide!
  have e2 : (extentMin boxVerticesExample 2 2 + extentMax boxVerticesExample 2 2) / 2 = 5 := by
    decide!
  rw [e0] at h2
  rw [e1] at h3
  rw [e2] at h4
  subst h2 h3 h4
  have e3 : (extentMax boxVerticesExample 2 0 - 3) ^ 2 + (extentMax boxVerticesExample 2 1 - 0) ^ 2
      + (extentMax boxVerticesExample 2 2 - 5) ^ 2 = 12 := by decide!
  rw [e3] at h5
  subst h5
  rfl

/-- C28: after `Geometry::calculateBoundingSphere`, for every morph target whose
vertex coordinates all lie in [-1000000, 1000000], every vertex of the target
lies inside or on the computed sphere: over exact arithmetic its squared
distance from the computed centre is at most the squared radius, which is the
sum over the axes of the squared half-extents. -/
theorem Geometry.calculateBoundingSphere_contains (n : Nat) (targets : List (List ℚ)) (i : Nat)
    (v : List ℚ) (hv : targets[i]? = some v)
    (hrange : ∀ j, j < n → ∀ k, k < 3 →
      -1000000 ≤ v.getD (3 * j + k) 0 ∧ v.getD (3 * j + k) 0 ≤ 1000000) :
    ∃ s, (Geometry.calculateBoundingSphere n targets)[i]? = some s
      ∧ ∀ j, j < n →
          (v.getD (3 * j + 0) 0 - s.center0) ^ 2 + (v.getD (3 * j + 1) 0 - s.center1) ^ 2
              + (v.getD (3 * j + 2) 0 - s.center2) ^ 2 ≤ s.radiusSq
            ∧ s.radiusSq
              = ((extentMax v n 0 - extentMin v n 0) / 2) ^ 2
                + ((extentMax v n 1 - extentMin v n 1) / 2) ^ 2
                + ((extentMax v n 2 - extentMin v n 2) / 2) ^ 2 := by
  refine ⟨_, Geometry.calculateBoundingSphere_getElem? n targets i v hv, ?_⟩
  intro j hj
  have hn : 0 < n := by omega
  rw [boundingSphereOf_eq]
  constructor
  · have h0 := loop_bounds v n 0 j hj
    have h1 := loop_bounds v n 1 j hj
    have h2 := loop_bounds v n 2 j hj
    have s0 := sq_dist_le _ _ _ h0.1 h0.2
    have s1 := sq_dist_le _ _ _ h1.1 h1.2
    have s2 := sq_dist_le _ _ _ h2.1 h2.2
    simp only
    linarith
  · simp only [loopMin_eq_extentMin v n 0 hn (fun j hj => (hrange j hj 0 (by decide)).2),
      loopMin_eq_extentMin v n 1 hn (fun j hj => (hrange j hj 1 (by decide)).2),
      loopMin_eq_extentMin v n 2 hn (fun j hj => (hrange j hj 2 (by decide)).2),
      loopMax_eq_extentMax v n 0 hn (fun j hj => (hrange j hj 0 (by decide)).1),
      loopMax_eq_extentMax v n 1 hn (fun j hj => (hrange j hj 1 (by decide)).1),
      loopMax_eq_extentMax v n 2 hn (fun j hj => (hrange j hj 2 (by decide)).1)]
    ring

/-- C28 at the two vertices (1, 2, 3) and (5, -2, 7): both are at squared
distance 12 from the centre (3, 0, 5), and 12 is the squared radius. -/
theorem Geometry.calculateBoundingSphere_contains_witness :
    ∃ s, (Geometry.calculateBoundingSphere 2 [boxVerticesExample])[0]? = some s
      ∧ ((1 : ℚ) - s.center0) ^ 2 + (2 - s.center1) ^ 2 + (3 - s.center2) ^ 2 ≤ s.radiusSq
      ∧ ((5 : ℚ) - s.center0) ^ 2 + (-2 - s.center1) ^ 2 + (7 - s.center2) ^ 2 ≤ s.radiusSq := by
  obtain ⟨s, h1, h2⟩ :=
    Geometry.calculateBoundingSphere_contains 2 [boxVerticesExample] 0 boxVerticesExample
      rfl (by decide!)
  exact ⟨s, h1, (h2 0 (by decide)).1, (h2 1 (by decide)).1⟩

/-! ## Theorems: NATIVE geometries -/

/-- The STRUCT payload of a geometry whose NATIVE flag is set: the record, the
legacy bytes, and per morph target the bounding sphere and two zero words. -/
theorem Geometry.writeStruct_native (env : Env) (g : Geometry)
    (hnat : hasFlag g.geoflags env.NATIVE = true) :
    g.writeStruct env
      = (le 4 (g.geoflags ||| (g.numTexCoordSets <<< 16))
          ++ le 4 g.numTriangles ++ le 4 g.numVertices ++ le 4 g.numMorphTargets)
        ++ (if env.version < 0x34000 then
              Stream.write (image 4 [0x3F800000, 0x3F800000, 0x3F800000]) 12
            else [])
        ++ g.morphTargets.flatMap (fun m =>
            Stream.write (image 4 m.boundingSphere) (4 * 4)
              ++ (Stream.writeI32 0 ++ Stream.writeI32 0)) := by
  unfold Geometry.writeStruct Geometry.writeArrays Geometry.writeMorphTarget
  simp only [hnat, Bool.not_true, Bool.false_eq_true, if_false, List.append_nil]

/-- C24: for every geometry `Geometry::create` returns with the NATIVE flag
set, the colour array, all texture-coordinate arrays, the triangle array and
morph target 0's position and normal arrays are absent, and the STRUCT payload
`Geometry::streamWrite` emits holds no array data: it is the 16-byte record,
the 12 legacy bytes when the version is below `0x34000`, and for the one morph
target the 16-byte bounding sphere followed by `hasVertices = 0` and
`hasNormals = 0`; `geoStructSize` is the length of exactly that. -/
theorem Geometry.create_native (env : Env) (numVerts numTris flags : Nat)
    (hnat : hasFlag (Geometry.create env numVerts numTris flags).geoflags env.NATIVE = true) :
    (Geometry.create env numVerts numTris flags).colors = none
      ∧ (∀ tc ∈ (Geometry.create env numVerts numTris flags).texCoords, tc = none)
      ∧ (Geometry.create env numVerts numTris flags).triangles = none
      ∧ (Geometry.create env numVerts numTris flags).morphTargets.map
            (fun m => (m.vertices, m.normals))
          = [(none, none)]
      ∧ (Geometry.create env numVerts numTris flags).writeStruct env
          = (le 4 ((Geometry.create env numVerts numTris flags).geoflags
                ||| ((Geometry.create env numVerts numTris flags).numTexCoordSets <<< 16))
              ++ le 4 numTris ++ le 4 numVerts ++ le 4 1)
            ++ (if env.version < 0x34000 then
                  Stream.write (image 4 [0x3F800000, 0x3F800000, 0x3F800000]) 12
                else [])
            ++ (Stream.write (image 4 [0, 0, 0, 0]) (4 * 4)
                ++ (Stream.writeI32 0 ++ Stream.writeI32 0))
      ∧ ((Geometry.create env numVerts numTris flags).writeStruct env).length
          = 16 + (if env.version < 0x34000 then 12 else 0) + (16 + 4 + 4)
      ∧ geoStructSize env (Geometry.create env numVerts numTris flags)
          = 16 + (if env.version < 0x34000 then 12 else 0) + (16 + 4 + 4) := by
  have hn1 : hasFlag (flags &&& 0xFF00FFFF) env.NATIVE = true := hnat
  have hw := Geometry.writeStruct_native env _ hnat
  refine ⟨?_, ?_, ?_, ?_, ?_, ?_, ?_⟩
  · simp [Geometry.create, hn1]
  · simp [Geometry.create, hn1]
  · simp [Geometry.create, hn1]
  · simp [Geometry.create, hn1]
  · rw [hw]
    simp [Geometry.create, Geometry.numMorphTargets]
  · rw [hw]
    by_cases hv : env.version < 0x34000
    · simp [hv, le_length, Stream.write_length, Stream.writeI32_length, Geometry.create]
    · simp [hv, le_length, Stream.write_length, Stream.writeI32_length, Geometry.create]
  · unfold geoStructSize geoStructSizeMorph
    by_cases hv : env.version < 0x34000
    · simp [hv, hn1, u32, Geometry.create]
    · simp [hv, hn1, u32, Geometry.create]

/-- C24 at the geometry created with the flags NATIVE, PRELIT and TEXTURED for
three vertices and one triangle, at version `0x36003`: no array is there and the
STRUCT payload has the 40 bytes of the record and of one morph target. -/
theorem Geometry.create_native_witness :
    (Geometry.create (Env.bare 0x36003) 3 1 0x0100000C).colors = none
      ∧ (Geometry.create (Env.bare 0x36003) 3 1 0x0100000C).texCoords = [none]
      ∧ (Geometry.create (Env.bare 0x36003) 3 1 0x0100000C).triangles = none
      ∧ ((Geometry.create (Env.bare 0x36003) 3 1 0x0100000C).writeStruct
          (Env.bare 0x36003)).length = 40
      ∧ geoStructSize (Env.bare 0x36003) (Geometry.create (Env.bare 0x36003) 3 1 0x0100000C)
          = 40 := by
  have h := Geometry.create_native (Env.bare 0x36003) 3 1 0x0100000C (by decide)
  exact ⟨h.1, by decide, h.2.2.1, h.2.2.2.2.2.1, h.2.2.2.2.2.2⟩

/-! ## Theorems: the two passes of Geometry::generateTriangles -/

/-- The values of `j` the list-mode loop visits: 0, 3, 6, ... as long as
`j < numIndices - 2`. -/
theorem listSteps_eq (n : Nat) :
    ∀ (fuel j : Nat), (n - 2 - j + 2) / 3 ≤ fuel →
      listSteps n fuel j = (List.range ((n - 2 - j + 2) / 3)).map (fun t => j + 3 * t) := by
  intro fuel
  induction fuel with
  | zero =>
    intro j h
    have h0 : (n - 2 - j + 2) / 3 = 0 := by omega
    rw [h0]
    rfl
  | succ fuel ih =>
    intro j h
    unfold listSteps
    by_cases hj : j < n - 2
    · rw [if_pos hj, ih (j + 3) (by omega)]
      have hc : (n - 2 - j + 2) / 3 = (n - 2 - (j + 3) + 2) / 3 + 1 := by omega
      rw [hc, List.range_succ_eq_map, List.map_cons, List.map_map]
      have hfun : ((fun t => j + 3 * t) ∘ Nat.succ) = (fun t => j + 3 + 3 * t) := by
        funext t
        show j + 3 * (t + 1) = j + 3 + 3 * t
        omega
      rw [hfun]
      rfl
    · rw [if_neg hj]
      have h0 : (n - 2 - j + 2) / 3 = 0 := by omega
      rw [h0]
      rfl

/-- In list mode a mesh of `n >= 3` indices is visited at `j = 0, 3, 6, ...`
below `n - 2`, which are `n / 3` values. -/
theorem listSteps_list (n : Nat) (hn : 3 ≤ n) :
    listSteps n n 0 = (List.range (n / 3)).map (fun t => 3 * t) := by
  rw [listSteps_eq n n 0 (by omega)]
  have h : (n - 2 - 0 + 2) / 3 = n / 3 := by
    congr 1
    omega
  rw [h]
  apply List.map_congr_left
  intro t _
  omega

theorem foldl_append_length (q : Nat → List Nat) (hq : ∀ j, (q j).length = 4) (js : List Nat) :
    ∀ f : List Nat, (js.foldl (fun f j => f ++ q j) f).length = f.length + 4 * js.length := by
  induction js with
  | nil => intro f; simp
  | cons j js ih =>
    intro f
    rw [List.foldl_cons, ih, List.length_append, hq, List.length_cons]
    omega

/-- One mesh: the writing pass adds four entries for every triangle the counting
pass adds, and both passes advance the adjacency cursor alike. -/
theorem writeMesh_countMesh (flags : Nat) (adc : Option (List Int)) (materialList : List Nat)
    (m : Mesh) (c off : Nat) (f : List Nat) (hf : f.length = 4 * c) :
    (writeMesh flags adc materialList (f, off) m).1.length
        = 4 * (countMesh flags adc (c, off) m).1
      ∧ (writeMesh flags adc materialList (f, off) m).2 = (countMesh flags adc (c, off) m).2 := by
  unfold writeMesh countMesh
  by_cases h3 : m.indices.length < 3
  · simp only [h3, if_true]
    exact ⟨hf, trivial⟩
  · simp only [h3, if_false]
    refine ⟨?_, trivial⟩
    by_cases hs : flags = 1
    · have hQ := fun xs => length_flatMap_const
        (fun j => [m.indices.getD (j + 1 + j % 2) 0, m.indices.getD (j + 0) 0,
          toU16 (findPointer m.material materialList), m.indices.getD (j + 2 - j % 2) 0])
        4 (fun _ => rfl) xs
      simp only [hs, if_true, countTest_eq, writeTest_eq, foldl_count_filter,
        foldl_write_filter, Bool.not_not, List.length_append, hQ, hf]
      have heta : (fun j => stripStepKept adc off m.indices j)
          = stripStepKept adc off m.indices := rfl
      rw [heta]
      omega
    · have hQ := foldl_append_length
        (fun j => [m.indices.getD (j + 1) 0, m.indices.getD (j + 0) 0,
          toU16 (findPointer m.material materialList), m.indices.getD (j + 2) 0])
        (fun _ => rfl)
      simp only [hs, if_false]
      rw [hQ, hf, listSteps_list _ (by omega)]
      simp only [List.length_map, List.length_range]
      omega

/-- All meshes: what the writing pass has written is four entries for every
triangle the counting pass has counted. -/
theorem foldl_writeMesh_countMesh (flags : Nat) (adc : Option (List Int))
    (materialList : List Nat) (meshes : List Mesh) :
    ∀ (c off : Nat) (f : List Nat), f.length = 4 * c →
      (meshes.foldl (writeMesh flags adc materialList) (f, off)).1.length
        = 4 * (meshes.foldl (countMesh flags adc) (c, off)).1 := by
  induction meshes with
  | nil => intro c off f hf; exact hf
  | cons m meshes ih =>
    intro c off f hf
    obtain ⟨h1, h2⟩ := writeMesh_countMesh flags adc materialList m c off f hf
    rw [List.foldl_cons, List.foldl_cons]
    have e1 : writeMesh flags adc materialList (f, off) m
        = ((writeMesh flags adc materialList (f, off) m).1,
            (countMesh flags adc (c, off) m).2) := by
      rw [← h2]
    have e2 : countMesh flags adc (c, off) m
        = ((countMesh flags adc (c, off) m).1, (countMesh flags adc (c, off) m).2) := rfl
    rw [e1, e2]
    exact ih _ _ _ h1

/-- C27: in `Geometry::generateTriangles` the counting pass and the writing pass
agree for every mesh header, in strip mode and in list mode, with or without
adjacency bits: the call succeeds when a mesh header is there, the entries the
second loop writes are exactly `4 * numTriangles`, with `numTriangles` as the
first loop computed it, so the new array `uint16[4*numTriangles]` is filled to
its end and not beyond.  In list mode the loop over a mesh of `n >= 3` indices
visits `j = 0, 3, 6, ...` below `n - 2`, which are `n / 3` values. -/
theorem Geometry.generateTriangles_passes_agree (g : Geometry) (adc : Option (List Int))
    (header : MeshHeader) (hh : g.meshHeader = some header) :
    (∃ g', g.generateTriangles adc = some g'
        ∧ g'.numTriangles = (header.mesh.foldl (countMesh header.flags adc) (0, 0)).1
        ∧ g'.triangles
            = some (header.mesh.foldl
                (writeMesh header.flags adc (g.materialList.map (fun mat => mat.addr)))
                ([], 0)).1
        ∧ (header.mesh.foldl
              (writeMesh header.flags adc (g.materialList.map (fun mat => mat.addr)))
              ([], 0)).1.length
            = 4 * g'.numTriangles)
      ∧ (∀ n, 3 ≤ n →
          listSteps n n 0 = (List.range (n / 3)).map (fun t => 3 * t)
            ∧ (listSteps n n 0).length = n / 3
            ∧ ∀ j, j ∈ listSteps n n 0 ↔ (j % 3 = 0 ∧ j < n - 2)) := by
  have hlen := foldl_writeMesh_countMesh header.flags adc
    (g.materialList.map (fun mat => mat.addr)) header.mesh 0 0 [] rfl
  constructor
  · refine ⟨_, by rw [Geometry.generateTriangles, hh], rfl, ?_, hlen⟩
    simp only [hlen, List.length_replicate, List.drop_replicate, Nat.sub_self,
      List.replicate_zero, List.append_nil]
  · intro n hn
    have hl := listSteps_list n hn
    refine ⟨hl, by rw [hl, List.length_map, List.length_range], ?_⟩
    intro j
    rw [hl, List.mem_map]
    constructor
    · rintro ⟨t, ht, rfl⟩
      have := List.mem_range.1 ht
      omega
    · rintro ⟨h1, h2⟩
      exact ⟨j / 3, List.mem_range.2 (by omega), by omega⟩

/-- C27 at the geometry `listGeometryExample` (list mode; meshes of seven, two
and three indices): three triangles are counted and twelve entries written. -/
theorem Geometry.generateTriangles_passes_agree_witness :
    ∃ g', listGeometryExample.generateTriangles none = some g'
      ∧ g'.numTriangles = 3
      ∧ g'.triangles = some [1, 0, 0, 2, 4, 3, 0, 5, 10, 9, 1, 11] := by
  obtain ⟨g', h1, h2, h3, _⟩ :=
    (Geometry.generateTriangles_passes_agree listGeometryExample none
      { flags := 0
        mesh := [{ indices := [0, 1, 2, 3, 4, 5, 6], material := 100 },
                 { indices := [7, 8], material := 100 },
                 { indices := [9, 10, 11], material := 300 }] } rfl).1
  exact ⟨g', h1, h2.trans (by decide), h3.trans (by decide)⟩

/-! ## Theorems: HAnimHierarchy::create, getIndex and find -/

theorem hasFlag_two (x : Nat) : hasFlag x 2 = x.testBit 1 := by
  unfold hasFlag
  have h := Nat.and_two_pow x 1
  rw [pow_one] at h
  rw [h]
  cases x.testBit 1 <;> rfl

/-- C25: for every node count `n` and arrays `nodeIDs`, `nodeFlags` of that
length, `HAnimHierarchy::create` returns a hierarchy with `numNodes = n` in
which node `i` has the id `nodeIDs[i]`, the flags `nodeFlags[i]`, the index `i`
and no frame; its `parentFrame` is absent, its flags and maximal keyframe size
are the given ones, and its node-matrix buffer is absent exactly when the bit
of value 2 is set in the flags and otherwise is a buffer of `64 * n + 15`
bytes, 64 bytes per node and 15 bytes of room for alignment. -/
theorem HAnimHierarchy.create_nodes (n : Nat) (nodeFlags nodeIDs : List Int)
    (flags maxKeySize : Int) (hf : nodeFlags.length = n) (hi : nodeIDs.length = n) :
    (HAnimHierarchy.create n nodeFlags nodeIDs flags maxKeySize).numNodes = n
      ∧ (∀ i, i < n →
          ∃ id fl, nodeIDs[i]? = some id ∧ nodeFlags[i]? = some fl
            ∧ (HAnimHierarchy.create n nodeFlags nodeIDs flags maxKeySize).nodeInfo[i]?
              = some { id := id, index := (i : Int), flags := fl, frame := none })
      ∧ (HAnimHierarchy.create n nodeFlags nodeIDs flags maxKeySize).parentFrame = none
      ∧ (HAnimHierarchy.create n nodeFlags nodeIDs flags maxKeySize).flags = flags
      ∧ (HAnimHierarchy.create n nodeFlags nodeIDs flags maxKeySize).maxInterpKeyFrameSize
          = maxKeySize
      ∧ ((HAnimHierarchy.create n nodeFlags nodeIDs flags maxKeySize).matricesUnaligned = none
          ↔ (toU32 flags).testBit 1 = true)
      ∧ ((toU32 flags).testBit 1 = false →
          ∃ buf, (HAnimHierarchy.create n nodeFlags nodeIDs flags maxKeySize).matricesUnaligned
              = some buf
            ∧ buf.length = 64 * n + 15) := by
  refine ⟨?_, ?_, rfl, rfl, rfl, ?_, ?_⟩
  · simp [HAnimHierarchy.numNodes, HAnimHierarchy.create]
  · intro i hlt
    refine ⟨nodeIDs.getD i 0, nodeFlags.getD i 0, ?_, ?_, ?_⟩
    · rw [List.getD_eq_getElem?_getD, List.getElem?_eq_getElem (by omega)]
      rfl
    · rw [List.getD_eq_getElem?_getD, List.getElem?_eq_getElem (by omega)]
      rfl
    · unfold HAnimHierarchy.create
      simp only [List.getElem?_map, List.getElem?_range hlt, Option.map_some']
  · unfold HAnimHierarchy.create
    simp only [hasFlag_two]
    cases (toU32 flags).testBit 1 <;> simp
  · intro hbit
    unfold HAnimHierarchy.create
    simp only [hasFlag_two, hbit]
    exact ⟨_, rfl, by simp; omega⟩

/-- C25 at three nodes with the ids 10, 20, 30 and flags 1, 2, 3: with hierarchy
flags 0 a buffer of 207 bytes is there, with hierarchy flags 2 none is. -/
theorem HAnimHierarchy.create_nodes_witness :
    (HAnimHierarchy.create 3 [1, 2, 3] [10, 20, 30] 0 36).nodeInfo
        = [{ id := 10, index := 0, flags := 1, frame := none },
           { id := 20, index := 1, flags := 2, frame := none },
           { id := 30, index := 2, flags := 3, frame := none }]
      ∧ (HAnimHierarchy.create 3 [1, 2, 3] [10, 20, 30] 0 36).matricesUnaligned.map List.length
          = some 207
      ∧ (HAnimHierarchy.create 3 [1, 2, 3] [10, 20, 30] 2 36).matricesUnaligned = none := by
  have h := HAnimHierarchy.create_nodes 3 [1, 2, 3] [10, 20, 30] 0 36 rfl rfl
  have h2 := HAnimHierarchy.create_nodes 3 [1, 2, 3] [10, 20, 30] 2 36 rfl rfl
  refine ⟨by decide, ?_, h2.2.2.2.2.2.1.2 (by decide)⟩
  obtain ⟨buf, hb, hl⟩ := h.2.2.2.2.2.2 (by decide)
  rw [hb, Option.map_some', hl]

theorem getIndexLoop_ge (id : Int) :
    ∀ (nodes : List HAnimNodeInfo) (i : Nat),
      getIndexLoop id nodes i = -1 ∨ (i : Int) ≤ getIndexLoop id nodes i := by
  intro nodes
  induction nodes with
  | nil => intro i; left; rfl
  | cons node rest ih =>
    intro i
    unfold getIndexLoop
    split
    · right; exact le_refl _
    · rcases ih (i + 1) with h | h
      · left; exact h
      · right
        push_cast at h
        omega

theorem getIndexLoop_spec (id : Int) :
    ∀ (nodes : List HAnimNodeInfo) (i : Nat),
      (getIndexLoop id nodes i = -1 ↔ ∀ node ∈ nodes, node.id ≠ id)
        ∧ (∀ k : Nat, getIndexLoop id nodes i = ((i + k : Nat) : Int) ↔
            ((nodes[k]?.map (fun node => node.id)) = some id
              ∧ ∀ j, j < k → (nodes[j]?.map (fun node => node.id)) ≠ some id)) := by
  intro nodes
  induction nodes with
  | nil =>
    intro i
    constructor
    · simp [getIndexLoop]
    · intro k
      simp only [getIndexLoop, List.getElem?_nil, Option.map_none']
      constructor
      · intro h; omega
      · intro h; exact absurd h.1 (by simp)
  | cons node rest ih =>
    intro i
    obtain ⟨ih1, ih2⟩ := ih (i + 1)
    by_cases hid : node.id = id
    · constructor
      · simp only [getIndexLoop, hid, if_true]
        constructor
        · intro h; omega
        · intro h; exact absurd hid (h node (List.mem_cons_self _ _))
      · intro k
        simp only [getIndexLoop, hid, if_true]
        constructor
        · intro h
          have hk : k = 0 := by omega
          subst hk
          exact ⟨by simp [hid], fun j hj => absurd hj (by omega)⟩
        · intro h
          cases k with
          | zero => rfl
          | succ k => exact absurd (by simp [hid]) (h.2 0 (by omega))
    · constructor
      · simp only [getIndexLoop, hid, if_false]
        rw [ih1]
        constructor
        · intro h x hx
          rcases List.mem_cons.1 hx with rfl | hx
          · exact hid
          · exact h x hx
        · intro h x hx
          exact h x (List.mem_cons_of_mem _ hx)
      · intro k
        simp only [getIndexLoop, hid, if_false]
        cases k with
        | zero =>
          constructor
          · intro h
            exfalso
            rcases getIndexLoop_ge id rest (i + 1) with h0 | h0
            · rw [h0] at h
              omega
            · rw [h] at h0
              push_cast at h0
              omega
          · intro h
            exact absurd (by simpa using h.1) hid
        | succ k =>
          have e : ((i + (k + 1) : Nat) : Int) = ((i + 1 + k : Nat) : Int) := by
            congr 1; omega
          rw [e, ih2 k]
          constructor
          · intro h
            refine ⟨by simpa using h.1, ?_⟩
            intro j hj
            cases j with
            | zero => simp [hid]
            | succ j => simpa using h.2 j (by omega)
          · intro h
            refine ⟨by simpa using h.1, ?_⟩
            intro j hj
            simpa using h.2 (j + 1) (by omega)

/-- The ids of the nodes `HAnimHierarchy::create` builds are the given ids. -/
theorem HAnimHierarchy.create_ids (n : Nat) (nodeFlags nodeIDs : List Int)
    (flags maxKeySize : Int) (hi : nodeIDs.length = n) (j : Nat) :
    (HAnimHierarchy.create n nodeFlags nodeIDs flags maxKeySize).nodeInfo[j]?.map
        (fun node => node.id) = nodeIDs[j]? := by
  unfold HAnimHierarchy.create
  by_cases hj : j < n
  · simp only [List.getElem?_map, List.getElem?_range hj, Option.map_some']
    rw [List.getD_eq_getElem?_getD, List.getElem?_eq_getElem (by omega)]
    rfl
  · rw [List.getElem?_eq_none (by simp; omega), List.getElem?_eq_none (by omega)]
    rfl

/-- C30: for every hierarchy and id, `HAnimHierarchy::getIndex` returns -1 or
the position of a node; it returns -1 exactly when no node has the id, and it
returns `k` exactly when node `k` has the id and no node before it has; hence
for a hierarchy built by `HAnimHierarchy::create` from pairwise distinct node
ids, `getIndex(nodeIDs[i])` is `i`, which is also the index stored in that
node. -/
theorem HAnimHierarchy.getIndex_first :
    (∀ (hier : HAnimHierarchy) (id : Int),
        (hier.getIndex id = -1 ∨ ∃ k : Nat, k < hier.numNodes ∧ hier.getIndex id = (k : Int))
          ∧ (hier.getIndex id = -1 ↔ ∀ node ∈ hier.nodeInfo, node.id ≠ id)
          ∧ ∀ k : Nat, hier.getIndex id = (k : Int) ↔
              (hier.nodeInfo[k]?.map (fun node => node.id) = some id
                ∧ ∀ j, j < k → hier.nodeInfo[j]?.map (fun node => node.id) ≠ some id))
      ∧ (∀ (n : Nat) (nodeFlags nodeIDs : List Int) (flags maxKeySize : Int),
          nodeIDs.length = n → nodeIDs.Nodup →
          ∀ (i : Nat) (id : Int), nodeIDs[i]? = some id →
            (HAnimHierarchy.create n nodeFlags nodeIDs flags maxKeySize).getIndex id = (i : Int)
              ∧ (HAnimHierarchy.create n nodeFlags nodeIDs flags maxKeySize).nodeInfo[i]?.map
                  (fun node => node.index) = some (i : Int)) := by
  have hk : ∀ (hier : HAnimHierarchy) (id : Int) (k : Nat), hier.getIndex id = (k : Int) ↔
      (hier.nodeInfo[k]?.map (fun node => node.id) = some id
        ∧ ∀ j, j < k → hier.nodeInfo[j]?.map (fun node => node.id) ≠ some id) := by
    intro hier id k
    have h := (getIndexLoop_spec id hier.nodeInfo 0).2 k
    rw [Nat.zero_add] at h
    exact h
  constructor
  · intro hier id
    refine ⟨?_, (getIndexLoop_spec id hier.nodeInfo 0).1, hk hier id⟩
    rcases getIndexLoop_ge id hier.nodeInfo 0 with h | h
    · left; exact h
    · right
      have hnn : hier.getIndex id = ((hier.getIndex id).toNat : Int) :=
        (Int.toNat_of_nonneg h).symm
      refine ⟨(hier.getIndex id).toNat, ?_, hnn⟩
      have h1 := ((hk hier id _).1 hnn).1
      by_contra hge
      rw [List.getElem?_eq_none (by unfold HAnimHierarchy.numNodes at hge; omega)] at h1
      simp at h1
  · intro n nodeFlags nodeIDs flags maxKeySize hlen hnd i id hi
    have hlt : i < n := by
      by_contra hge
      rw [List.getElem?_eq_none (by omega)] at hi
      simp at hi
    constructor
    · rw [hk]
      refine ⟨by rw [HAnimHierarchy.create_ids n _ _ _ _ hlen, hi], ?_⟩
      intro j hj
      rw [HAnimHierarchy.create_ids n _ _ _ _ hlen, ← hi]
      exact List.nodup_iff_getElem?_ne_getElem?.1 hnd j i hj (by omega)
    · unfold HAnimHierarchy.create
      simp only [List.getElem?_map, List.getElem?_range hlt, Option.map_some']

/-- C30 at the hierarchy `skeletonExample` (ids 10, 20, 30): the id 20 is at
index 1, the id 40 is not there. -/
theorem HAnimHierarchy.getIndex_first_witness :
    skeletonExample.getIndex 20 = 1 ∧ skeletonExample.getIndex 40 = -1
      ∧ skeletonExample.nodeInfo[1]?.map (fun node => node.index) = some 1 := by
  have h := HAnimHierarchy.getIndex_first.2 3 [0, 0, 0] [10, 20, 30] 0 36 rfl (by decide) 1 20 rfl
  exact ⟨h.1, ((HAnimHierarchy.getIndex_first.1 skeletonExample 40).2.1).2 (by decide), h.2⟩

/-! ## Theorems: HAnimHierarchy::find -/

/-- The hierarchy `HAnimHierarchy::find` returns is the first one in search
order. -/
theorem HAnimHierarchy.find_eq (f : Frame) :
    HAnimHierarchy.find f = f.hierarchies.reduceOption.head? := by
  induction f with
  | nil => rfl
  | node addr hanim next child ihn ihc =>
    unfold HAnimHierarchy.find Frame.hierarchies
    cases hh : hanim.hierarchy with
    | some hier => simp [List.reduceOption_cons_of_some]
    | none =>
      simp only [List.reduceOption_cons_of_none, List.reduceOption_append, List.head?_append]
      rw [ihn, ihc]
      cases next.hierarchies.reduceOption.head? <;> rfl

/-- C26: for every frame tree and frame pointer `f`, `HAnimHierarchy::find(f)`
returns the hierarchy of the first frame, in the order of the by-id search (the
frame itself, then what its next sibling reaches, then what its child reaches),
whose HAnim record has a hierarchy, and returns `nil` exactly when no frame
reachable from `f` carries one, in particular when `f` itself is `nil`. -/
theorem HAnimHierarchy.find_first (f : Frame) :
    HAnimHierarchy.find f = f.hierarchies.reduceOption.head?
      ∧ (∀ hier, HAnimHierarchy.find f = some hier ↔
          ∃ before rest, f.hierarchies = before ++ some hier :: rest
            ∧ ∀ h ∈ before, h = none)
      ∧ (HAnimHierarchy.find f = none ↔ ∀ h ∈ f.hierarchies, h = none)
      ∧ HAnimHierarchy.find Frame.nil = none := by
  have hsplit : ∀ (l : List (Option HAnimHierarchy)) (hier : HAnimHierarchy),
      l.reduceOption.head? = some hier ↔
        ∃ before rest, l = before ++ some hier :: rest ∧ ∀ h ∈ before, h = none := by
    intro l
    induction l with
    | nil =>
      intro hier
      simp
    | cons x t ih =>
      intro hier
      cases x with
      | none =>
        rw [List.reduceOption_cons_of_none, ih]
        constructor
        · rintro ⟨before, rest, e, hb⟩
          refine ⟨none :: before, rest, by rw [e]; rfl, ?_⟩
          intro h hh
          rcases List.mem_cons.1 hh with rfl | hh
          · rfl
          · exact hb h hh
        · rintro ⟨before, rest, e, hb⟩
          cases before with
          | nil => simp at e
          | cons b before =>
            rw [List.cons_append, List.cons.injEq] at e
            exact ⟨before, rest, e.2, fun h hh => hb h (List.mem_cons_of_mem _ hh)⟩
      | some y =>
        rw [List.reduceOption_cons_of_some, List.head?_cons]
        constructor
        · intro e
          have e' : y = hier := Option.some.inj e
          subst e'
          exact ⟨[], t, rfl, fun h hh => absurd hh (List.not_mem_nil _)⟩
        · rintro ⟨before, rest, e, hb⟩
          cases before with
          | nil =>
            rw [List.nil_append, List.cons.injEq] at e
            rw [e.1]
          | cons b before =>
            rw [List.cons_append, List.cons.injEq] at e
            have := hb b (List.mem_cons_self _ _)
            rw [← e.1] at this
            exact absurd this (by simp)
  have hnone : ∀ l : List (Option HAnimHierarchy),
      l.reduceOption.head? = none ↔ ∀ h ∈ l, h = none := by
    intro l
    induction l with
    | nil => simp
    | cons x t ih =>
      cases x with
      | none =>
        rw [List.reduceOption_cons_of_none, ih]
        simp
      | some y =>
        rw [List.reduceOption_cons_of_some, List.head?_cons]
        simp
  refine ⟨HAnimHierarchy.find_eq f, ?_, ?_, rfl⟩
  · intro hier
    rw [HAnimHierarchy.find_eq, hsplit]
  · rw [HAnimHierarchy.find_eq, hnone]

/-- C26 at the tree `hierarchyTreeExample`: from the root, the hierarchy found
is the one of frame 5, reached through the next sibling of frame 2, not the one
of frame 4, the child of frame 2; from a lone frame without hierarchy nothing
is found. -/
theorem HAnimHierarchy.find_first_witness :
    (HAnimHierarchy.find hierarchyTreeExample).map (fun h => h.maxInterpKeyFrameSize) = some 5
      ∧ HAnimHierarchy.find (Frame.node 3 createHAnim Frame.nil Frame.nil) = none := by
  constructor
  · rw [(HAnimHierarchy.find_first hierarchyTreeExample).1]
    decide
  · exact (HAnimHierarchy.find_first (Frame.node 3 createHAnim Frame.nil Frame.nil)).2.2.1.2
      (by decide)

/-! ## Theorems: negative ids -/

/-- C29: the by-id frame search never matches a negative id: for every frame
tree and every node of a hierarchy whose id is negative,
`HAnimHierarchy::attach` leaves that node without frame, whatever ids the frames
carry, also the id -1 that `createHAnim` gives every freshly constructed
frame. -/
theorem HAnimHierarchy.attach_negative_id (hier : HAnimHierarchy) (parentFrame : Frame)
    (i : Nat) (node : HAnimNodeInfo) (hnode : hier.nodeInfo[i]? = some node)
    (hneg : node.id < 0) :
    (hier.attach parentFrame).nodeInfo[i]? = some { node with frame := none }
      ∧ findById parentFrame node.id = Frame.nil
      ∧ createHAnim.id = -1 := by
  refine ⟨?_, ?_, rfl⟩
  · rw [HAnimHierarchy.attach_eq]
    simp only [List.getElem?_map, hnode, Option.map_some', Frame.firstWithValidId_eq]
    rw [if_neg (by omega)]
  · induction parentFrame with
    | nil => rfl
    | node addr hanim next child ihn ihc =>
      unfold findById
      rw [if_neg (by intro h; omega), ihn]
      simpa using ihc

/-- C29 at the hierarchy with the node ids -1 and 10 over `frameTreeExample`,
whose frames 1 and 3 carry the id -1: node 0 stays without frame, node 1 is
bound to frame 2. -/
theorem HAnimHierarchy.attach_negative_id_witness :
    (negativeIdExample.attach frameTreeExample).nodeInfo.map (fun node => (node.id, node.frame))
        = [(-1, none), (10, some 2)]
      ∧ frameTreeExample.firstWithId (-1) = some 1 := by
  have h := HAnimHierarchy.attach_negative_id negativeIdExample frameTreeExample 0
    { id := -1, index := 0, flags := 0, frame := none } rfl (by decide)
  have h1 : (negativeIdExample.attach frameTreeExample).nodeInfo[1]?
      = some { id := 10, index := 1, flags := 0, frame := some 2 } := by decide
  have hl : (negativeIdExample.attach frameTreeExample).nodeInfo.length = 2 := by decide
  refine ⟨?_, by decide⟩
  apply List.ext_getElem?
  intro k
  match k with
  | 0 => rw [List.getElem?_map, h.1]; rfl
  | 1 => rw [List.getElem?_map, h1]; rfl
  | k + 2 =>
    rw [List.getElem?_eq_none (by rw [List.length_map, hl]; omega)]
    rfl

end rw
